import Mathlib

/-!
# Source session of the message bus

A shallow embedding of `messagebus/src/vespa/messagebus/sourcesession.cpp`
(`mbus::SourceSession`) and a verification of its send / reply / close protocol.

One call of a member function is one step of the model: the statements of the
call are executed in source order on an explicit session state, and the calls
the session makes on its collaborators (throttle policy, sequencer, downstream
reply handler, lock and condition variable) are recorded, in order, as a list
of `Effect`s.  Assertion failures end the call with a `Fatal` value.
-/

namespace mbus

/-! ## Collaborators whose code is outside `sourcesession.cpp` -/

/-- Modelled from the spec: a reference to a reply handler (`IReplyHandler &`), the
entries of a handler chain.  `sourceSession` is the session itself (`*this`), every
other handler is named by a number. -/
inductive Handler where
  | sourceSession
  | external (id : Nat)
deriving DecidableEq, Repr

/-- Modelled from the spec: a route (`route.h` is not among the sources); the session
only stores routes on messages, so a route is represented by its hops. -/
structure Route where
  hops : List String
deriving DecidableEq, Repr

/-- Modelled from the spec: the level `TraceLevel::COMPONENT` (`tracelevel.h` is not
among the sources).  No theorem below depends on its value. -/
def TraceLevel.COMPONENT : Nat := 6

/-- Modelled from the spec: the trace context of a message or reply (`trace.h` is not
among the sources): the level up to which notes are recorded, and the notes. -/
structure Trace where
  level : Nat
  notes : List String
deriving DecidableEq, Repr

/-- Modelled from the spec: `Trace::shouldTrace(level)`, whether notes of `level` are
recorded by this trace context. -/
def Trace.shouldTrace (t : Trace) (level : Nat) : Bool :=
  decide (level ≤ t.level)

/-- Modelled from the spec: `Trace::trace(level, note)`, best-effort recording of a
note; a note above the trace level is discarded. -/
def Trace.trace (t : Trace) (level : Nat) (note : String) : Trace :=
  if t.shouldTrace level then { t with notes := t.notes ++ [note] } else t

/-- Modelled from the spec: a message (`message.h`, `routable.h` are not among the
sources), with the attributes the spec's data model lists: payload (opaque to the
session), protocol, route, time-received, remaining-time, approximate size, trace
context and the handler chain.  The head of `callStack` is the top of the chain,
the entry pushed last. -/
structure Message where
  payload : Nat
  protocol : String
  route : Route
  timeReceived : Int
  timeRemaining : Int
  approxSize : Nat
  trace : Trace
  callStack : List Handler
deriving DecidableEq, Repr

/-- Modelled from the spec: a reply; it carries the handler chain of the message it
answers, a trace context and a payload. -/
structure Reply where
  payload : Nat
  trace : Trace
  callStack : List Handler
deriving DecidableEq, Repr

/-- Modelled from the spec: `Message::setTimeReceivedNow()`; the clock reading is the
argument `now`. -/
def Message.setTimeReceivedNow (m : Message) (now : Int) : Message :=
  { m with timeReceived := now }

/-- Modelled from the spec: `Message::getTimeRemaining()`, the stored budget. -/
def Message.getTimeRemaining (m : Message) : Int := m.timeRemaining

/-- Modelled from the spec: `Message::setTimeRemaining(d)`. -/
def Message.setTimeRemaining (m : Message) (d : Int) : Message :=
  { m with timeRemaining := d }

/-- Modelled from the spec: `Message::setRoute(route)`. -/
def Message.setRoute (m : Message) (r : Route) : Message :=
  { m with route := r }

/-- Modelled from the spec: `Routable::pushHandler(handler)`: push appends on top of
the handler chain. -/
def Message.pushHandler (m : Message) (h : Handler) : Message :=
  { m with callStack := h :: m.callStack }

/-- Modelled from the spec: `CallStack::pop(reply)`: removes and returns the most
recently pushed entry; there is none on an empty chain. -/
def Reply.pop (r : Reply) : Option (Handler × Reply) :=
  match r.callStack with
  | [] => none
  | h :: rest => some (h, { r with callStack := rest })

/-- Modelled from the spec: the throttle policy interface (`ithrottlepolicy.h` is not
among the sources) over a policy state `P`: `canSend` is a pure predicate of the
policy state, the message and the current pending count; `processMessage` and
`processReply` update the policy state. -/
class IThrottlePolicy (P : Type) where
  canSend : P → Message → Nat → Bool
  processMessage : P → Message → P
  processReply : P → Reply → P

/-- Modelled from the spec: the unconditional-accept policy variant. -/
structure AcceptAllPolicy where
  seen : Nat
deriving DecidableEq, Repr

instance : IThrottlePolicy AcceptAllPolicy where
  canSend _ _ _ := true
  processMessage p _ := { seen := p.seen + 1 }
  processReply p _ := p

/-- Modelled from the spec: the static-capacity policy variant, capping the pending
count and the cumulative size in flight. -/
structure StaticPolicy where
  maxPendingCount : Nat
  maxPendingSize : Nat
  pendingSize : Nat
deriving DecidableEq, Repr

instance : IThrottlePolicy StaticPolicy where
  canSend p _ pendingCount :=
    decide (pendingCount < p.maxPendingCount) && decide (p.pendingSize < p.maxPendingSize)
  processMessage p m := { p with pendingSize := p.pendingSize + m.approxSize }
  processReply p _ := p

/-- Modelled from the spec: a routing table of one protocol, `getRoute(name)` giving
the route of that name when there is one. -/
structure RoutingTable where
  routes : List (String × Route)
deriving DecidableEq, Repr

/-- Modelled from the spec: `RoutingTable::getRoute(name)`. -/
def RoutingTable.getRoute (rt : RoutingTable) (name : String) : Option Route :=
  (rt.routes.find? (fun e => e.1 == name)).map (fun e => e.2)

/-- Modelled from the spec: the part of the message bus the session consults, its
routing tables by protocol name, and the route parser `Route::parse`. -/
structure MessageBus where
  tables : List (String × RoutingTable)
  parse : String → Route

/-- Modelled from the spec: `MessageBus::getRoutingTable(protocol)`. -/
def MessageBus.getRoutingTable (mb : MessageBus) (protocol : String) : Option RoutingTable :=
  (mb.tables.find? (fun e => e.1 == protocol)).map (fun e => e.2)

/-- Error codes the session returns (`errorcode.h`). -/
inductive ErrorCode where
  | SEND_QUEUE_CLOSED
  | SEND_QUEUE_FULL
  | ILLEGAL_ROUTE
deriving DecidableEq, Repr

/-- Value of `Error(code, message)`. -/
structure Error where
  code : ErrorCode
  message : String
deriving DecidableEq, Repr

/-- Value of `Result`: `Result()` is the success value, without error and without
message; `Result(error, msg)` carries the rejected message back. -/
structure Result where
  error : Option Error
  msg : Option Message
deriving DecidableEq, Repr

/-- Value of `Result()`. -/
def Result.accepted : Result := { error := none, msg := none }

/-- Value of `Result(Error(code, text), std::move(msg))`. -/
def Result.rejected (code : ErrorCode) (text : String) (m : Message) : Result :=
  { error := some { code := code, message := text }, msg := some m }

/-- Calls the session makes on its collaborators, in the order of the source. -/
inductive Effect where
  | lock
  | unlock
  | canSend (msg : Message) (pendingCount : Nat)
  | processMessage (msg : Message)
  | processReply (reply : Reply)
  | sequencerHandleMessage (msg : Message)
  | handlerHandleReply (handler : Handler) (reply : Reply)
  | condWait
  | condNotifyAll
  | gateClose
  | mbusSync
  | gateSubRef
deriving DecidableEq, Repr

/-- Abnormal terminations of a call: a failed `assert`, or a pop on an empty chain. -/
inductive Fatal where
  | assertHasReplyHandler
  | assertPendingCountPositive
  | assertPendingCountZero
  | assertClosed
  | emptyCallStack
deriving DecidableEq, Repr

/-! ## The session -/

/-- Member variables of `SourceSession` that the member functions read or write.
Modelled from the spec: the declaration of the counter `_pendingCount`
(`sourcesession.h`) is not among the sources; the spec's data model gives a pending
counter with invariant `≥ 0`, a natural number here. -/
structure SourceSession (P : Type) where
  replyHandler : Handler
  throttlePolicy : Option P
  timeout : Int
  pendingCount : Nat
  closed : Bool
  done : Bool
deriving DecidableEq, Repr

/-- What one call of `send` produces: the session afterwards, the returned `Result`
and the calls made on collaborators. -/
structure SendOutcome (P : Type) where
  session : SourceSession P
  result : Result
  effects : List Effect
deriving DecidableEq, Repr

/-- Lines 74-77 of `send(Message::UP)`: stamp the time received, and apply the default
timeout when no time remains on the message. -/
def SourceSession.stamp {P : Type} (s : SourceSession P) (now : Int) (msg : Message) : Message :=
  let msg := msg.setTimeReceivedNow now
  if msg.getTimeRemaining = 0 then msg.setTimeRemaining s.timeout else msg

/-- Lines 94-98 of `send(Message::UP)`: the optional trace note. -/
def SourceSession.traceAccepted (msg : Message) (pendingCount : Nat) : Message :=
  if msg.trace.shouldTrace TraceLevel.COMPONENT then
    let note := "Source session accepted a " ++ toString msg.approxSize ++ " byte message. "
      ++ toString pendingCount ++ " message(s) now pending."
    { msg with trace := Trace.trace msg.trace TraceLevel.COMPONENT note }
  else msg

/-- The effect `e` when a throttle policy is configured (`if (_throttlePolicy)`),
nothing otherwise. -/
def SourceSession.withPolicy {P : Type} (s : SourceSession P) (e : Effect) : List Effect :=
  if s.throttlePolicy.isSome then [e] else []

/-- Condition of line 83, `_throttlePolicy && !_throttlePolicy->canSend(*msg, _pendingCount)`. -/
def SourceSession.queueFull {P : Type} [IThrottlePolicy P] (s : SourceSession P)
    (msg : Message) : Bool :=
  match s.throttlePolicy with
  | some p => !(IThrottlePolicy.canSend p msg s.pendingCount)
  | none => false

/-- Embedding of `SourceSession::send(Message::UP msg)`, lines 71-102. -/
def SourceSession.send {P : Type} [IThrottlePolicy P] (s : SourceSession P) (now : Int)
    (msg : Message) : SendOutcome P :=
  let msg := s.stamp now msg
  if s.closed then
    { session := s
      result := Result.rejected ErrorCode.SEND_QUEUE_CLOSED "Source session is closed." msg
      effects := [Effect.lock, Effect.unlock] }
  else if s.queueFull msg then
    { session := s
      result := Result.rejected ErrorCode.SEND_QUEUE_FULL
        ("Too much pending data (" ++ toString s.pendingCount ++ " messages).") msg
      effects := [Effect.lock, Effect.canSend msg s.pendingCount, Effect.unlock] }
  else
    let msg1 := msg.pushHandler s.replyHandler
    let policy1 := s.throttlePolicy.map (fun p => IThrottlePolicy.processMessage p msg1)
    let pending := s.pendingCount + 1
    let msg2 := SourceSession.traceAccepted msg1 pending
    let msg3 := msg2.pushHandler Handler.sourceSession
    { session := { s with throttlePolicy := policy1, pendingCount := pending }
      result := Result.accepted
      effects := [Effect.lock] ++ s.withPolicy (Effect.canSend msg s.pendingCount)
        ++ s.withPolicy (Effect.processMessage msg1)
        ++ [Effect.unlock, Effect.sequencerHandleMessage msg3] }

/-- Embedding of `SourceSession::send(Message::UP msg, const Route &route)`,
lines 64-69. -/
def SourceSession.send_route {P : Type} [IThrottlePolicy P] (s : SourceSession P) (now : Int)
    (msg : Message) (route : Route) : SendOutcome P :=
  s.send now (msg.setRoute route)

/-- Embedding of `SourceSession::send(Message::UP msg, const string &routeName,
bool parseIfNotFound)`, lines 40-62. -/
def SourceSession.send_routeName {P : Type} [IThrottlePolicy P] (mb : MessageBus)
    (s : SourceSession P) (now : Int) (msg : Message) (routeName : String)
    (parseIfNotFound : Bool) : SendOutcome P :=
  match mb.getRoutingTable msg.protocol with
  | some rt =>
    match rt.getRoute routeName with
    | some route => s.send now (msg.setRoute route)
    | none =>
      if !parseIfNotFound then
        { session := s
          result := Result.rejected ErrorCode.ILLEGAL_ROUTE
            ("Route '" ++ routeName ++ "' not found.") msg
          effects := [] }
      else s.send now (msg.setRoute (mb.parse routeName))
  | none =>
    if !parseIfNotFound then
      { session := s
        result := Result.rejected ErrorCode.ILLEGAL_ROUTE
          ("No routing table available for protocol '" ++ msg.protocol ++ "'.") msg
        effects := [] }
    else s.send now (msg.setRoute (mb.parse routeName))

/-- What one call of `handleReply` produces when it does not terminate abnormally. -/
structure ReplyOutcome (P : Type) where
  session : SourceSession P
  effects : List Effect
deriving DecidableEq, Repr

/-- Lines 117-120 of `handleReply`: the optional trace note. -/
def SourceSession.traceReply (reply : Reply) (pendingCount : Nat) : Reply :=
  if reply.trace.shouldTrace TraceLevel.COMPONENT then
    let note := "Source session received reply. " ++ toString pendingCount
      ++ " message(s) now pending."
    { reply with trace := Trace.trace reply.trace TraceLevel.COMPONENT note }
  else reply

/-- First critical section of `handleReply`, lines 108-116: the assertion, the
decrement, `processReply`, and the value of the local variable `done`. -/
def SourceSession.handleReply_locked {P : Type} [IThrottlePolicy P] (s : SourceSession P)
    (reply : Reply) : Except Fatal (SourceSession P × Bool) :=
  if ¬ (s.pendingCount > 0) then Except.error Fatal.assertPendingCountPositive
  else
    let s1 : SourceSession P :=
      { s with
        pendingCount := s.pendingCount - 1
        throttlePolicy := s.throttlePolicy.map (fun p => IThrottlePolicy.processReply p reply) }
    Except.ok (s1, s1.closed && s1.pendingCount == 0)

/-- Second critical section of `handleReply`, lines 124-129, entered when the local
variable `done` is true: the two assertions and the assignment of `_done`. -/
def SourceSession.handleReply_finish {P : Type} (s : SourceSession P) :
    Except Fatal (SourceSession P) :=
  if ¬ (s.pendingCount = 0) then Except.error Fatal.assertPendingCountZero
  else if ¬ (s.closed = true) then Except.error Fatal.assertClosed
  else Except.ok { s with done := true }

/-- Embedding of `SourceSession::handleReply(Reply::UP reply)`, lines 104-132.  A failed
`assert` (lines 110, 126, 127) ends the call with the matching `Fatal`. -/
def SourceSession.handleReply {P : Type} [IThrottlePolicy P] (s : SourceSession P)
    (reply : Reply) : Except Fatal (ReplyOutcome P) :=
  match s.handleReply_locked reply with
  | Except.error f => Except.error f
  | Except.ok (s1, done) =>
    let reply1 := SourceSession.traceReply reply s1.pendingCount
    match reply1.pop with
    | none => Except.error Fatal.emptyCallStack
    | some (handler, reply2) =>
      let section1 := [Effect.lock] ++ s.withPolicy (Effect.processReply reply)
        ++ [Effect.unlock, Effect.handlerHandleReply handler reply2]
      if done then
        match s1.handleReply_finish with
        | Except.error f => Except.error f
        | Except.ok s2 => Except.ok
            { session := s2
              effects := section1 ++ [Effect.lock, Effect.unlock, Effect.condNotifyAll] }
      else Except.ok { session := s1, effects := section1 }

/-- What one call of `close` produces up to its first test of the loop condition:
`blocked` tells whether the caller enters `_cond.wait`. -/
structure CloseOutcome (P : Type) where
  session : SourceSession P
  blocked : Bool
  effects : List Effect
deriving DecidableEq, Repr

/-- Embedding of `SourceSession::close()`, lines 134-145: the assignments under the
lock and the first test of `while (!_done)`. -/
def SourceSession.close {P : Type} (s : SourceSession P) : CloseOutcome P :=
  let s1 : SourceSession P := { s with closed := true }
  let s2 : SourceSession P := if s1.pendingCount = 0 then { s1 with done := true } else s1
  if !s2.done then
    { session := s2, blocked := true, effects := [Effect.lock, Effect.condWait] }
  else
    { session := s2, blocked := false, effects := [Effect.lock, Effect.unlock] }

/-- Loop condition of lines 142-144: a caller of `close` that waits on `_cond` keeps
waiting as long as this holds of the session. -/
def SourceSession.closeWaits {P : Type} (s : SourceSession P) : Bool := !s.done

/-- Embedding of `SourceSession::setTimeout(duration timeout)`, lines 147-153; the
returned `*this` is the session afterwards. -/
def SourceSession.setTimeout {P : Type} (s : SourceSession P) (timeout : Int) :
    SourceSession P :=
  { s with timeout := timeout }

/-- Modelled from the spec: the parameters a session is constructed from
(`sourcesessionparams.h` is not among the sources): an optional reply handler, an
optional throttle policy and the default timeout. -/
structure SourceSessionParams (P : Type) where
  replyHandler : Option Handler
  throttlePolicy : Option P
  timeout : Int
deriving DecidableEq, Repr

/-- Embedding of the constructor `SourceSession::SourceSession`, lines 15-28. -/
def SourceSession.create {P : Type} (params : SourceSessionParams P) :
    Except Fatal (SourceSession P) :=
  match params.replyHandler with
  | none => Except.error Fatal.assertHasReplyHandler
  | some h => Except.ok
      { replyHandler := h, throttlePolicy := params.throttlePolicy, timeout := params.timeout,
        pendingCount := 0, closed := false, done := false }

/-! ## Sequences of calls -/

/-- A call of a public member function of the session, with its arguments. -/
inductive Step where
  | send (now : Int) (msg : Message)
  | send_route (now : Int) (msg : Message) (route : Route)
  | send_routeName (now : Int) (msg : Message) (routeName : String) (parseIfNotFound : Bool)
  | handleReply (reply : Reply)
  | close
  | setTimeout (timeout : Int)

/-- The record of a call that did not terminate abnormally (for `close`, up to its first
test of the loop condition): the call, the `Result` it returned when it is a send, and
the calls it made on collaborators. -/
structure Event where
  call : Step
  result : Option Result
  effects : List Effect

/-- One call on the session: the session afterwards and the record of the call. -/
def step {P : Type} [IThrottlePolicy P] (mb : MessageBus) (s : SourceSession P)
    (c : Step) : Except Fatal (SourceSession P × Event) :=
  match c with
  | Step.send now msg =>
    let o := s.send now msg
    Except.ok (o.session, { call := c, result := some o.result, effects := o.effects })
  | Step.send_route now msg route =>
    let o := s.send_route now msg route
    Except.ok (o.session, { call := c, result := some o.result, effects := o.effects })
  | Step.send_routeName now msg routeName parseIfNotFound =>
    let o := SourceSession.send_routeName mb s now msg routeName parseIfNotFound
    Except.ok (o.session, { call := c, result := some o.result, effects := o.effects })
  | Step.handleReply reply =>
    match s.handleReply reply with
    | Except.error f => Except.error f
    | Except.ok o => Except.ok (o.session, { call := c, result := none, effects := o.effects })
  | Step.close =>
    let o := s.close
    Except.ok (o.session, { call := c, result := none, effects := o.effects })
  | Step.setTimeout timeout =>
    Except.ok (s.setTimeout timeout,
      { call := c, result := none, effects := [Effect.lock, Effect.unlock] })

/-- A sequence of calls, one after the other; it ends at the first abnormal
termination.  The result is the final session and the record of the calls. -/
def run {P : Type} [IThrottlePolicy P] (mb : MessageBus) (s : SourceSession P) :
    List Step → Except Fatal (SourceSession P × List Event)
  | [] => Except.ok (s, [])
  | c :: cs =>
    match step mb s c with
    | Except.error f => Except.error f
    | Except.ok (s1, e) =>
      match run mb s1 cs with
      | Except.error f => Except.error f
      | Except.ok (s2, log) => Except.ok (s2, e :: log)

/-- Whether a recorded call is a send that was accepted (returned `Result()`). -/
def Event.isAcceptedSend (e : Event) : Bool :=
  match e.result with
  | some r => decide (r = Result.accepted)
  | none => false

/-- Whether a recorded call is a completed `handleReply`. -/
def Event.isReply (e : Event) : Bool :=
  match e.call with
  | Step.handleReply _ => true
  | _ => false

/-- Number of accepted sends in a record of calls. -/
def acceptedSends (log : List Event) : Nat := (log.filter Event.isAcceptedSend).length

/-- Number of completed `handleReply` calls in a record of calls. -/
def completedReplies (log : List Event) : Nat := (log.filter Event.isReply).length

/-- The message an effect hands to the sequencer, when it is such a call. -/
def Effect.handedMessage : Effect → Option Message
  | Effect.sequencerHandleMessage m => some m
  | _ => none

/-- The message an effect passes to `processMessage`, when it is such a call. -/
def Effect.processedMessage : Effect → Option Message
  | Effect.processMessage m => some m
  | _ => none

/-- The messages handed to the sequencer by a list of effects, in order. -/
def handedToSequencer (es : List Effect) : List Message := es.filterMap Effect.handedMessage

/-- The messages `processMessage` was called with by a list of effects, in order. -/
def processedMessages (es : List Effect) : List Message := es.filterMap Effect.processedMessage

/-- A session state that a freshly constructed session reaches by a sequence of calls. -/
def Reachable {P : Type} [IThrottlePolicy P] (mb : MessageBus) (s : SourceSession P) : Prop :=
  ∃ (params : SourceSessionParams P) (s0 : SourceSession P) (calls : List Step)
    (log : List Event),
    SourceSession.create params = Except.ok s0 ∧ run mb s0 calls = Except.ok (s, log)

/-- Lifecycle state of a session: 0 is OPEN, 1 is CLOSING, 2 is DONE. -/
def SourceSession.phase {P : Type} (s : SourceSession P) : Nat :=
  if s.done then 2 else if s.closed then 1 else 0

/-- The message object `m` is `msg` after calls of the session on it: the attributes no
send ever writes (payload, protocol, approximate size) are those of `msg`. -/
def Message.sameObject (m msg : Message) : Prop :=
  m.payload = msg.payload ∧ m.protocol = msg.protocol ∧ m.approxSize = msg.approxSize

/-- Outcome (a) of a send: success without error and without message, and exactly one
message, the one passed in, handed to the sequencer. -/
def SendOutcome.isAccepted {P : Type} (o : SendOutcome P) (msg : Message) : Prop :=
  o.result = Result.accepted ∧
    ∃ m, handedToSequencer o.effects = [m] ∧ m.sameObject msg

/-- Outcome (b) of a send: an error whose code is one of `codes`, the message passed in
carried by the result, and nothing handed to the sequencer. -/
def SendOutcome.isRejected {P : Type} (o : SendOutcome P) (msg : Message)
    (codes : List ErrorCode) : Prop :=
  (∃ e m, o.result.error = some e ∧ e.code ∈ codes ∧ o.result.msg = some m ∧ m.sameObject msg)
    ∧ handedToSequencer o.effects = []

/-- What every overload of send does to the session: closed, done, default timeout and
reply handler are kept, and either the send is accepted on an open session and the
pending count grows by one, or it is not accepted and the session is unchanged. -/
def SendOutcome.respects {P : Type} (o : SendOutcome P) (s : SourceSession P) : Prop :=
  o.session.closed = s.closed ∧ o.session.done = s.done ∧ o.session.timeout = s.timeout ∧
    o.session.replyHandler = s.replyHandler ∧
    ((o.result = Result.accepted ∧ s.closed = false ∧
        o.session.pendingCount = s.pendingCount + 1) ∨
      (o.result ≠ Result.accepted ∧ o.session = s))

/-- Whether a call is one of the three overloads of send. -/
def Step.isSend : Step → Bool
  | Step.send _ _ => true
  | Step.send_route _ _ _ => true
  | Step.send_routeName _ _ _ _ => true
  | _ => false

/-- Invariant of the done flag: it is set only on a closed and drained session. -/
def SourceSession.doneImpliesDrained {P : Type} (s : SourceSession P) : Prop :=
  s.done = true → s.closed = true ∧ s.pendingCount = 0

/-- A message with nothing set: no time received, no time remaining, empty chain. -/
def exampleMessage : Message :=
  { payload := 42, protocol := "document", route := { hops := ["dest"] },
    timeReceived := 0, timeRemaining := 0, approxSize := 10,
    trace := { level := 0, notes := [] }, callStack := [Handler.external 7] }

/-- An open session without pending messages, accepting everything, timeout 5000. -/
def exampleSession : SourceSession AcceptAllPolicy :=
  { replyHandler := Handler.external 1, throttlePolicy := some { seen := 0 },
    timeout := 5000, pendingCount := 0, closed := false, done := false }

/-- A closed and drained session. -/
def exampleClosed : SourceSession AcceptAllPolicy :=
  { exampleSession with closed := true, done := true }

/-- An open session whose static policy admits at most one pending message, with one
message pending. -/
def exampleFull : SourceSession StaticPolicy :=
  { replyHandler := Handler.external 1
    throttlePolicy := some { maxPendingCount := 1, maxPendingSize := 100, pendingSize := 10 }
    timeout := 5000, pendingCount := 1, closed := false, done := false }

/-- A message bus with one routing table, for protocol `document`, holding route `default`. -/
def exampleBus : MessageBus :=
  { tables := [("document", { routes := [("default", { hops := ["a", "b"] })] })]
    parse := fun name => { hops := [name] } }

/-- Parameters of the example session: reply handler 1, accept-all policy, timeout 5000. -/
def exampleParams : SourceSessionParams AcceptAllPolicy :=
  { replyHandler := some (Handler.external 1), throttlePolicy := some { seen := 0 },
    timeout := 5000 }

/-- A reply as it reaches the session: the reply handler on top of the chain the message
was sent with. -/
def exampleReply : Reply :=
  { payload := 43, trace := { level := 0, notes := [] },
    callStack := [Handler.external 1, Handler.external 7] }

/-- Two sends and one reply. -/
def exampleCalls : List Step :=
  [Step.send 1 exampleMessage, Step.send 2 exampleMessage, Step.handleReply exampleReply]

/-- The example session after `exampleCalls`: one message pending. -/
def examplePending : SourceSession AcceptAllPolicy :=
  { replyHandler := Handler.external 1, throttlePolicy := some { seen := 2 },
    timeout := 5000, pendingCount := 1, closed := false, done := false }

/-- The record of `exampleCalls` on the example session. -/
def exampleLog : List Event :=
  match run exampleBus exampleSession exampleCalls with
  | Except.ok (_, log) => log
  | Except.error _ => []


/-! ## Handler chains and delivery -/

/-- Pushing the handlers `hs` onto the chain of a message, the first entry first. -/
def Message.pushHandlers (m : Message) (hs : List Handler) : Message :=
  hs.foldl Message.pushHandler m

/-- Modelled from the spec: delivery repeatedly pops the top handler of the chain of a
reply and invokes it; the handlers popped by at most `n` pops, in order. -/
def Reply.popN : Nat → Reply → List Handler
  | 0, _ => []
  | n + 1, r =>
    match r.pop with
    | none => []
    | some (h, r1) => h :: Reply.popN n r1

/-- Modelled from the spec: the handlers a reply is delivered to when its chain is popped
until it is empty, in order of invocation. -/
def Reply.popAll (r : Reply) : List Handler := Reply.popN r.callStack.length r

/-- The downstream handler an effect invokes, with the reply passed to it. -/
def Effect.invokedHandler : Effect → Option (Handler × Reply)
  | Effect.handlerHandleReply h r => some (h, r)
  | _ => none

/-- The downstream handler invocations of a list of effects, in order. -/
def invokedHandlers (es : List Effect) : List (Handler × Reply) :=
  es.filterMap Effect.invokedHandler

/-- The example message with an empty handler chain. -/
def exampleBareMessage : Message := { exampleMessage with callStack := [] }

/-- Three handlers A, B, C. -/
def exampleHandlers : List Handler :=
  [Handler.external 10, Handler.external 11, Handler.external 12]

/-- A reply carrying the chain of the message the example session hands to the sequencer
for the bare example message with A, B, C pushed. -/
def exampleRoundTripReply : Reply :=
  { payload := 43, trace := { level := 0, notes := [] },
    callStack := [Handler.sourceSession, Handler.external 1, Handler.external 12,
      Handler.external 11, Handler.external 10] }


/-! ## Calls on the throttle policy -/

/-- The reply an effect passes to `processReply`, when it is such a call. -/
def Effect.processedReply : Effect → Option Reply
  | Effect.processReply r => some r
  | _ => none

/-- The replies `processReply` was called with by a list of effects, in order. -/
def processedReplies (es : List Effect) : List Reply := es.filterMap Effect.processedReply

/-- Number of `processMessage` calls in a record of calls. -/
def processMessageCalls (log : List Event) : Nat :=
  (log.map (fun e => (processedMessages e.effects).length)).sum

/-- Number of `processReply` calls in a record of calls. -/
def processReplyCalls (log : List Event) : Nat :=
  (log.map (fun e => (processedReplies e.effects).length)).sum

/-- Whether a recorded call is a send that failed with `SEND_QUEUE_FULL`. -/
def Event.isQueueFull (e : Event) : Bool :=
  match e.result with
  | some r =>
    match r.error with
    | some err => decide (err.code = ErrorCode.SEND_QUEUE_FULL)
    | none => false
  | none => false

/-- What a recorded call did on the policy of a session whose policy is configured when
`configured` holds: one `processMessage` exactly when it is an accepted send, one
`processReply` exactly when it is a `handleReply`, both only with a policy; and without
a policy it is no send that failed with `SEND_QUEUE_FULL`. -/
def Event.policyCallsMatch (e : Event) (configured : Bool) : Prop :=
  (processedMessages e.effects).length =
      (if configured = true ∧ e.isAcceptedSend = true then 1 else 0) ∧
    (processedReplies e.effects).length =
      (if configured = true ∧ e.isReply = true then 1 else 0) ∧
    (configured = false → e.isQueueFull = false)

/-- The example session without a throttle policy. -/
def exampleNoPolicy : SourceSession AcceptAllPolicy :=
  { exampleSession with throttlePolicy := none }


/-- The example session without policy after `exampleCalls`. -/
def exampleNoPolicyPending : SourceSession AcceptAllPolicy :=
  { examplePending with throttlePolicy := none }

/-- The record of `exampleCalls` on the example session without policy. -/
def exampleNoPolicyLog : List Event :=
  match run exampleBus exampleNoPolicy exampleCalls with
  | Except.ok (_, log) => log
  | Except.error _ => []


/-! ## Trace content -/

/-- A message without its trace content: level 0 and no notes. -/
def Message.eraseTrace (m : Message) : Message :=
  { m with trace := { level := 0, notes := [] } }

/-- A reply without its trace content. -/
def Reply.eraseTrace (r : Reply) : Reply :=
  { r with trace := { level := 0, notes := [] } }

/-- A `Result` without the trace content of the message it carries. -/
def Result.eraseTrace (r : Result) : Result :=
  { r with msg := r.msg.map Message.eraseTrace }

/-- An effect without the trace content of the message or reply it passes. -/
def Effect.eraseTrace : Effect → Effect
  | Effect.canSend m n => Effect.canSend m.eraseTrace n
  | Effect.processMessage m => Effect.processMessage m.eraseTrace
  | Effect.processReply r => Effect.processReply r.eraseTrace
  | Effect.sequencerHandleMessage m => Effect.sequencerHandleMessage m.eraseTrace
  | Effect.handlerHandleReply h r => Effect.handlerHandleReply h r.eraseTrace
  | Effect.lock => Effect.lock
  | Effect.unlock => Effect.unlock
  | Effect.condWait => Effect.condWait
  | Effect.condNotifyAll => Effect.condNotifyAll
  | Effect.gateClose => Effect.gateClose
  | Effect.mbusSync => Effect.mbusSync
  | Effect.gateSubRef => Effect.gateSubRef

/-- What a call of `handleReply` shows apart from trace content and policy state: the
failed assertion, or pending count, closed, done and the calls made. -/
def SourceSession.replyView {P : Type} (r : Except Fatal (ReplyOutcome P)) :
    Except Fatal (Nat × Bool × Bool × List Effect) :=
  match r with
  | Except.error f => Except.error f
  | Except.ok o => Except.ok (o.session.pendingCount, o.session.closed, o.session.done,
      o.effects.map Effect.eraseTrace)

/-- The policies of type `P` do not read the trace context of a message: `canSend`
gives the same answer on two messages that differ only in trace content.  The
unconditional-accept and the static-capacity policy are of this kind. -/
def IThrottlePolicy.ignoresTrace (P : Type) [IThrottlePolicy P] : Prop :=
  ∀ (p : P) (m m1 : Message) (n : Nat), m.eraseTrace = m1.eraseTrace →
    IThrottlePolicy.canSend p m n = IThrottlePolicy.canSend p m1 n

/-- An open session whose static policy admits two pending messages, with one message
pending and the 20 bytes of two accepted messages counted. -/
def exampleStaticPending : SourceSession StaticPolicy :=
  { replyHandler := Handler.external 1
    throttlePolicy := some { maxPendingCount := 2, maxPendingSize := 100, pendingSize := 20 }
    timeout := 5000, pendingCount := 1, closed := false, done := false }

/-- The example message with a trace level that enables COMPONENT tracing. -/
def exampleTracedMessage : Message :=
  { exampleMessage with trace := { level := TraceLevel.COMPONENT, notes := [] } }

/-- The example reply with a trace level that enables COMPONENT tracing. -/
def exampleTracedReply : Reply :=
  { exampleReply with trace := { level := TraceLevel.COMPONENT, notes := [] } }


/-! ## Teardown -/

/-- Embedding of the destructor `SourceSession::~SourceSession`, lines 30-38: the calls it
makes, in order. -/
def SourceSession.destroy {P : Type} (_s : SourceSession P) : List Effect :=
  [Effect.gateClose, Effect.mbusSync, Effect.gateSubRef]

/-! ## Concurrent producers -/

/-- What `send(Message::UP)` has produced when it leaves its critical section (lines
74-93): the session, the `Result` returned at line 81 or 84 when the message is
rejected, the message as it is then, and the calls made. -/
structure LockedOutcome (P : Type) where
  session : SourceSession P
  rejected : Option Result
  msg : Message
  effects : List Effect
deriving DecidableEq, Repr

/-- Lines 74-93 of `send(Message::UP)`: the stamping and the critical section. -/
def SourceSession.send_locked {P : Type} [IThrottlePolicy P] (s : SourceSession P)
    (now : Int) (msg : Message) : LockedOutcome P :=
  let msg := s.stamp now msg
  if s.closed then
    { session := s
      rejected := some
        (Result.rejected ErrorCode.SEND_QUEUE_CLOSED "Source session is closed." msg)
      msg := msg
      effects := [Effect.lock, Effect.unlock] }
  else if s.queueFull msg then
    { session := s
      rejected := some (Result.rejected ErrorCode.SEND_QUEUE_FULL
        ("Too much pending data (" ++ toString s.pendingCount ++ " messages).") msg)
      msg := msg
      effects := [Effect.lock, Effect.canSend msg s.pendingCount, Effect.unlock] }
  else
    let msg1 := msg.pushHandler s.replyHandler
    let policy1 := s.throttlePolicy.map (fun p => IThrottlePolicy.processMessage p msg1)
    { session := { s with throttlePolicy := policy1, pendingCount := s.pendingCount + 1 }
      rejected := none
      msg := msg1
      effects := [Effect.lock] ++ s.withPolicy (Effect.canSend msg s.pendingCount)
        ++ s.withPolicy (Effect.processMessage msg1) ++ [Effect.unlock] }

/-- Lines 94-100 of `send(Message::UP)`, after the lock is released: the trace note, for
which `_pendingCount` is read (its value then is `pendingCount`), and the push of the
session; the result is the message passed to `_sequencer.handleMessage`. -/
def SourceSession.send_unlocked (pendingCount : Nat) (msg1 : Message) : Message :=
  (SourceSession.traceAccepted msg1 pendingCount).pushHandler Handler.sourceSession

/-- A session used by several producer threads: the session, the accepted sends that
have left the critical section and not yet reached line 100 (thread and message), the
messages in the order in which their sends incremented the pending count, and the
messages in the order in which they were passed to `_sequencer.handleMessage`. -/
structure Producers (P : Type) where
  session : SourceSession P
  inFlight : List (Nat × Message)
  accepted : List Message
  handed : List Message
deriving DecidableEq, Repr

/-- A step of one producer thread: `enter` is lines 74-93 of a call of `send` (atomic
with respect to the other critical sections, which the lock excludes), `handOff` is
lines 94-100 of the call the thread is in. -/
inductive ProducerStep where
  | enter (thread : Nat) (now : Int) (msg : Message)
  | handOff (thread : Nat)
deriving DecidableEq, Repr

/-- No send in progress, nothing accepted or handed over yet. -/
def Producers.start {P : Type} (s : SourceSession P) : Producers P :=
  { session := s, inFlight := [], accepted := [], handed := [] }

/-- One step of a producer thread; `none` when the thread cannot take the step (it is
already in a send, or it has no accepted message to hand over). -/
def Producers.step {P : Type} [IThrottlePolicy P] (c : Producers P) :
    ProducerStep → Option (Producers P)
  | ProducerStep.enter thread now msg =>
    if (c.inFlight.lookup thread).isSome then none
    else
      let o := c.session.send_locked now msg
      match o.rejected with
      | some _ => some { c with session := o.session }
      | none => some
          { session := o.session
            inFlight := c.inFlight ++ [(thread, o.msg)]
            accepted := c.accepted ++ [o.msg]
            handed := c.handed }
  | ProducerStep.handOff thread =>
    match c.inFlight.lookup thread with
    | none => none
    | some m => some
        { c with
          inFlight := c.inFlight.filter (fun e => e.1 != thread)
          handed := c.handed ++ [SourceSession.send_unlocked c.session.pendingCount m] }

/-- A schedule: the steps of the producer threads in the order in which they happen. -/
def Producers.run {P : Type} [IThrottlePolicy P] (c : Producers P) :
    List ProducerStep → Option (Producers P)
  | [] => some c
  | st :: rest =>
    match c.step st with
    | none => none
    | some c1 => Producers.run c1 rest

/-- Whether, along a schedule, every send enters its critical section only when no
accepted message is waiting for its hand-off: the calls of send do not overlap. -/
def Producers.nonOverlapping {P : Type} [IThrottlePolicy P] (c : Producers P) :
    List ProducerStep → Bool
  | [] => true
  | st :: rest =>
    (match st with
      | ProducerStep.enter _ _ _ => c.inFlight.isEmpty
      | ProducerStep.handOff _ => true) &&
    (match c.step st with
      | none => true
      | some c1 => Producers.nonOverlapping c1 rest)

/-- Invariant of schedules without overlap: at most one accepted message waits for its
hand-off, and the messages handed over, followed by the waiting one, are the accepted
messages in order (messages are told apart by their payload). -/
def Producers.inOrder {P : Type} (c : Producers P) : Prop :=
  c.inFlight.length ≤ 1 ∧
    c.handed.map Message.payload ++ c.inFlight.map (fun e => e.2.payload) =
      c.accepted.map Message.payload

/-- Two threads: thread 1 has message 1 accepted, then thread 2 has message 2 accepted,
then thread 2 hands its message to the sequencer before thread 1 does. -/
def exampleSchedule : List ProducerStep :=
  [ProducerStep.enter 1 7 { exampleMessage with payload := 1 },
   ProducerStep.enter 2 8 { exampleMessage with payload := 2 },
   ProducerStep.handOff 2,
   ProducerStep.handOff 1]

/-- The same two sends, one after the other. -/
def exampleSequentialSchedule : List ProducerStep :=
  [ProducerStep.enter 1 7 { exampleMessage with payload := 1 },
   ProducerStep.handOff 1,
   ProducerStep.enter 2 8 { exampleMessage with payload := 2 },
   ProducerStep.handOff 2]


/-- The state after `exampleSequentialSchedule` on the example session. -/
def exampleAfterSequential : Producers AcceptAllPolicy :=
  match (Producers.start exampleSession).run exampleSequentialSchedule with
  | some c => c
  | none => Producers.start exampleSession

end mbus

/-!
# Metric sets

A shallow embedding of `MetricSet::getMetricInternal`, `tagRegistrationAltered` and
`unregisterMetric` of `metrics/src/vespa/metrics/metricset.cpp`.  Metric objects are
referred to by address; a heap gives the object at each address.
-/

namespace metrics

/-- Modelled from the spec: an object of class `Metric` or `MetricSet` (`metric.h` and
`metricset.h` are not among the sources), with the members `metricset.cpp` reads or
writes: the mangled name, `_owner` (the set the metric is registered in, written by
`setRegistered` and read by `isRegistered`), whether the object is a metric set, and
for a metric set `_metricOrder` (addresses, in order) and `_registrationAltered`. -/
structure Metric where
  mangledName : String
  owner : Option Nat
  isMetricSet : Bool
  metricOrder : List Nat
  registrationAltered : Bool
deriving DecidableEq, Repr

/-- The objects by address. -/
abbrev Heap := Nat → Metric

/-- Abnormal ends of a member function: the failed `assert(found)` of line 195, a thrown
`IllegalStateException`, and an owner chain longer than the recursion bound. -/
inductive Failure where
  | assertFound
  | illegalStateException (message : String)
  | ownerChainTooLong
deriving DecidableEq, Repr

/-- Modelled from the spec: `Metric::getMangledName()`. -/
def Heap.getMangledName (h : Heap) (metric : Nat) : String := (h metric).mangledName

/-- Modelled from the spec: `Metric::isRegistered()`. -/
def Heap.isRegistered (h : Heap) (metric : Nat) : Bool := (h metric).owner.isSome

/-- Modelled from the spec: `Metric::setRegistered(owner)`. -/
def Heap.setRegistered (h : Heap) (metric : Nat) (owner : Option Nat) : Heap :=
  Function.update h metric { h metric with owner := owner }

/-- Embedding of `MetricSet::getMetricInternal(name)`, lines 68-77, on the set at address
`self`: the first metric of `_metricOrder` whose mangled name is `name`. -/
def Heap.getMetricInternal (h : Heap) (self : Nat) (name : String) : Option Nat :=
  (h self).metricOrder.find? (fun m => h.getMangledName m == name)

/-- Embedding of `MetricSet::tagRegistrationAltered()`, lines 135-142, on the set at
address `self`; `depth` bounds the recursion along the owner chain, and the result is
`none` when the chain is longer. -/
def Heap.tagRegistrationAltered : Nat → Heap → Nat → Option Heap
  | 0, _, _ => none
  | depth + 1, h, self =>
    let h1 : Heap := Function.update h self { h self with registrationAltered := true }
    match (h1 self).owner with
    | some owner => Heap.tagRegistrationAltered depth h1 owner
    | none => some h1

/-- Embedding of `MetricSet::unregisterMetric(metric)`, lines 172-206, on the set at
address `self`.  The log statements are left out. -/
def Heap.unregisterMetric (depth : Nat) (h : Heap) (self metric : Nat) :
    Except Failure Heap :=
  match h.getMetricInternal self (h.getMangledName metric) with
  | none => Except.ok h
  | some _ =>
    let found := (h self).metricOrder.contains metric
    let h1 : Heap := Function.update h self
      { h self with metricOrder := (h self).metricOrder.erase metric }
    if !found then Except.error Failure.assertFound
    else
      let h2 : Heap := h1.setRegistered metric none
      match Heap.tagRegistrationAltered depth h2 self with
      | none => Except.error Failure.ownerChainTooLong
      | some h3 =>
        if (h3 metric).isMetricSet then
          Except.ok (Function.update h3 metric { h3 metric with owner := some self })
        else Except.ok h3

/-- A heap with a metric set `S` at address 0 holding the metric at address 1, named `x`,
and a second metric named `x`, at address 2, that is registered nowhere. -/
def exampleHeap : Heap := fun address =>
  if address = 0 then
    { mangledName := "S", owner := none, isMetricSet := true, metricOrder := [1],
      registrationAltered := false }
  else if address = 1 then
    { mangledName := "x", owner := some 0, isMetricSet := false, metricOrder := [],
      registrationAltered := false }
  else
    { mangledName := "x", owner := none, isMetricSet := false, metricOrder := [],
      registrationAltered := false }

/-! ## Sum metrics -/

/-- Abnormal ends of the member functions of `SumMetric` in `summetric.hpp`: a thrown
`IllegalStateException`, the call of `abort()` of line 106, and `erase` on the end
iterator of a vector, which has no defined behaviour. -/
inductive SumFailure where
  | illegalStateException (message : String)
  | abort
  | eraseAtEnd
deriving DecidableEq, Repr

/-- Member variables of `SumMetric` that the member functions below read or write:
`_owner` (of the base class), whether `_startValue` is set, and `_metricsToSum`, the
addresses of the addends in order. -/
structure SumMetric where
  owner : Option Nat
  hasStartValue : Bool
  metricsToSum : List Nat
deriving DecidableEq, Repr

/-- Modelled from the spec: `std::remove(first, last, value)` of the C++ library on the
whole vector `v`: the elements different from `value` are moved to the front, in order,
and the positions behind them keep what they held (the elements are addresses, moving
one copies it).  The result is the vector afterwards and the position returned. -/
def stdRemove (v : List Nat) (value : Nat) : List Nat × Nat :=
  let kept := v.filter (fun x => x != value)
  (kept ++ v.drop kept.length, kept.length)

/-- Modelled from the spec: `std::vector::erase(position)` of the C++ library: it removes
the one element at `position`; on the end iterator the behaviour is undefined. -/
def vectorErase (v : List Nat) (position : Nat) : Except SumFailure (List Nat) :=
  if position < v.length then Except.ok (v.eraseIdx position)
  else Except.error SumFailure.eraseAtEnd

/-- Embedding of `SumMetric::removeMetricFromSum(metric)`, lines 226-231. -/
def SumMetric.removeMetricFromSum (self : SumMetric) (metric : Nat) :
    Except SumFailure SumMetric :=
  let r := stdRemove self.metricsToSum metric
  match vectorErase r.1 r.2 with
  | Except.error f => Except.error f
  | Except.ok v => Except.ok { self with metricsToSum := v }

/-- Embedding of the copy constructor `SumMetric(other, ownerList, owner)`, lines 35-93.
The base-class constructor `Metric(other, owner)` is not among the sources; it is taken
to record `owner`.  `body` is the body of the loop, lines 59-90, which resolves one
addend below the new owner (it uses `getPathVector`, `getMetric` and a `dynamic_cast`
of classes that are not among the sources) and gives the metric that line 91 appends.
The loop of line 58 runs over `_metricsToSum` of the object under construction. -/
def SumMetric.copy (body : Nat → Nat → Nat → Except SumFailure Nat) (other : SumMetric)
    (owner : Option Nat) : Except SumFailure SumMetric :=
  let self : SumMetric :=
    { owner := owner, hasStartValue := other.hasStartValue, metricsToSum := [] }
  match other.owner with
  | none => Except.error (SumFailure.illegalStateException
      ("Cannot copy a sum metric not registered in a metric set, as "
        ++ "we need to use parent to detect new metrics to point to."))
  | some otherOwner =>
    match owner with
    | none => Except.error (SumFailure.illegalStateException
        ("Cannot copy a sum metric directly. One needs to at least "
          ++ "include metric set above it in order to include metrics summed."))
    | some newOwner =>
      self.metricsToSum.foldlM
        (fun (acc : SumMetric) (m : Nat) =>
          match body otherOwner newOwner m with
          | Except.error f => Except.error f
          | Except.ok am => Except.ok { acc with metricsToSum := acc.metricsToSum ++ [am] })
        self

/-- Embedding of `SumMetric::clone(ownerList, copyType, owner, includeUnused)`, lines
98-116, for `copyType == CLONE`. -/
def SumMetric.cloneAsClone (body : Nat → Nat → Nat → Except SumFailure Nat)
    (self : SumMetric) (owner : Option Nat) : Except SumFailure SumMetric :=
  if self.metricsToSum.isEmpty && !self.hasStartValue then Except.error SumFailure.abort
  else SumMetric.copy body self owner

/-- A sum metric registered in the set at address 0, with the addends at addresses 5, 6
and 5 again. -/
def exampleSum : SumMetric :=
  { owner := some 0, hasStartValue := false, metricsToSum := [5, 6, 5] }

/-- A loop body that finds every addend below the new owner. -/
def exampleBodyFound : Nat → Nat → Nat → Except SumFailure Nat :=
  fun _ _ m => Except.ok (m + 100)

/-- A loop body that finds no addend below the new owner. -/
def exampleBodyMissing : Nat → Nat → Nat → Except SumFailure Nat :=
  fun _ _ _ => Except.error (SumFailure.illegalStateException "was expected to exist")

/-- Embedding of `SumMetric::addMetricToSum(metric)`, lines 189-224.  `getPathVector`
gives the path of an object (`Metric::getPathVector()` is not among the sources); the
paths of the message of line 209 are left out, and so is the assertion of line 223 on
the capacity of a vector the library has just built. -/
def SumMetric.addMetricToSum (getPathVector : Nat → List String) (self : SumMetric)
    (metric : Nat) : Except SumFailure SumMetric :=
  match self.owner with
  | none => Except.error (SumFailure.illegalStateException
      ("Sum metric needs to be registered in a parent metric set "
        ++ "prior to adding metrics to sum."))
  | some owner =>
    let sumParentPath := getPathVector owner
    let addedPath := getPathVector metric
    let error :=
      if addedPath.length ≤ sumParentPath.length then true
      else (List.range sumParentPath.length).any
        (fun i => sumParentPath.get? i != addedPath.get? i)
    if error then
      Except.error (SumFailure.illegalStateException
        ("Metric added to sum is required to be a child of the sum's "
          ++ "direct parent metric set. (Need not be a direct child) "))
    else Except.ok { self with metricsToSum := self.metricsToSum ++ [metric] }

/-- Paths for the examples: the set at address 0 is the root, every other object is a
direct child of it, named after its address. -/
def examplePaths (address : Nat) : List String :=
  if address = 0 then ["root"] else ["root", toString address]

/-- The sum metric `exampleSum` before any addend is added. -/
def exampleSumEmpty : SumMetric :=
  { owner := some 0, hasStartValue := false, metricsToSum := [] }

/-- The additions of the metrics 5, 6 and 5 again to `exampleSumEmpty`. -/
def exampleSumBuilt : Except SumFailure SumMetric :=
  match exampleSumEmpty.addMetricToSum examplePaths 5 with
  | Except.error f => Except.error f
  | Except.ok s1 =>
    match s1.addMetricToSum examplePaths 6 with
    | Except.error f => Except.error f
    | Except.ok s2 => s2.addMetricToSum examplePaths 5

/-! ## Registration -/

/-- How a call on a metric set ends: it returns, or it throws an
`IllegalStateException` that the caller may catch, in both cases with the heap as the
call leaves it; or it ends in a failure that is no exception (a failed assertion, an
owner chain longer than the recursion bound). -/
inductive Outcome where
  | returned (heap : Heap)
  | thrown (message : String) (heap : Heap)
  | failed (failure : Failure)

/-- Embedding of `MetricSet::registerMetric(metric)`, lines 144-170, on the set at address
`self`.  The heap is threaded through the statements in source order, and a `throw`
ends the call with the heap as it is at that statement.  The log statement is left
out, and so is the path of the set (`getPath()` of `metric.cpp`, not among the sources)
at the end of the second message. -/
def Heap.registerMetric (depth : Nat) (h : Heap) (self metric : Nat) : Outcome :=
  if h.isRegistered metric then
    Outcome.thrown ("Metric " ++ h.getMangledName metric
      ++ " is already registered in a metric set. Cannot register it twice.") h
  else
    match h.getMetricInternal self (h.getMangledName metric) with
    | some _ =>
      Outcome.thrown ("A metric named " ++ h.getMangledName metric
        ++ " is already registered in metric set ") h
    | none =>
      let h1 : Heap := Function.update h self
        { h self with metricOrder := (h self).metricOrder ++ [metric] }
      let h2 : Heap := h1.setRegistered metric (some self)
      match Heap.tagRegistrationAltered depth h2 self with
      | none => Outcome.failed Failure.ownerChainTooLong
      | some h3 =>
        if (h3 metric).isMetricSet then
          Outcome.returned (Function.update h3 metric { h3 metric with owner := some self })
        else Outcome.returned h3

/-- The set at `self` followed by its owner, the owner of that, and so on up to the set
without owner; `none` when more than `depth` sets are on the way. -/
def Heap.ownerChain : Nat → Heap → Nat → Option (List Nat)
  | 0, _, _ => none
  | depth + 1, h, self =>
    match (h self).owner with
    | none => some [self]
    | some owner => (Heap.ownerChain depth h owner).map (fun chain => self :: chain)

/-- The heap `h` with `_registrationAltered` set on the objects of `chain`. -/
def Heap.tagAll (h : Heap) (chain : List Nat) : Heap := fun address =>
  if address ∈ chain then { h address with registrationAltered := true } else h address

/-- The mangled names of the metrics in the metric order of every set are pairwise
distinct. -/
def Heap.namesDistinct (h : Heap) : Prop :=
  ∀ set, ((h set).metricOrder.map h.getMangledName).Nodup

/-- A call of `registerMetric` or `unregisterMetric` on the set at `self`. -/
inductive Call where
  | registerMetric (self metric : Nat)
  | unregisterMetric (self metric : Nat)
deriving DecidableEq, Repr

/-- One call on the heap. -/
def Heap.call (depth : Nat) (h : Heap) : Call → Outcome
  | Call.registerMetric self metric => h.registerMetric depth self metric
  | Call.unregisterMetric self metric =>
    match h.unregisterMetric depth self metric with
    | Except.ok h1 => Outcome.returned h1
    | Except.error f => Outcome.failed f

/-- A sequence of calls, each on the heap the one before left.  The caller catches an
exception and goes on with the next call; the sequence ends at the first failure that
is no exception. -/
def Heap.calls (depth : Nat) (h : Heap) : List Call → Except Failure Heap
  | [] => Except.ok h
  | c :: cs =>
    match h.call depth c with
    | Outcome.returned h1 => Heap.calls depth h1 cs
    | Outcome.thrown _ h1 => Heap.calls depth h1 cs
    | Outcome.failed f => Except.error f

/-- A heap with a root set at address 0 that holds the set at address 1, which is empty,
and a metric named `m`, at address 2, that is registered nowhere. -/
def exampleTree : Heap := fun address =>
  if address = 0 then
    { mangledName := "root", owner := none, isMetricSet := true, metricOrder := [1],
      registrationAltered := false }
  else if address = 1 then
    { mangledName := "child", owner := some 0, isMetricSet := true, metricOrder := [],
      registrationAltered := false }
  else
    { mangledName := "m", owner := none, isMetricSet := false, metricOrder := [],
      registrationAltered := false }

/-- Calls on `exampleTree`: the metric at address 2 is registered in the set at address
1, registered there once more (which throws), and unregistered. -/
def exampleMetricCalls : List Call :=
  [Call.registerMetric 1 2, Call.registerMetric 1 2, Call.unregisterMetric 1 2]

end metrics

/-!
# Config keys

A shallow embedding of the constructors and comparison operators of `ConfigKey`,
`config/src/vespa/config/common/configkey.cpp`.
-/

namespace config

/-- Member variables of `ConfigKey`; `key` is `_key`. -/
structure ConfigKey where
  configId : String
  defName : String
  defNamespace : String
  defMd5 : String
  defSchema : List String
  key : String
deriving DecidableEq, Repr

/-- Embedding of the constructor of lines 19-31, with a schema. -/
def ConfigKey.create (configId defName defNamespace defMd5 : String)
    (defSchema : List String) : ConfigKey :=
  { configId := configId, defName := defName, defNamespace := defNamespace,
    defMd5 := defMd5, defSchema := defSchema,
    key := configId ++ defName ++ defNamespace }

/-- Embedding of the constructor of lines 7-17, without schema. -/
def ConfigKey.createWithoutSchema (configId defName defNamespace defMd5 : String) :
    ConfigKey :=
  { configId := configId, defName := defName, defNamespace := defNamespace,
    defMd5 := defMd5, defSchema := [],
    key := configId ++ defName ++ defNamespace }

/-- Embedding of the default constructor, lines 33-40. -/
def ConfigKey.empty : ConfigKey :=
  { configId := "", defName := "", defNamespace := "", defMd5 := "", defSchema := [],
    key := "" }

/-- Embedding of `ConfigKey::operator<`, lines 47-51. -/
def ConfigKey.lt (a rhs : ConfigKey) : Bool := decide (a.key < rhs.key)

/-- Embedding of `ConfigKey::operator>`, lines 53-57. -/
def ConfigKey.gt (a rhs : ConfigKey) : Bool := decide (a.key > rhs.key)

/-- Embedding of `ConfigKey::operator==`, lines 59-63: `compare` gives 0 exactly on equal
strings. -/
def ConfigKey.eq (a rhs : ConfigKey) : Bool := decide (a.key = rhs.key)

/-- A key made by one of the constructors. -/
def ConfigKey.constructed (a : ConfigKey) : Prop :=
  a.key = a.configId ++ a.defName ++ a.defNamespace

/-- Config id `ab`, definition name `c`. -/
def exampleKeyAbC : ConfigKey := ConfigKey.create "ab" "c" "ns" "md5" ["schema"]

/-- Config id `a`, definition name `bc`. -/
def exampleKeyABc : ConfigKey := ConfigKey.create "a" "bc" "ns" "md5" ["schema"]

/-- The key `exampleKeyAbC` with another md5 and no schema. -/
def exampleKeyAbCOther : ConfigKey := ConfigKey.createWithoutSchema "ab" "c" "ns" "other"

end config

namespace mbus

/-! ## Admission checks and critical sections -/

/-- The arguments an effect passes to `canSend`, when it is such a call. -/
def Effect.canSendCall : Effect → Option (Message × Nat)
  | Effect.canSend m n => some (m, n)
  | _ => none

/-- The `canSend` calls of a list of effects, in order, with their arguments. -/
def canSendCalls (es : List Effect) : List (Message × Nat) :=
  es.filterMap Effect.canSendCall

/-- Whether the session lock is held after a list of effects, starting without it. -/
def lockHeld (es : List Effect) : Bool :=
  es.foldl (fun held e =>
    match e with
    | Effect.lock => true
    | Effect.unlock => false
    | _ => held) false

/-- The example session, closed, with a static policy that admits nothing. -/
def exampleClosedFull : SourceSession StaticPolicy :=
  { exampleFull with closed := true }

/-- A closed session with one message pending: the next reply drains it. -/
def exampleDraining : SourceSession AcceptAllPolicy :=
  { examplePending with closed := true }

/-- Parameters without a reply handler. -/
def exampleParamsNoHandler : SourceSessionParams AcceptAllPolicy :=
  { exampleParams with replyHandler := none }

/-- What `handleReply` of the example reply produces on `exampleDraining`. -/
def exampleDrainOutcome : ReplyOutcome AcceptAllPolicy :=
  match exampleDraining.handleReply exampleReply with
  | Except.ok o => o
  | Except.error _ => { session := exampleDraining, effects := [] }

/-! ## Policy state -/

/-- The policy state after the call an effect records: `processMessage` and
`processReply` update the state, no other call does. -/
def Effect.onPolicy {P : Type} [IThrottlePolicy P] (p : P) : Effect → P
  | Effect.processMessage m => IThrottlePolicy.processMessage p m
  | Effect.processReply r => IThrottlePolicy.processReply p r
  | _ => p

/-- The policy state after the calls of a list of effects, in order. -/
def policyAfter {P : Type} [IThrottlePolicy P] (p : P) (es : List Effect) : P :=
  es.foldl Effect.onPolicy p

/-- The policy state after the calls of a record of calls, in order. -/
def policyAfterLog {P : Type} [IThrottlePolicy P] (p : P) (log : List Event) : P :=
  log.foldl (fun q e => policyAfter q e.effects) p

/-- An open session without pending messages, whose static policy admits two pending
messages and has no bytes in flight. -/
def exampleStatic : SourceSession StaticPolicy :=
  { replyHandler := Handler.external 1
    throttlePolicy := some { maxPendingCount := 2, maxPendingSize := 100, pendingSize := 0 }
    timeout := 5000, pendingCount := 0, closed := false, done := false }

/-- The record of `exampleCalls` on `exampleStatic`. -/
def exampleStaticLog : List Event :=
  match run exampleBus exampleStatic exampleCalls with
  | Except.ok (_, log) => log
  | Except.error _ => []

/-- An open session without pending messages whose static policy admits one pending
message: `canSend` holds for the pending count 0 and fails for 1. -/
def exampleLastSlot : SourceSession StaticPolicy :=
  { replyHandler := Handler.external 1
    throttlePolicy := some { maxPendingCount := 1, maxPendingSize := 100, pendingSize := 0 }
    timeout := 5000, pendingCount := 0, closed := false, done := false }

/-! ## Theorems -/

theorem stamp_eq {P : Type} (s : SourceSession P) (now : Int) (msg : Message) :
    s.stamp now msg =
      { msg with timeReceived := now
                 timeRemaining := if msg.timeRemaining = 0 then s.timeout else msg.timeRemaining } := by
  by_cases h : msg.timeRemaining = 0 <;>
    simp [SourceSession.stamp, Message.setTimeReceivedNow, Message.getTimeRemaining,
      Message.setTimeRemaining, h]

theorem stamp_sameObject {P : Type} (s : SourceSession P) (now : Int) (msg : Message) :
    (s.stamp now msg).sameObject msg := by
  rw [stamp_eq]
  exact ⟨rfl, rfl, rfl⟩

theorem send_closed {P : Type} [IThrottlePolicy P] (s : SourceSession P) (now : Int)
    (msg : Message) (hc : s.closed = true) :
    s.send now msg =
      { session := s
        result := Result.rejected ErrorCode.SEND_QUEUE_CLOSED "Source session is closed."
          (s.stamp now msg)
        effects := [Effect.lock, Effect.unlock] } := by
  simp [SourceSession.send, hc]

theorem send_full {P : Type} [IThrottlePolicy P] (s : SourceSession P) (now : Int)
    (msg : Message) (hc : s.closed = false) (hf : s.queueFull (s.stamp now msg) = true) :
    s.send now msg =
      { session := s
        result := Result.rejected ErrorCode.SEND_QUEUE_FULL
          ("Too much pending data (" ++ toString s.pendingCount ++ " messages).")
          (s.stamp now msg)
        effects := [Effect.lock, Effect.canSend (s.stamp now msg) s.pendingCount,
          Effect.unlock] } := by
  simp [SourceSession.send, hc, hf]

theorem send_ok {P : Type} [IThrottlePolicy P] (s : SourceSession P) (now : Int)
    (msg : Message) (hc : s.closed = false) (hf : s.queueFull (s.stamp now msg) = false) :
    s.send now msg =
      { session :=
          { s with
            throttlePolicy := s.throttlePolicy.map (fun p =>
              IThrottlePolicy.processMessage p ((s.stamp now msg).pushHandler s.replyHandler))
            pendingCount := s.pendingCount + 1 }
        result := Result.accepted
        effects := [Effect.lock] ++ s.withPolicy (Effect.canSend (s.stamp now msg) s.pendingCount)
          ++ s.withPolicy (Effect.processMessage ((s.stamp now msg).pushHandler s.replyHandler))
          ++ [Effect.unlock, Effect.sequencerHandleMessage
            ((SourceSession.traceAccepted ((s.stamp now msg).pushHandler s.replyHandler)
              (s.pendingCount + 1)).pushHandler Handler.sourceSession)] } := by
  simp [SourceSession.send, hc, hf]

theorem handed_send_ok {P : Type} (s : SourceSession P) (m1 m2 m3 : Message) (n : Nat) :
    handedToSequencer ([Effect.lock] ++ s.withPolicy (Effect.canSend m1 n)
      ++ s.withPolicy (Effect.processMessage m2)
      ++ [Effect.unlock, Effect.sequencerHandleMessage m3]) = [m3] := by
  unfold handedToSequencer SourceSession.withPolicy
  cases s.throttlePolicy <;> simp [Effect.handedMessage]

theorem traceAccepted_sameObject (m : Message) (n : Nat) :
    (SourceSession.traceAccepted m n).sameObject m := by
  unfold SourceSession.traceAccepted
  split
  · exact ⟨rfl, rfl, rfl⟩
  · exact ⟨rfl, rfl, rfl⟩

theorem send_cases {P : Type} [IThrottlePolicy P] (s : SourceSession P) (now : Int)
    (msg : Message) :
    (s.send now msg).isAccepted msg ∨
      (s.send now msg).isRejected msg [ErrorCode.SEND_QUEUE_CLOSED, ErrorCode.SEND_QUEUE_FULL] := by
  cases hc : s.closed
  · cases hf : s.queueFull (s.stamp now msg)
    · left
      rw [send_ok s now msg hc hf]
      refine ⟨rfl, _, handed_send_ok _ _ _ _ _, ?_⟩
      have h1 := stamp_sameObject s now msg
      have h2 := traceAccepted_sameObject ((s.stamp now msg).pushHandler s.replyHandler)
        (s.pendingCount + 1)
      unfold Message.sameObject at *
      simp only [Message.pushHandler] at *
      exact ⟨h2.1.trans h1.1, h2.2.1.trans h1.2.1, h2.2.2.trans h1.2.2⟩
    · right
      rw [send_full s now msg hc hf]
      exact ⟨⟨_, _, rfl, by simp [Result.rejected], rfl, stamp_sameObject s now msg⟩, rfl⟩
  · right
    rw [send_closed s now msg hc]
    exact ⟨⟨_, _, rfl, by simp [Result.rejected], rfl, stamp_sameObject s now msg⟩, rfl⟩

theorem send_routeName_cases {P : Type} [IThrottlePolicy P] (mb : MessageBus)
    (s : SourceSession P) (now : Int) (msg : Message) (routeName : String)
    (parseIfNotFound : Bool) :
    (∃ text, SourceSession.send_routeName mb s now msg routeName parseIfNotFound =
        { session := s, result := Result.rejected ErrorCode.ILLEGAL_ROUTE text msg,
          effects := [] }) ∨
      (∃ route, SourceSession.send_routeName mb s now msg routeName parseIfNotFound =
        s.send now (msg.setRoute route)) := by
  unfold SourceSession.send_routeName
  split
  · split
    · exact Or.inr ⟨_, rfl⟩
    · split
      · exact Or.inl ⟨_, rfl⟩
      · exact Or.inr ⟨_, rfl⟩
  · split
    · exact Or.inl ⟨_, rfl⟩
    · exact Or.inr ⟨_, rfl⟩

theorem isAccepted_not_isRejected {P : Type} (o : SendOutcome P) (msg : Message)
    (codes : List ErrorCode) : ¬ (o.isAccepted msg ∧ o.isRejected msg codes) := by
  rintro ⟨⟨hr, _⟩, ⟨e, m, he, _⟩, _⟩
  rw [hr] at he
  simp [Result.accepted] at he

/-- C1: every call of the core `send(msg)` has exactly one of two outcomes: success
(`Result()` without error and without message) with the message handed to the sequencer
exactly once, or an error `SEND_QUEUE_CLOSED` / `SEND_QUEUE_FULL` whose result carries
the message (as stamped by lines 74-77), with nothing handed to the sequencer;
`send(msg, routeName, parseIfNotFound)` has the same two outcomes with `ILLEGAL_ROUTE`
as the only further error code.  The message is never dropped. -/
theorem send_accepts_or_returns_message {P : Type} [IThrottlePolicy P] (mb : MessageBus)
    (s : SourceSession P) (now : Int) (msg : Message) (routeName : String)
    (parseIfNotFound : Bool) :
    (((s.send now msg).isAccepted msg ∨
        (s.send now msg).isRejected msg
          [ErrorCode.SEND_QUEUE_CLOSED, ErrorCode.SEND_QUEUE_FULL]) ∧
      ¬ ((s.send now msg).isAccepted msg ∧
        (s.send now msg).isRejected msg
          [ErrorCode.SEND_QUEUE_CLOSED, ErrorCode.SEND_QUEUE_FULL])) ∧
    ((s.send now msg).result.error ≠ none →
      (s.send now msg).result.msg = some (s.stamp now msg)) ∧
    (((SourceSession.send_routeName mb s now msg routeName parseIfNotFound).isAccepted msg ∨
        (SourceSession.send_routeName mb s now msg routeName parseIfNotFound).isRejected msg
          [ErrorCode.SEND_QUEUE_CLOSED, ErrorCode.SEND_QUEUE_FULL, ErrorCode.ILLEGAL_ROUTE]) ∧
      ¬ ((SourceSession.send_routeName mb s now msg routeName parseIfNotFound).isAccepted msg ∧
        (SourceSession.send_routeName mb s now msg routeName parseIfNotFound).isRejected msg
          [ErrorCode.SEND_QUEUE_CLOSED, ErrorCode.SEND_QUEUE_FULL,
            ErrorCode.ILLEGAL_ROUTE])) := by
  refine ⟨⟨send_cases s now msg, isAccepted_not_isRejected _ _ _⟩, ?_, ?_,
    isAccepted_not_isRejected _ _ _⟩
  · intro herr
    cases hc : s.closed
    · cases hf : s.queueFull (s.stamp now msg)
      · rw [send_ok s now msg hc hf] at herr
        exact absurd rfl herr
      · rw [send_full s now msg hc hf]
        rfl
    · rw [send_closed s now msg hc]
      rfl
  rcases send_routeName_cases mb s now msg routeName parseIfNotFound with ⟨text, h⟩ | ⟨route, h⟩
  · right
    rw [h]
    exact ⟨⟨_, _, rfl, by simp [Result.rejected], rfl, rfl, rfl, rfl⟩, rfl⟩
  · rw [h]
    rcases send_cases s now (msg.setRoute route) with ⟨hr, m, hm, hs⟩ | ⟨⟨e, m, he, hc, hm, hs⟩, hn⟩
    · exact Or.inl ⟨hr, m, hm, hs⟩
    · right
      refine ⟨⟨e, m, he, ?_, hm, hs⟩, hn⟩
      simp only [List.mem_cons, List.mem_singleton, List.not_mem_nil, or_false] at hc ⊢
      rcases hc with hc | hc
      · exact Or.inl hc
      · exact Or.inr (Or.inl hc)

/-- C2: on a closed session the core `send(msg)` returns `SEND_QUEUE_CLOSED` with the
message in the result; the session (pending count, closed, done, default timeout,
policy) is unchanged, the handler chain of the message is as passed in,
`processMessage` is not called and nothing is handed to the sequencer. -/
theorem send_on_closed_session {P : Type} [IThrottlePolicy P] (s : SourceSession P)
    (now : Int) (msg : Message) (hclosed : s.closed = true) :
    (s.send now msg).result =
        Result.rejected ErrorCode.SEND_QUEUE_CLOSED "Source session is closed."
          (s.stamp now msg) ∧
      (s.send now msg).session = s ∧
      (s.stamp now msg).callStack = msg.callStack ∧
      processedMessages (s.send now msg).effects = [] ∧
      handedToSequencer (s.send now msg).effects = [] := by
  rw [send_closed s now msg hclosed, stamp_eq]
  exact ⟨rfl, rfl, rfl, rfl, rfl⟩

/-- Witness of C2: a send on the closed example session. -/
theorem send_on_closed_session_witness :
    exampleClosed.closed = true ∧
    ((exampleClosed.send 7 exampleMessage).result =
        Result.rejected ErrorCode.SEND_QUEUE_CLOSED "Source session is closed."
          (exampleClosed.stamp 7 exampleMessage) ∧
      (exampleClosed.send 7 exampleMessage).session = exampleClosed ∧
      (exampleClosed.stamp 7 exampleMessage).callStack = exampleMessage.callStack ∧
      processedMessages (exampleClosed.send 7 exampleMessage).effects = [] ∧
      handedToSequencer (exampleClosed.send 7 exampleMessage).effects = []) :=
  ⟨rfl, send_on_closed_session exampleClosed 7 exampleMessage rfl⟩

theorem queueFull_of_canSend_false {P : Type} [IThrottlePolicy P] (s : SourceSession P)
    (p : P) (msg : Message) (hp : s.throttlePolicy = some p)
    (hcan : IThrottlePolicy.canSend p msg s.pendingCount = false) :
    s.queueFull msg = true := by
  simp [SourceSession.queueFull, hp, hcan]

/-- C3 as stated fails: the message handed back by a rejected send is not the message as
it was passed in.  On the closed example session, and on the example session whose
policy is full, a message passed in with time-received 0 and remaining-time 0 comes
back with time-received 7 (the time of the call) and remaining-time 5000 (the default
timeout). -/
theorem rejected_message_is_stamped :
    ((exampleClosed.send 7 exampleMessage).result.error.map Error.code
        = some ErrorCode.SEND_QUEUE_CLOSED ∧
      (exampleClosed.send 7 exampleMessage).result.msg ≠ some exampleMessage ∧
      (exampleClosed.send 7 exampleMessage).result.msg.map Message.timeReceived = some 7 ∧
      (exampleClosed.send 7 exampleMessage).result.msg.map Message.timeRemaining = some 5000 ∧
      exampleMessage.timeReceived = 0 ∧ exampleMessage.timeRemaining = 0) ∧
    ((exampleFull.send 7 exampleMessage).result.error.map Error.code
        = some ErrorCode.SEND_QUEUE_FULL ∧
      (exampleFull.send 7 exampleMessage).result.msg ≠ some exampleMessage ∧
      (exampleFull.send 7 exampleMessage).result.msg.map Message.timeReceived = some 7 ∧
      (exampleFull.send 7 exampleMessage).result.msg.map Message.timeRemaining = some 5000) := by
  refine ⟨⟨rfl, ?_, rfl, rfl, rfl, rfl⟩, ⟨rfl, ?_, rfl, rfl⟩⟩
  · decide
  · decide

/-- C3, amended: a message rejected by the core send (with `SEND_QUEUE_CLOSED` or
`SEND_QUEUE_FULL`) is handed back with the payload, protocol, approximate size, route,
trace and handler chain it had when send was called; its time-received is the time of
the call, and its remaining-time is the value passed in when that was non-zero and the
default timeout of the session otherwise. -/
theorem rejected_message_unmodified_but_stamped {P : Type} [IThrottlePolicy P]
    (s : SourceSession P) (now : Int) (msg : Message) (e : Error)
    (hrej : (s.send now msg).result.error = some e) :
    (e.code = ErrorCode.SEND_QUEUE_CLOSED ∨ e.code = ErrorCode.SEND_QUEUE_FULL) ∧
    ∃ m, (s.send now msg).result.msg = some m ∧
      m.payload = msg.payload ∧ m.protocol = msg.protocol ∧ m.approxSize = msg.approxSize ∧
      m.route = msg.route ∧ m.trace = msg.trace ∧ m.callStack = msg.callStack ∧
      m.timeReceived = now ∧
      m.timeRemaining = (if msg.timeRemaining = 0 then s.timeout else msg.timeRemaining) := by
  cases hc : s.closed
  · cases hf : s.queueFull (s.stamp now msg)
    · rw [send_ok s now msg hc hf] at hrej
      simp [Result.accepted] at hrej
    · rw [send_full s now msg hc hf] at hrej ⊢
      simp only [Result.rejected, Option.some.injEq] at hrej
      refine ⟨Or.inr (by rw [← hrej]), _, rfl, ?_⟩
      rw [stamp_eq]
      exact ⟨rfl, rfl, rfl, rfl, rfl, rfl, rfl, rfl⟩
  · rw [send_closed s now msg hc] at hrej ⊢
    simp only [Result.rejected, Option.some.injEq] at hrej
    refine ⟨Or.inl (by rw [← hrej]), _, rfl, ?_⟩
    rw [stamp_eq]
    exact ⟨rfl, rfl, rfl, rfl, rfl, rfl, rfl, rfl⟩

/-- Witness of C3 (amended): the rejected send on the full example session. -/
theorem rejected_message_unmodified_but_stamped_witness :
    (exampleFull.send 7 exampleMessage).result.error =
        some { code := ErrorCode.SEND_QUEUE_FULL,
               message := "Too much pending data (1 messages)." } ∧
    ((ErrorCode.SEND_QUEUE_FULL = ErrorCode.SEND_QUEUE_CLOSED ∨
        ErrorCode.SEND_QUEUE_FULL = ErrorCode.SEND_QUEUE_FULL) ∧
    ∃ m, (exampleFull.send 7 exampleMessage).result.msg = some m ∧
      m.payload = exampleMessage.payload ∧ m.protocol = exampleMessage.protocol ∧
      m.approxSize = exampleMessage.approxSize ∧
      m.route = exampleMessage.route ∧ m.trace = exampleMessage.trace ∧
      m.callStack = exampleMessage.callStack ∧
      m.timeReceived = 7 ∧
      m.timeRemaining =
        (if exampleMessage.timeRemaining = 0 then exampleFull.timeout
          else exampleMessage.timeRemaining)) :=
  ⟨by decide,
    rejected_message_unmodified_but_stamped exampleFull 7 exampleMessage
      { code := ErrorCode.SEND_QUEUE_FULL, message := "Too much pending data (1 messages)." }
      (by decide)⟩

/-- C4: on an open session with a throttle policy whose `canSend(msg, pendingCount)`
(evaluated, as in line 83, on the message after the stamping of lines 74-77) is false,
the core `send(msg)` returns `SEND_QUEUE_FULL` with the message in the result, leaves
the pending count (and the whole session) unchanged, leaves the handler chain of the
message as passed in, and does not call `processMessage`. -/
theorem send_on_full_queue {P : Type} [IThrottlePolicy P] (s : SourceSession P)
    (p : P) (now : Int) (msg : Message) (hopen : s.closed = false)
    (hpolicy : s.throttlePolicy = some p)
    (hcan : IThrottlePolicy.canSend p (s.stamp now msg) s.pendingCount = false) :
    (s.send now msg).result =
        Result.rejected ErrorCode.SEND_QUEUE_FULL
          ("Too much pending data (" ++ toString s.pendingCount ++ " messages).")
          (s.stamp now msg) ∧
      (s.send now msg).session.pendingCount = s.pendingCount ∧
      (s.send now msg).session = s ∧
      (s.stamp now msg).callStack = msg.callStack ∧
      processedMessages (s.send now msg).effects = [] ∧
      handedToSequencer (s.send now msg).effects = [] := by
  rw [send_full s now msg hopen (queueFull_of_canSend_false s p _ hpolicy hcan), stamp_eq]
  exact ⟨rfl, rfl, rfl, rfl, rfl, rfl⟩

/-- Witness of C4: the example session whose static policy is at its cap. -/
theorem send_on_full_queue_witness :
    (exampleFull.closed = false ∧
      exampleFull.throttlePolicy =
        some { maxPendingCount := 1, maxPendingSize := 100, pendingSize := 10 } ∧
      IThrottlePolicy.canSend
        ({ maxPendingCount := 1, maxPendingSize := 100, pendingSize := 10 } : StaticPolicy)
        (exampleFull.stamp 7 exampleMessage) exampleFull.pendingCount = false) ∧
    ((exampleFull.send 7 exampleMessage).result =
        Result.rejected ErrorCode.SEND_QUEUE_FULL
          ("Too much pending data (" ++ toString exampleFull.pendingCount ++ " messages).")
          (exampleFull.stamp 7 exampleMessage) ∧
      (exampleFull.send 7 exampleMessage).session.pendingCount = exampleFull.pendingCount ∧
      (exampleFull.send 7 exampleMessage).session = exampleFull ∧
      (exampleFull.stamp 7 exampleMessage).callStack = exampleMessage.callStack ∧
      processedMessages (exampleFull.send 7 exampleMessage).effects = [] ∧
      handedToSequencer (exampleFull.send 7 exampleMessage).effects = []) :=
  ⟨⟨rfl, rfl, by decide⟩,
    send_on_full_queue exampleFull
      { maxPendingCount := 1, maxPendingSize := 100, pendingSize := 10 } 7 exampleMessage
      rfl rfl (by decide)⟩

theorem send_session {P : Type} [IThrottlePolicy P] (s : SourceSession P) (now : Int)
    (msg : Message) :
    (s.send now msg).session.closed = s.closed ∧
    (s.send now msg).session.done = s.done ∧
    (s.send now msg).session.timeout = s.timeout ∧
    (s.send now msg).session.replyHandler = s.replyHandler ∧
    (((s.send now msg).result = Result.accepted ∧ s.closed = false ∧
        (s.send now msg).session.pendingCount = s.pendingCount + 1) ∨
      ((s.send now msg).result ≠ Result.accepted ∧ (s.send now msg).session = s)) := by
  cases hc : s.closed
  · cases hf : s.queueFull (s.stamp now msg)
    · rw [send_ok s now msg hc hf]
      simp [hc]
    · rw [send_full s now msg hc hf]
      simp [hc, Result.rejected, Result.accepted]
  · rw [send_closed s now msg hc]
    simp [hc, Result.rejected, Result.accepted]

theorem traceReply_callStack (reply : Reply) (n : Nat) :
    (SourceSession.traceReply reply n).callStack = reply.callStack := by
  unfold SourceSession.traceReply
  split <;> rfl

theorem handleReply_locked_ok {P : Type} [IThrottlePolicy P] (s s1 : SourceSession P)
    (reply : Reply) (done : Bool) (h : s.handleReply_locked reply = Except.ok (s1, done)) :
    0 < s.pendingCount ∧
    s1 = { s with
      pendingCount := s.pendingCount - 1
      throttlePolicy := s.throttlePolicy.map (fun p => IThrottlePolicy.processReply p reply) } ∧
    done = (s.closed && decide (s.pendingCount - 1 = 0)) := by
  unfold SourceSession.handleReply_locked at h
  by_cases hp : s.pendingCount > 0
  · simp only [hp, not_true_eq_false, if_false, Except.ok.injEq, Prod.mk.injEq] at h
    obtain ⟨h1, h2⟩ := h
    subst h1 h2
    exact ⟨hp, rfl, rfl⟩
  · simp [hp] at h

theorem handleReply_locked_completes {P : Type} [IThrottlePolicy P] (s : SourceSession P)
    (reply : Reply) (hp : 0 < s.pendingCount) :
    s.handleReply_locked reply = Except.ok
      ({ s with
          pendingCount := s.pendingCount - 1
          throttlePolicy := s.throttlePolicy.map (fun p => IThrottlePolicy.processReply p reply) },
        s.closed && decide (s.pendingCount - 1 = 0)) := by
  unfold SourceSession.handleReply_locked
  simp only [gt_iff_lt, hp, not_true_eq_false, if_false]
  rfl

theorem handleReply_finish_completes {P : Type} (s : SourceSession P)
    (hc : s.closed = true) (hp : s.pendingCount = 0) :
    s.handleReply_finish = Except.ok { s with done := true } := by
  unfold SourceSession.handleReply_finish
  simp [hc, hp]

theorem handleReply_ok {P : Type} [IThrottlePolicy P] (s : SourceSession P) (reply : Reply)
    (o : ReplyOutcome P) (h : s.handleReply reply = Except.ok o) :
    0 < s.pendingCount ∧ reply.callStack ≠ [] ∧
    o.session.pendingCount + 1 = s.pendingCount ∧
    o.session.closed = s.closed ∧
    o.session.timeout = s.timeout ∧
    o.session.replyHandler = s.replyHandler ∧
    o.session.done = (s.done || (s.closed && decide (o.session.pendingCount = 0))) := by
  unfold SourceSession.handleReply at h
  by_cases hp : s.pendingCount > 0
  · rw [handleReply_locked_completes s reply hp] at h
    simp only at h
    cases hpop : (SourceSession.traceReply reply (s.pendingCount - 1)).pop with
    | none => simp [hpop] at h
    | some hr =>
      have hne : reply.callStack ≠ [] := by
        intro hnil
        unfold Reply.pop at hpop
        rw [traceReply_callStack, hnil] at hpop
        simp at hpop
      simp only [hpop] at h
      cases hcl : s.closed
      · simp only [hcl, Bool.false_and, Bool.false_eq_true, if_false, Except.ok.injEq] at h
        subst h
        refine ⟨hp, hne, ?_, ?_, rfl, rfl, ?_⟩
        · dsimp only
          omega
        · dsimp only
        · dsimp only
          simp
      · by_cases hz : s.pendingCount - 1 = 0
        · simp only [hcl, hz, decide_True, Bool.and_self, if_true] at h
          rw [handleReply_finish_completes _ rfl rfl] at h
          simp only [Except.ok.injEq] at h
          subst h
          refine ⟨hp, hne, ?_, ?_, rfl, rfl, ?_⟩
          · dsimp only
            omega
          · dsimp only
          · dsimp only
            simp [hz]
        · simp only [hcl, hz, decide_False, Bool.and_false, Bool.false_eq_true, if_false,
            Except.ok.injEq] at h
          subst h
          refine ⟨hp, hne, ?_, ?_, rfl, rfl, ?_⟩
          · dsimp only
            omega
          · dsimp only
          · dsimp only
            simp [hz]
  · unfold SourceSession.handleReply_locked at h
    simp [hp] at h

theorem handleReply_completes {P : Type} [IThrottlePolicy P] (s : SourceSession P)
    (reply : Reply) (hp : 0 < s.pendingCount) (hne : reply.callStack ≠ []) :
    ∃ o, s.handleReply reply = Except.ok o := by
  unfold SourceSession.handleReply
  rw [handleReply_locked_completes s reply hp]
  simp only
  cases hcs : reply.callStack with
  | nil => exact absurd hcs hne
  | cons h rest =>
    have hpop : (SourceSession.traceReply reply (s.pendingCount - 1)).pop =
        some (h, { SourceSession.traceReply reply (s.pendingCount - 1) with callStack := rest }) := by
      unfold Reply.pop
      rw [traceReply_callStack, hcs]
    simp only [hpop]
    cases hcl : s.closed
    · simp only [Bool.false_and, Bool.false_eq_true, if_false]
      exact ⟨_, rfl⟩
    · by_cases hz : s.pendingCount - 1 = 0
      · simp only [hz, decide_True, Bool.and_self, if_true]
        rw [handleReply_finish_completes _ rfl rfl]
        exact ⟨_, rfl⟩
      · simp only [hz, decide_False, Bool.and_false, Bool.false_eq_true, if_false]
        exact ⟨_, rfl⟩

theorem handleReply_pending_zero {P : Type} [IThrottlePolicy P] (s : SourceSession P)
    (reply : Reply) (hp : s.pendingCount = 0) :
    s.handleReply reply = Except.error Fatal.assertPendingCountPositive := by
  unfold SourceSession.handleReply SourceSession.handleReply_locked
  simp [hp]

theorem send_respects {P : Type} [IThrottlePolicy P] (s : SourceSession P) (now : Int)
    (msg : Message) : (s.send now msg).respects s :=
  send_session s now msg

theorem send_routeName_respects {P : Type} [IThrottlePolicy P] (mb : MessageBus)
    (s : SourceSession P) (now : Int) (msg : Message) (routeName : String)
    (parseIfNotFound : Bool) :
    (SourceSession.send_routeName mb s now msg routeName parseIfNotFound).respects s := by
  rcases send_routeName_cases mb s now msg routeName parseIfNotFound with ⟨text, h⟩ | ⟨route, h⟩
  · rw [h]
    refine ⟨rfl, rfl, rfl, rfl, Or.inr ⟨?_, rfl⟩⟩
    simp [Result.rejected, Result.accepted]
  · rw [h]
    exact send_respects s now _

theorem close_session {P : Type} (s : SourceSession P) :
    s.close.session.closed = true ∧
    s.close.session.pendingCount = s.pendingCount ∧
    s.close.session.timeout = s.timeout ∧
    s.close.session.replyHandler = s.replyHandler ∧
    s.close.session.throttlePolicy = s.throttlePolicy ∧
    s.close.session.done = (s.done || decide (s.pendingCount = 0)) ∧
    s.close.blocked = !s.close.session.done := by
  unfold SourceSession.close
  by_cases hp : s.pendingCount = 0
  · simp [hp]
  · cases hd : s.done <;> simp [hp, hd]

theorem step_cases {P : Type} [IThrottlePolicy P] (mb : MessageBus) (s t : SourceSession P)
    (c : Step) (e : Event) (h : step mb s c = Except.ok (t, e)) :
    e.call = c ∧
    ((∃ o : SendOutcome P, c.isSend = true ∧ t = o.session ∧ e.result = some o.result ∧
        o.respects s) ∨
      (∃ r o, c = Step.handleReply r ∧ s.handleReply r = Except.ok o ∧ t = o.session ∧
        e.result = none) ∨
      (c = Step.close ∧ t = s.close.session ∧ e.result = none) ∨
      (∃ d, c = Step.setTimeout d ∧ t = s.setTimeout d ∧ e.result = none)) := by
  cases c with
  | send now msg =>
    simp only [step, Except.ok.injEq, Prod.mk.injEq] at h
    obtain ⟨h1, h2⟩ := h
    subst h1 h2
    exact ⟨rfl, Or.inl ⟨_, rfl, rfl, rfl, send_respects s now msg⟩⟩
  | send_route now msg route =>
    simp only [step, Except.ok.injEq, Prod.mk.injEq] at h
    obtain ⟨h1, h2⟩ := h
    subst h1 h2
    exact ⟨rfl, Or.inl ⟨_, rfl, rfl, rfl, send_respects s now _⟩⟩
  | send_routeName now msg routeName parseIfNotFound =>
    simp only [step, Except.ok.injEq, Prod.mk.injEq] at h
    obtain ⟨h1, h2⟩ := h
    subst h1 h2
    exact ⟨rfl, Or.inl ⟨_, rfl, rfl, rfl, send_routeName_respects mb s now msg _ _⟩⟩
  | handleReply reply =>
    simp only [step] at h
    cases hr : s.handleReply reply with
    | error f => simp [hr] at h
    | ok o =>
      simp only [hr, Except.ok.injEq, Prod.mk.injEq] at h
      obtain ⟨h1, h2⟩ := h
      subst h1 h2
      exact ⟨rfl, Or.inr (Or.inl ⟨_, _, rfl, hr, rfl, rfl⟩)⟩
  | close =>
    simp only [step, Except.ok.injEq, Prod.mk.injEq] at h
    obtain ⟨h1, h2⟩ := h
    subst h1 h2
    exact ⟨rfl, Or.inr (Or.inr (Or.inl ⟨rfl, rfl, rfl⟩))⟩
  | setTimeout d =>
    simp only [step, Except.ok.injEq, Prod.mk.injEq] at h
    obtain ⟨h1, h2⟩ := h
    subst h1 h2
    exact ⟨rfl, Or.inr (Or.inr (Or.inr ⟨_, rfl, rfl, rfl⟩))⟩

theorem run_cons {P : Type} [IThrottlePolicy P] (mb : MessageBus) (s t : SourceSession P)
    (c : Step) (cs : List Step) (log : List Event)
    (h : run mb s (c :: cs) = Except.ok (t, log)) :
    ∃ s1 e rest, step mb s c = Except.ok (s1, e) ∧ run mb s1 cs = Except.ok (t, rest) ∧
      log = e :: rest := by
  simp only [run] at h
  cases hs : step mb s c with
  | error f => simp [hs] at h
  | ok p =>
    obtain ⟨s1, e⟩ := p
    simp only [hs] at h
    cases hr : run mb s1 cs with
    | error f => simp [hr] at h
    | ok q =>
      obtain ⟨s2, rest⟩ := q
      simp only [hr, Except.ok.injEq, Prod.mk.injEq] at h
      obtain ⟨h1, h2⟩ := h
      subst h1 h2
      exact ⟨s1, e, rest, rfl, hr, rfl⟩

theorem run_nil {P : Type} [IThrottlePolicy P] (mb : MessageBus) (s t : SourceSession P)
    (log : List Event) (h : run mb s [] = Except.ok (t, log)) : t = s ∧ log = [] := by
  simp only [run, Except.ok.injEq, Prod.mk.injEq] at h
  exact ⟨h.1.symm, h.2.symm⟩

theorem acceptedSends_cons (e : Event) (log : List Event) :
    acceptedSends (e :: log) = (if e.isAcceptedSend = true then 1 else 0) + acceptedSends log := by
  unfold acceptedSends
  by_cases h : e.isAcceptedSend = true
  · simp [List.filter_cons, h]
    omega
  · simp [List.filter_cons, h]

theorem completedReplies_cons (e : Event) (log : List Event) :
    completedReplies (e :: log) = (if e.isReply = true then 1 else 0) + completedReplies log := by
  unfold completedReplies
  by_cases h : e.isReply = true
  · simp [List.filter_cons, h]
    omega
  · simp [List.filter_cons, h]

theorem isReply_of_isSend (e : Event) (h : e.call.isSend = true) : e.isReply = false := by
  unfold Event.isReply
  cases hc : e.call <;> simp_all [Step.isSend]

theorem step_count {P : Type} [IThrottlePolicy P] (mb : MessageBus) (s t : SourceSession P)
    (c : Step) (e : Event) (h : step mb s c = Except.ok (t, e)) :
    t.pendingCount + (if e.isReply = true then 1 else 0) =
      s.pendingCount + (if e.isAcceptedSend = true then 1 else 0) := by
  obtain ⟨hcall, hcases⟩ := step_cases mb s t c e h
  rcases hcases with ⟨o, hs, ht, hres, hresp⟩ | ⟨r, o, hc, hr, ht, hres⟩ | ⟨hc, ht, hres⟩ |
    ⟨d, hc, ht, hres⟩
  · have hrep : e.isReply = false := isReply_of_isSend e (by rw [hcall]; exact hs)
    obtain ⟨_, _, _, _, hpc⟩ := hresp
    rcases hpc with ⟨hacc, _, hp⟩ | ⟨hrej, hsame⟩
    · have : e.isAcceptedSend = true := by simp [Event.isAcceptedSend, hres, hacc]
      simp [hrep, this, ht, hp]
    · have : e.isAcceptedSend = false := by simp [Event.isAcceptedSend, hres, hrej]
      simp [hrep, this, ht, hsame]
  · have hrep : e.isReply = true := by simp [Event.isReply, hcall, hc]
    have hacc : e.isAcceptedSend = false := by simp [Event.isAcceptedSend, hres]
    obtain ⟨_, _, hp, _⟩ := handleReply_ok s r o hr
    simp [hrep, hacc, ht, hp]
  · have hrep : e.isReply = false := by simp [Event.isReply, hcall, hc]
    have hacc : e.isAcceptedSend = false := by simp [Event.isAcceptedSend, hres]
    simp [hrep, hacc, ht, (close_session s).2.1]
  · have hrep : e.isReply = false := by simp [Event.isReply, hcall, hc]
    have hacc : e.isAcceptedSend = false := by simp [Event.isAcceptedSend, hres]
    simp [hrep, hacc, ht, SourceSession.setTimeout]

theorem run_count {P : Type} [IThrottlePolicy P] (mb : MessageBus) (calls : List Step) :
    ∀ (s t : SourceSession P) (log : List Event), run mb s calls = Except.ok (t, log) →
      t.pendingCount + completedReplies log = s.pendingCount + acceptedSends log := by
  induction calls with
  | nil =>
    intro s t log h
    obtain ⟨h1, h2⟩ := run_nil mb s t log h
    subst h1 h2
    rfl
  | cons c cs ih =>
    intro s t log h
    obtain ⟨s1, e, rest, hstep, hrun, hlog⟩ := run_cons mb s t c cs log h
    have h1 := step_count mb s s1 c e hstep
    have h2 := ih s1 t rest hrun
    rw [hlog, acceptedSends_cons, completedReplies_cons]
    omega

theorem step_doneImpliesDrained {P : Type} [IThrottlePolicy P] (mb : MessageBus)
    (s t : SourceSession P) (c : Step) (e : Event) (h : step mb s c = Except.ok (t, e))
    (hinv : s.doneImpliesDrained) : t.doneImpliesDrained := by
  obtain ⟨_, hcases⟩ := step_cases mb s t c e h
  unfold SourceSession.doneImpliesDrained at *
  rcases hcases with ⟨o, _, ht, _, hresp⟩ | ⟨r, o, _, hr, ht, _⟩ | ⟨_, ht, _⟩ | ⟨d, _, ht, _⟩
  · obtain ⟨hcl, hdn, _, _, hpc⟩ := hresp
    rcases hpc with ⟨_, hopen, _⟩ | ⟨_, hsame⟩
    · intro hd
      rw [ht, hdn] at hd
      have := (hinv hd).1
      rw [hopen] at this
      exact absurd this (by simp)
    · rw [ht, hsame]
      exact hinv
  · obtain ⟨hpos, _, hp, hcl, _, _, hdn⟩ := handleReply_ok s r o hr
    intro hd
    rw [ht] at hd ⊢
    rw [hdn] at hd
    cases hsd : s.done
    · rw [hsd] at hd
      simp only [Bool.false_or, Bool.and_eq_true, decide_eq_true_eq] at hd
      exact ⟨by rw [hcl]; exact hd.1, hd.2⟩
    · have := (hinv hsd).2
      omega
  · obtain ⟨hcl, hp, _, _, _, hdn, _⟩ := close_session s
    intro hd
    rw [ht] at hd ⊢
    refine ⟨hcl, ?_⟩
    rw [hdn] at hd
    rw [hp]
    cases hsd : s.done
    · rw [hsd] at hd
      simpa using hd
    · exact (hinv hsd).2
  · rw [ht]
    exact hinv

theorem run_doneImpliesDrained {P : Type} [IThrottlePolicy P] (mb : MessageBus)
    (calls : List Step) :
    ∀ (s t : SourceSession P) (log : List Event), run mb s calls = Except.ok (t, log) →
      s.doneImpliesDrained → t.doneImpliesDrained := by
  induction calls with
  | nil =>
    intro s t log h hinv
    obtain ⟨h1, _⟩ := run_nil mb s t log h
    subst h1
    exact hinv
  | cons c cs ih =>
    intro s t log h hinv
    obtain ⟨s1, e, rest, hstep, hrun, _⟩ := run_cons mb s t c cs log h
    exact ih s1 t rest hrun (step_doneImpliesDrained mb s s1 c e hstep hinv)

theorem create_ok {P : Type} (params : SourceSessionParams P) (s : SourceSession P)
    (h : SourceSession.create params = Except.ok s) :
    s.pendingCount = 0 ∧ s.closed = false ∧ s.done = false ∧ s.timeout = params.timeout ∧
      s.throttlePolicy = params.throttlePolicy ∧ params.replyHandler = some s.replyHandler := by
  unfold SourceSession.create at h
  cases hh : params.replyHandler with
  | none => simp [hh] at h
  | some handler =>
    simp only [hh, Except.ok.injEq] at h
    subst h
    exact ⟨rfl, rfl, rfl, rfl, rfl, rfl⟩

theorem reachable_doneImpliesDrained {P : Type} [IThrottlePolicy P] (mb : MessageBus)
    (s : SourceSession P) (h : Reachable mb s) : s.doneImpliesDrained := by
  obtain ⟨params, s0, calls, log, hc, hr⟩ := h
  refine run_doneImpliesDrained mb calls s0 s log hr ?_
  intro hd
  rw [(create_ok params s0 hc).2.2.1] at hd
  exact absurd hd (by simp)

/-- C5: on a freshly constructed session (pending count 0), after every sequence of
calls (the sends, `handleReply`, `close`, `setTimeout`) the pending count is the number
of accepted sends minus the number of completed `handleReply` calls; with no reply
completed it is the number of accepted sends; and every accepted send increases the
pending count by exactly one. -/
theorem pendingCount_is_accepted_minus_replied {P : Type} [IThrottlePolicy P]
    (mb : MessageBus) (params : SourceSessionParams P) (s0 s : SourceSession P)
    (calls : List Step) (log : List Event)
    (hfresh : SourceSession.create params = Except.ok s0)
    (hrun : run mb s0 calls = Except.ok (s, log)) :
    s0.pendingCount = 0 ∧
    s.pendingCount + completedReplies log = acceptedSends log ∧
    s.pendingCount = acceptedSends log - completedReplies log ∧
    (completedReplies log = 0 → s.pendingCount = acceptedSends log) ∧
    (∀ (t : SourceSession P) (now : Int) (msg : Message),
      (t.send now msg).result = Result.accepted →
        (t.send now msg).session.pendingCount = t.pendingCount + 1) := by
  have h0 := (create_ok params s0 hfresh).1
  have hc := run_count mb calls s0 s log hrun
  rw [h0] at hc
  refine ⟨h0, by omega, by omega, by omega, ?_⟩
  intro t now msg hacc
  obtain ⟨_, _, _, _, hpc⟩ := send_session t now msg
  rcases hpc with ⟨_, _, hp⟩ | ⟨hrej, _⟩
  · exact hp
  · exact absurd hacc hrej

/-- Witness of C5: two accepted sends and one reply on the example session leave one
message pending. -/
theorem pendingCount_is_accepted_minus_replied_witness :
    SourceSession.create exampleParams = Except.ok exampleSession ∧
    run exampleBus exampleSession exampleCalls = Except.ok (examplePending, exampleLog) ∧
    acceptedSends exampleLog = 2 ∧ completedReplies exampleLog = 1 ∧
    (exampleSession.pendingCount = 0 ∧
    examplePending.pendingCount + completedReplies exampleLog = acceptedSends exampleLog ∧
    examplePending.pendingCount = acceptedSends exampleLog - completedReplies exampleLog ∧
    (completedReplies exampleLog = 0 → examplePending.pendingCount = acceptedSends exampleLog) ∧
    (∀ (t : SourceSession AcceptAllPolicy) (now : Int) (msg : Message),
      (t.send now msg).result = Result.accepted →
        (t.send now msg).session.pendingCount = t.pendingCount + 1)) :=
  ⟨rfl, rfl, by decide, by decide,
    pendingCount_is_accepted_minus_replied exampleBus exampleParams exampleSession
      examplePending exampleCalls exampleLog rfl rfl⟩

/-- C7: on a session without pending messages `close()` sets closed and done in the same
step and does not enter the wait loop (no call of `_cond.wait`, the caller is not
blocked); the pending count and the default timeout are unchanged. -/
theorem close_without_pending_returns {P : Type} (s : SourceSession P)
    (hpending : s.pendingCount = 0) :
    s.close.session.closed = true ∧ s.close.session.done = true ∧
    s.close.blocked = false ∧ s.close.session.closeWaits = false ∧
    Effect.condWait ∉ s.close.effects ∧
    s.close.session.pendingCount = s.pendingCount ∧
    s.close.session.timeout = s.timeout := by
  unfold SourceSession.close SourceSession.closeWaits
  simp [hpending]

/-- Witness of C7: `close()` on the fresh example session. -/
theorem close_without_pending_returns_witness :
    exampleSession.pendingCount = 0 ∧
    (exampleSession.close.session.closed = true ∧ exampleSession.close.session.done = true ∧
    exampleSession.close.blocked = false ∧ exampleSession.close.session.closeWaits = false ∧
    Effect.condWait ∉ exampleSession.close.effects ∧
    exampleSession.close.session.pendingCount = exampleSession.pendingCount ∧
    exampleSession.close.session.timeout = exampleSession.timeout) :=
  ⟨rfl, close_without_pending_returns exampleSession rfl⟩

theorem step_closed {P : Type} [IThrottlePolicy P] (mb : MessageBus)
    (s t : SourceSession P) (c : Step) (e : Event) (h : step mb s c = Except.ok (t, e)) :
    (s.closed = true → t.closed = true ∧ e.isAcceptedSend = false) ∧
    (s.done = true → t.done = true) ∧
    (t.closed ≠ s.closed → c = Step.close) := by
  obtain ⟨_, hcases⟩ := step_cases mb s t c e h
  rcases hcases with ⟨o, _, ht, hres, hresp⟩ | ⟨r, o, _, hr, ht, hres⟩ | ⟨hc, ht, hres⟩ |
    ⟨d, _, ht, hres⟩
  · obtain ⟨hcl, hdn, _, _, hpc⟩ := hresp
    rw [ht]
    refine ⟨fun hclosed => ⟨by rw [hcl]; exact hclosed, ?_⟩, fun hd => by rw [hdn]; exact hd,
      fun hne => absurd hcl hne⟩
    rcases hpc with ⟨_, hopen, _⟩ | ⟨hrej, _⟩
    · rw [hclosed] at hopen
      exact absurd hopen (by simp)
    · simp [Event.isAcceptedSend, hres, hrej]
  · obtain ⟨_, _, _, hcl, _, _, hdn⟩ := handleReply_ok s r o hr
    rw [ht]
    refine ⟨fun hclosed => ⟨by rw [hcl]; exact hclosed, by simp [Event.isAcceptedSend, hres]⟩,
      fun hd => by rw [hdn, hd]; rfl, fun hne => absurd hcl hne⟩
  · obtain ⟨hcl, _, _, _, _, hdn, _⟩ := close_session s
    rw [ht]
    exact ⟨fun _ => ⟨hcl, by simp [Event.isAcceptedSend, hres]⟩,
      fun hd => by rw [hdn, hd]; rfl, fun _ => hc⟩
  · rw [ht]
    exact ⟨fun hclosed => ⟨hclosed, by simp [Event.isAcceptedSend, hres]⟩, fun hd => hd,
      fun hne => absurd rfl hne⟩

theorem run_closed {P : Type} [IThrottlePolicy P] (mb : MessageBus) (calls : List Step) :
    ∀ (s t : SourceSession P) (log : List Event), run mb s calls = Except.ok (t, log) →
      s.closed = true → t.closed = true ∧ acceptedSends log = 0 := by
  induction calls with
  | nil =>
    intro s t log h hcl
    obtain ⟨h1, h2⟩ := run_nil mb s t log h
    subst h1 h2
    exact ⟨hcl, rfl⟩
  | cons c cs ih =>
    intro s t log h hcl
    obtain ⟨s1, e, rest, hstep, hrun, hlog⟩ := run_cons mb s t c cs log h
    obtain ⟨h1, h2⟩ := (step_closed mb s s1 c e hstep).1 hcl
    obtain ⟨h3, h4⟩ := ih s1 t rest hrun h1
    refine ⟨h3, ?_⟩
    rw [hlog, acceptedSends_cons, h2, h4]
    simp

theorem handleReply_empty {P : Type} [IThrottlePolicy P] (s : SourceSession P)
    (reply : Reply) (hp : 0 < s.pendingCount) (hnil : reply.callStack = []) :
    s.handleReply reply = Except.error Fatal.emptyCallStack := by
  unfold SourceSession.handleReply
  rw [handleReply_locked_completes s reply hp]
  have hpop : (SourceSession.traceReply reply (s.pendingCount - 1)).pop = none := by
    unfold Reply.pop
    rw [traceReply_callStack, hnil]
  simp only [hpop]

theorem handleReply_error {P : Type} [IThrottlePolicy P] (s : SourceSession P)
    (reply : Reply) (f : Fatal) (h : s.handleReply reply = Except.error f) :
    f = Fatal.assertPendingCountPositive ∨ f = Fatal.emptyCallStack := by
  by_cases hp : 0 < s.pendingCount
  · by_cases hnil : reply.callStack = []
    · rw [handleReply_empty s reply hp hnil] at h
      injection h with h
      exact Or.inr h.symm
    · obtain ⟨o, ho⟩ := handleReply_completes s reply hp hnil
      rw [ho] at h
      exact absurd h (by simp)
  · rw [handleReply_pending_zero s reply (by omega)] at h
    injection h with h
    exact Or.inl h.symm

/-- C8: in every state a freshly constructed session reaches by calls of send,
`handleReply`, `close` and `setTimeout`, done implies closed and pending count 0; so the
loop of `close()` is left only in a closed and drained session.  The assertions of
lines 126-127 never fail: no call of `handleReply` ends with one of them, and after a
first critical section that computed `done == true`, the second critical section
passes both assertions whatever calls complete in between. -/
theorem done_implies_closed_and_drained {P : Type} [IThrottlePolicy P] (mb : MessageBus)
    (s : SourceSession P) (hreach : Reachable mb s) :
    (s.done = true → s.closed = true ∧ s.pendingCount = 0) ∧
    (s.closeWaits = false → s.closed = true ∧ s.pendingCount = 0) ∧
    (∀ reply : Reply, s.handleReply reply ≠ Except.error Fatal.assertPendingCountZero ∧
      s.handleReply reply ≠ Except.error Fatal.assertClosed) ∧
    (∀ (reply : Reply) (s1 : SourceSession P),
      s.handleReply_locked reply = Except.ok (s1, true) →
      ∀ (calls : List Step) (t : SourceSession P) (log : List Event),
        run mb s1 calls = Except.ok (t, log) →
          t.handleReply_finish = Except.ok { t with done := true }) := by
  have hinv := reachable_doneImpliesDrained mb s hreach
  refine ⟨hinv, ?_, ?_, ?_⟩
  · intro hw
    apply hinv
    unfold SourceSession.closeWaits at hw
    simpa using hw
  · intro reply
    constructor
    · intro h
      rcases handleReply_error s reply _ h with h1 | h1 <;> exact absurd h1 (by decide)
    · intro h
      rcases handleReply_error s reply _ h with h1 | h1 <;> exact absurd h1 (by decide)
  · intro reply s1 hlocked calls t log hrun
    obtain ⟨hpos, hs1, hdone⟩ := handleReply_locked_ok s s1 reply true hlocked
    have hd : s.closed = true ∧ s.pendingCount - 1 = 0 := by
      simpa using hdone.symm
    have hcl1 : s1.closed = true := by rw [hs1]; exact hd.1
    have hp1 : s1.pendingCount = 0 := by rw [hs1]; exact hd.2
    obtain ⟨hclt, hacc⟩ := run_closed mb calls s1 t log hrun hcl1
    have hcount := run_count mb calls s1 t log hrun
    rw [hacc, hp1] at hcount
    exact handleReply_finish_completes t hclt (by omega)

/-- Witness of C8: the closed and drained example session is reached by `close()` on the
fresh example session. -/
theorem done_implies_closed_and_drained_witness :
    Reachable exampleBus exampleClosed ∧ exampleClosed.done = true ∧
    ((exampleClosed.done = true → exampleClosed.closed = true ∧ exampleClosed.pendingCount = 0) ∧
    (exampleClosed.closeWaits = false →
      exampleClosed.closed = true ∧ exampleClosed.pendingCount = 0) ∧
    (∀ reply : Reply,
      exampleClosed.handleReply reply ≠ Except.error Fatal.assertPendingCountZero ∧
      exampleClosed.handleReply reply ≠ Except.error Fatal.assertClosed) ∧
    (∀ (reply : Reply) (s1 : SourceSession AcceptAllPolicy),
      exampleClosed.handleReply_locked reply = Except.ok (s1, true) →
      ∀ (calls : List Step) (t : SourceSession AcceptAllPolicy) (log : List Event),
        run exampleBus s1 calls = Except.ok (t, log) →
          t.handleReply_finish = Except.ok { t with done := true })) :=
  ⟨⟨exampleParams, exampleSession, [Step.close],
      [{ call := Step.close, result := none, effects := [Effect.lock, Effect.unlock] }],
      rfl, rfl⟩, rfl,
    done_implies_closed_and_drained exampleBus exampleClosed
      ⟨exampleParams, exampleSession, [Step.close],
        [{ call := Step.close, result := none, effects := [Effect.lock, Effect.unlock] }],
        rfl, rfl⟩⟩

/-- C9: the lifecycle is monotone.  For every completed call (a send, `handleReply`,
`close`, `setTimeout`) on any session: closed stays true, done stays true, closed
changes only in `close()` and then from false to true, and the lifecycle state (OPEN 0,
CLOSING 1, DONE 2) never decreases. -/
theorem lifecycle_is_monotone {P : Type} [IThrottlePolicy P] (mb : MessageBus)
    (s t : SourceSession P) (c : Step) (e : Event) (h : step mb s c = Except.ok (t, e)) :
    (s.closed = true → t.closed = true) ∧
    (s.done = true → t.done = true) ∧
    (t.closed ≠ s.closed → c = Step.close ∧ s.closed = false ∧ t.closed = true) ∧
    s.phase ≤ t.phase := by
  obtain ⟨hcl, hdn, hch⟩ := step_closed mb s t c e h
  refine ⟨fun hc => (hcl hc).1, hdn, ?_, ?_⟩
  · intro hne
    have hsc : s.closed = false := by
      cases hc : s.closed
      · rfl
      · have := (hcl hc).1
        rw [hc, this] at hne
        exact absurd rfl hne
    refine ⟨hch hne, hsc, ?_⟩
    cases htc : t.closed
    · rw [hsc, htc] at hne
      exact absurd rfl hne
    · rfl
  · unfold SourceSession.phase
    cases hsd : s.done
    · cases hsc : s.closed
      · simp
      · have := (hcl hsc).1
        cases htd : t.done <;> simp [this]
    · simp [hdn hsd]

/-- Witness of C9: `close()` on the fresh example session moves it from OPEN to DONE. -/
theorem lifecycle_is_monotone_witness :
    step exampleBus exampleSession Step.close = Except.ok (exampleClosed,
      { call := Step.close, result := none, effects := [Effect.lock, Effect.unlock] }) ∧
    exampleSession.phase = 0 ∧ exampleClosed.phase = 2 ∧
    ((exampleSession.closed = true → exampleClosed.closed = true) ∧
    (exampleSession.done = true → exampleClosed.done = true) ∧
    (exampleClosed.closed ≠ exampleSession.closed →
      Step.close = Step.close ∧ exampleSession.closed = false ∧ exampleClosed.closed = true) ∧
    exampleSession.phase ≤ exampleClosed.phase) :=
  ⟨rfl, rfl, rfl,
    lifecycle_is_monotone exampleBus exampleSession exampleClosed Step.close
      { call := Step.close, result := none, effects := [Effect.lock, Effect.unlock] } rfl⟩

/-- C10: the pending count never goes below zero.  `handleReply` on a session whose
pending count is 0 fails the assertion of line 110 (abnormal termination: no session
state, no decrement, no error result); a completed `handleReply` decrements the count
by exactly one from a positive value; and on a session constructed fresh, as long as
fewer `handleReply` calls have completed than sends were accepted, the pending count is
positive and the next `handleReply` passes that assertion. -/
theorem pendingCount_underflow_is_fatal {P : Type} [IThrottlePolicy P] (mb : MessageBus)
    (params : SourceSessionParams P) (s0 s : SourceSession P) (calls : List Step)
    (log : List Event) (reply : Reply)
    (hfresh : SourceSession.create params = Except.ok s0)
    (hrun : run mb s0 calls = Except.ok (s, log)) :
    (∀ (t : SourceSession P) (r : Reply), t.pendingCount = 0 →
      t.handleReply r = Except.error Fatal.assertPendingCountPositive) ∧
    (∀ (t : SourceSession P) (r : Reply) (o : ReplyOutcome P), t.handleReply r = Except.ok o →
      0 < t.pendingCount ∧ o.session.pendingCount = t.pendingCount - 1) ∧
    (completedReplies log < acceptedSends log →
      0 < s.pendingCount ∧
      s.handleReply reply ≠ Except.error Fatal.assertPendingCountPositive) := by
  refine ⟨fun t r h0 => handleReply_pending_zero t r h0, ?_, ?_⟩
  · intro t r o ho
    obtain ⟨hpos, _, hp, _⟩ := handleReply_ok t r o ho
    exact ⟨hpos, by omega⟩
  · intro hlt
    have h0 := (create_ok params s0 hfresh).1
    have hc := run_count mb calls s0 s log hrun
    rw [h0] at hc
    have hpos : 0 < s.pendingCount := by omega
    refine ⟨hpos, ?_⟩
    intro herr
    by_cases hnil : reply.callStack = []
    · rw [handleReply_empty s reply hpos hnil] at herr
      exact absurd herr (by simp)
    · obtain ⟨o, ho⟩ := handleReply_completes s reply hpos hnil
      rw [ho] at herr
      exact absurd herr (by simp)

/-- Witness of C10: after two accepted sends, the first and the second reply pass the
assertion; a third one, at pending count 0, fails it. -/
theorem pendingCount_underflow_is_fatal_witness :
    (SourceSession.create exampleParams = Except.ok exampleSession ∧
      run exampleBus exampleSession exampleCalls = Except.ok (examplePending, exampleLog) ∧
      completedReplies exampleLog < acceptedSends exampleLog) ∧
    (run exampleBus examplePending [Step.handleReply exampleReply, Step.handleReply exampleReply]
      = Except.error Fatal.assertPendingCountPositive) ∧
    ((∀ (t : SourceSession AcceptAllPolicy) (r : Reply), t.pendingCount = 0 →
      t.handleReply r = Except.error Fatal.assertPendingCountPositive) ∧
    (∀ (t : SourceSession AcceptAllPolicy) (r : Reply) (o : ReplyOutcome AcceptAllPolicy),
      t.handleReply r = Except.ok o →
      0 < t.pendingCount ∧ o.session.pendingCount = t.pendingCount - 1) ∧
    (completedReplies exampleLog < acceptedSends exampleLog →
      0 < examplePending.pendingCount ∧
      examplePending.handleReply exampleReply ≠
        Except.error Fatal.assertPendingCountPositive)) :=
  ⟨⟨rfl, rfl, by decide⟩, rfl,
    pendingCount_underflow_is_fatal exampleBus exampleParams exampleSession examplePending
      exampleCalls exampleLog exampleReply rfl rfl⟩

theorem send_accepted {P : Type} [IThrottlePolicy P] (s : SourceSession P) (now : Int)
    (msg : Message) (hacc : (s.send now msg).result = Result.accepted) :
    s.closed = false ∧ s.queueFull (s.stamp now msg) = false := by
  cases hc : s.closed
  · cases hf : s.queueFull (s.stamp now msg)
    · exact ⟨rfl, rfl⟩
    · rw [send_full s now msg hc hf] at hacc
      simp [Result.rejected, Result.accepted] at hacc
  · rw [send_closed s now msg hc] at hacc
    simp [Result.rejected, Result.accepted] at hacc

theorem handed_of_accepted {P : Type} [IThrottlePolicy P] (s : SourceSession P) (now : Int)
    (msg : Message) (hacc : (s.send now msg).result = Result.accepted) :
    handedToSequencer (s.send now msg).effects =
      [(SourceSession.traceAccepted ((s.stamp now msg).pushHandler s.replyHandler)
        (s.pendingCount + 1)).pushHandler Handler.sourceSession] := by
  obtain ⟨hc, hf⟩ := send_accepted s now msg hacc
  rw [send_ok s now msg hc hf]
  exact handed_send_ok _ _ _ _ _

theorem traceAccepted_fields (m : Message) (n : Nat) :
    (SourceSession.traceAccepted m n).callStack = m.callStack ∧
    (SourceSession.traceAccepted m n).timeRemaining = m.timeRemaining ∧
    (SourceSession.traceAccepted m n).timeReceived = m.timeReceived ∧
    (SourceSession.traceAccepted m n).route = m.route ∧
    (SourceSession.traceAccepted m n).payload = m.payload := by
  unfold SourceSession.traceAccepted
  split
  · exact ⟨rfl, rfl, rfl, rfl, rfl⟩
  · exact ⟨rfl, rfl, rfl, rfl, rfl⟩

/-- C11: when the core `send(msg)` accepts a message whose handler chain is `c`, the
message handed to the sequencer has the chain `c` with the reply handler of the session
pushed first and the session itself pushed last: the session is on top, the reply
handler directly beneath it, and exactly two entries were added. -/
theorem accepted_message_chain {P : Type} [IThrottlePolicy P] (s : SourceSession P)
    (now : Int) (msg : Message) (hacc : (s.send now msg).result = Result.accepted) :
    ∃ m, handedToSequencer (s.send now msg).effects = [m] ∧
      m.callStack = Handler.sourceSession :: s.replyHandler :: msg.callStack ∧
      m.callStack.head? = some Handler.sourceSession ∧
      m.callStack.tail.head? = some s.replyHandler ∧
      m.callStack.length = msg.callStack.length + 2 := by
  refine ⟨_, handed_of_accepted s now msg hacc, ?_⟩
  have hcs : ((SourceSession.traceAccepted ((s.stamp now msg).pushHandler s.replyHandler)
      (s.pendingCount + 1)).pushHandler Handler.sourceSession).callStack =
      Handler.sourceSession :: s.replyHandler :: msg.callStack := by
    simp only [Message.pushHandler, (traceAccepted_fields _ _).1, stamp_eq]
  rw [hcs]
  simp

/-- Witness of C11: the example message, whose chain holds handler 7, sent on the
example session, whose reply handler is handler 1. -/
theorem accepted_message_chain_witness :
    (exampleSession.send 7 exampleMessage).result = Result.accepted ∧
    (handedToSequencer (exampleSession.send 7 exampleMessage).effects).map Message.callStack =
      [[Handler.sourceSession, Handler.external 1, Handler.external 7]] ∧
    ∃ m, handedToSequencer (exampleSession.send 7 exampleMessage).effects = [m] ∧
      m.callStack = Handler.sourceSession :: exampleSession.replyHandler ::
        exampleMessage.callStack ∧
      m.callStack.head? = some Handler.sourceSession ∧
      m.callStack.tail.head? = some exampleSession.replyHandler ∧
      m.callStack.length = exampleMessage.callStack.length + 2 :=
  ⟨rfl, by decide, accepted_message_chain exampleSession 7 exampleMessage rfl⟩

/-- C13: on a session with default timeout `T`, the message handed to the sequencer by
an accepted core send has remaining-time `T` when its remaining-time was zero (unset)
on entry, and its remaining-time of entry otherwise. -/
theorem accepted_message_remaining_time {P : Type} [IThrottlePolicy P]
    (s : SourceSession P) (now : Int) (msg : Message)
    (hacc : (s.send now msg).result = Result.accepted) :
    ∃ m, handedToSequencer (s.send now msg).effects = [m] ∧
      (msg.timeRemaining = 0 → m.timeRemaining = s.timeout) ∧
      (msg.timeRemaining ≠ 0 → m.timeRemaining = msg.timeRemaining) := by
  refine ⟨_, handed_of_accepted s now msg hacc, ?_⟩
  have htr : ((SourceSession.traceAccepted ((s.stamp now msg).pushHandler s.replyHandler)
      (s.pendingCount + 1)).pushHandler Handler.sourceSession).timeRemaining =
      (if msg.timeRemaining = 0 then s.timeout else msg.timeRemaining) := by
    simp only [Message.pushHandler, (traceAccepted_fields _ _).2.1, stamp_eq]
  rw [htr]
  constructor
  · intro h0
    simp [h0]
  · intro h0
    simp [h0]

/-- Witness of C13: accept-all policy, default timeout 5000, a message without
remaining-time: the message handed to the sequencer has remaining-time 5000. -/
theorem accepted_message_remaining_time_witness :
    ((exampleSession.send 7 exampleMessage).result = Result.accepted ∧
      exampleSession.timeout = 5000 ∧ exampleMessage.timeRemaining = 0) ∧
    (handedToSequencer (exampleSession.send 7 exampleMessage).effects).map
      Message.timeRemaining = [5000] ∧
    ∃ m, handedToSequencer (exampleSession.send 7 exampleMessage).effects = [m] ∧
      (exampleMessage.timeRemaining = 0 → m.timeRemaining = exampleSession.timeout) ∧
      (exampleMessage.timeRemaining ≠ 0 → m.timeRemaining = exampleMessage.timeRemaining) :=
  ⟨⟨rfl, rfl, rfl⟩, by decide,
    accepted_message_remaining_time exampleSession 7 exampleMessage rfl⟩

/-- C14: with `parseIfNotFound` false, when there is no routing table for the protocol of
the message or the table has no route of the given name, `send(msg, routeName, false)`
returns `ILLEGAL_ROUTE` with the message in the result exactly as it was passed in
(route, time-received, remaining-time, handler chain and all other attributes), and the
session is unchanged; nothing is called on the policy or the sequencer. -/
theorem send_unknown_route_is_illegal {P : Type} [IThrottlePolicy P] (mb : MessageBus)
    (s : SourceSession P) (now : Int) (msg : Message) (routeName : String)
    (hmissing : mb.getRoutingTable msg.protocol = none ∨
      ∃ rt, mb.getRoutingTable msg.protocol = some rt ∧ rt.getRoute routeName = none) :
    ((SourceSession.send_routeName mb s now msg routeName false).result.error.map Error.code
        = some ErrorCode.ILLEGAL_ROUTE) ∧
    (SourceSession.send_routeName mb s now msg routeName false).result.msg = some msg ∧
    (SourceSession.send_routeName mb s now msg routeName false).session = s ∧
    (SourceSession.send_routeName mb s now msg routeName false).effects = [] := by
  unfold SourceSession.send_routeName
  rcases hmissing with h | ⟨rt, h1, h2⟩
  · simp only [h]
    exact ⟨rfl, rfl, rfl, rfl⟩
  · simp only [h1, h2]
    exact ⟨rfl, rfl, rfl, rfl⟩

/-- Witness of C14: route name `foo` is absent from the routing table of the example
bus, lenient fallback disabled. -/
theorem send_unknown_route_is_illegal_witness :
    (exampleBus.getRoutingTable exampleMessage.protocol = none ∨
      ∃ rt, exampleBus.getRoutingTable exampleMessage.protocol = some rt ∧
        rt.getRoute "foo" = none) ∧
    (((SourceSession.send_routeName exampleBus exampleSession 7 exampleMessage "foo"
        false).result.error.map Error.code = some ErrorCode.ILLEGAL_ROUTE) ∧
    (SourceSession.send_routeName exampleBus exampleSession 7 exampleMessage "foo"
      false).result.msg = some exampleMessage ∧
    (SourceSession.send_routeName exampleBus exampleSession 7 exampleMessage "foo"
      false).session = exampleSession ∧
    (SourceSession.send_routeName exampleBus exampleSession 7 exampleMessage "foo"
      false).effects = []) :=
  ⟨Or.inr ⟨{ routes := [("default", { hops := ["a", "b"] })] }, by decide, by decide⟩,
    send_unknown_route_is_illegal exampleBus exampleSession 7 exampleMessage "foo"
      (Or.inr ⟨{ routes := [("default", { hops := ["a", "b"] })] }, by decide, by decide⟩)⟩

theorem step_timeout {P : Type} [IThrottlePolicy P] (mb : MessageBus)
    (s t : SourceSession P) (c : Step) (e : Event) (h : step mb s c = Except.ok (t, e))
    (hc : ∀ d, c ≠ Step.setTimeout d) : t.timeout = s.timeout := by
  obtain ⟨_, hcases⟩ := step_cases mb s t c e h
  rcases hcases with ⟨o, _, ht, _, hresp⟩ | ⟨r, o, _, hr, ht, _⟩ | ⟨_, ht, _⟩ | ⟨d, hd, _, _⟩
  · rw [ht]
    exact hresp.2.2.1
  · rw [ht]
    exact (handleReply_ok s r o hr).2.2.2.2.1
  · rw [ht]
    exact (close_session s).2.2.1
  · exact absurd hd (hc d)

theorem run_timeout {P : Type} [IThrottlePolicy P] (mb : MessageBus) (calls : List Step) :
    ∀ (s t : SourceSession P) (log : List Event), run mb s calls = Except.ok (t, log) →
      (∀ c ∈ calls, ∀ d, c ≠ Step.setTimeout d) → t.timeout = s.timeout := by
  induction calls with
  | nil =>
    intro s t log h _
    obtain ⟨h1, _⟩ := run_nil mb s t log h
    rw [h1]
  | cons c cs ih =>
    intro s t log h hc
    obtain ⟨s1, e, rest, hstep, hrun, _⟩ := run_cons mb s t c cs log h
    rw [ih s1 t rest hrun (fun c1 h1 => hc c1 (List.mem_cons_of_mem c h1))]
    exact step_timeout mb s s1 c e hstep (hc c (List.mem_cons_self c cs))

theorem run_append_one {P : Type} [IThrottlePolicy P] (mb : MessageBus) (calls : List Step) :
    ∀ (s t t1 : SourceSession P) (log : List Event) (c : Step) (e : Event),
      run mb s calls = Except.ok (t, log) → step mb t c = Except.ok (t1, e) →
      run mb s (calls ++ [c]) = Except.ok (t1, log ++ [e]) := by
  induction calls with
  | nil =>
    intro s t t1 log c e h hstep
    obtain ⟨h1, h2⟩ := run_nil mb s t log h
    subst h1 h2
    simp only [List.nil_append, run, hstep]
  | cons c0 cs ih =>
    intro s t t1 log c e h hstep
    obtain ⟨s1, e0, rest, hstep0, hrun, hlog⟩ := run_cons mb s t c0 cs log h
    have hrest := ih s1 t t1 rest c e hrun hstep
    subst hlog
    show run mb s (c0 :: (cs ++ [c])) = Except.ok (t1, e0 :: (rest ++ [e]))
    simp only [run, hstep0, hrest]

/-- C15: `setTimeout(d)` sets the default timeout to `d` and changes nothing else of the
session (pending count, closed, done, reply handler, policy); it calls nothing but the
lock, so the record of earlier calls, with the messages already handed to the
sequencer, is as before; and as long as no other `setTimeout` follows, every later
accepted send of a message without remaining-time hands it over with remaining-time
`d`. -/
theorem setTimeout_sets_only_the_timeout {P : Type} [IThrottlePolicy P] (mb : MessageBus)
    (s : SourceSession P) (d : Int) :
    s.setTimeout d = { s with timeout := d } ∧
    (s.setTimeout d).timeout = d ∧
    ((s.setTimeout d).pendingCount = s.pendingCount ∧ (s.setTimeout d).closed = s.closed ∧
      (s.setTimeout d).done = s.done) ∧
    (∀ (s0 : SourceSession P) (calls : List Step) (log : List Event),
      run mb s0 calls = Except.ok (s, log) →
      run mb s0 (calls ++ [Step.setTimeout d]) = Except.ok (s.setTimeout d,
        log ++ [{ call := Step.setTimeout d, result := none,
                  effects := [Effect.lock, Effect.unlock] }])) ∧
    (∀ (calls : List Step) (t : SourceSession P) (log : List Event),
      run mb (s.setTimeout d) calls = Except.ok (t, log) →
      (∀ c ∈ calls, ∀ d1, c ≠ Step.setTimeout d1) →
      ∀ (now : Int) (msg : Message), (t.send now msg).result = Result.accepted →
        msg.timeRemaining = 0 →
        ∃ m, handedToSequencer (t.send now msg).effects = [m] ∧ m.timeRemaining = d) := by
  refine ⟨rfl, rfl, ⟨rfl, rfl, rfl⟩, ?_, ?_⟩
  · intro s0 calls log hrun
    exact run_append_one mb calls s0 s _ log _ _ hrun rfl
  · intro calls t log hrun hno now msg hacc h0
    have ht : t.timeout = d := run_timeout mb calls _ t log hrun hno
    obtain ⟨m, hm, hzero, _⟩ := accepted_message_remaining_time t now msg hacc
    exact ⟨m, hm, by rw [hzero h0, ht]⟩

theorem pushHandlers_callStack (hs : List Handler) :
    ∀ m : Message, (m.pushHandlers hs).callStack = hs.reverse ++ m.callStack := by
  induction hs with
  | nil => intro m; rfl
  | cons h rest ih =>
    intro m
    show ((m.pushHandler h).pushHandlers rest).callStack = _
    rw [ih]
    simp [Message.pushHandler]

theorem popN_callStack (n : Nat) :
    ∀ r : Reply, r.callStack.length ≤ n → Reply.popN n r = r.callStack := by
  induction n with
  | zero =>
    intro r h
    have : r.callStack = [] := List.length_eq_zero.mp (by omega)
    simp [Reply.popN, this]
  | succ n ih =>
    intro r h
    cases hcs : r.callStack with
    | nil => simp [Reply.popN, Reply.pop, hcs]
    | cons x rest =>
      have hlen : rest.length ≤ n := by
        rw [hcs] at h
        simp only [List.length_cons] at h
        omega
      simp only [Reply.popN, Reply.pop, hcs]
      rw [ih _ hlen]

theorem popAll_callStack (r : Reply) : r.popAll = r.callStack :=
  popN_callStack _ r (Nat.le_refl _)

theorem invoked_section {P : Type} (s : SourceSession P) (e : Effect) (h : Handler)
    (r : Reply) (he : e.invokedHandler = none) :
    invokedHandlers ([Effect.lock] ++ s.withPolicy e
        ++ [Effect.unlock, Effect.handlerHandleReply h r]) = [(h, r)] ∧
    invokedHandlers ([Effect.lock] ++ s.withPolicy e
        ++ [Effect.unlock, Effect.handlerHandleReply h r]
        ++ [Effect.lock, Effect.unlock, Effect.condNotifyAll]) = [(h, r)] := by
  unfold invokedHandlers SourceSession.withPolicy
  cases s.throttlePolicy
  · simp [Effect.invokedHandler]
  · simp only [Option.isSome_some, if_true, List.cons_append, List.nil_append,
      List.singleton_append, List.append_assoc, List.filterMap_cons, he]
    simp [Effect.invokedHandler]

theorem handleReply_invokes {P : Type} [IThrottlePolicy P] (s : SourceSession P)
    (reply : Reply) (h : Handler) (rest : List Handler) (hp : 0 < s.pendingCount)
    (hcs : reply.callStack = h :: rest) :
    ∃ o, s.handleReply reply = Except.ok o ∧
      invokedHandlers o.effects =
        [(h, { SourceSession.traceReply reply (s.pendingCount - 1) with callStack := rest })] := by
  unfold SourceSession.handleReply
  rw [handleReply_locked_completes s reply hp]
  simp only
  have hpop : (SourceSession.traceReply reply (s.pendingCount - 1)).pop =
      some (h, { SourceSession.traceReply reply (s.pendingCount - 1) with callStack := rest }) := by
    unfold Reply.pop
    rw [traceReply_callStack, hcs]
  simp only [hpop]
  have hinv := invoked_section s (Effect.processReply reply) h
    { SourceSession.traceReply reply (s.pendingCount - 1) with callStack := rest } rfl
  cases hcl : s.closed
  · simp only [Bool.false_and, Bool.false_eq_true, if_false]
    exact ⟨_, rfl, hinv.1⟩
  · by_cases hz : s.pendingCount - 1 = 0
    · simp only [hz, decide_True, Bool.and_self, if_true]
      rw [handleReply_finish_completes _ rfl rfl]
      have hinv2 := hinv.2
      rw [hz] at hinv2
      exact ⟨_, rfl, hinv2⟩
    · simp only [hz, decide_False, Bool.and_false, Bool.false_eq_true, if_false]
      exact ⟨_, rfl, hinv.1⟩

/-- C12: handler-chain round trip through the session.  A message whose chain was built
by pushing `h1..hn` in that order is accepted by send; a reply carries the chain of the
message handed to the sequencer.  Popping the top of the reply yields the session;
`handleReply` of the session (with a message pending) completes, pops exactly one
entry, and invokes exactly one handler, the reply handler of the session, with a reply
whose chain is the original one: its further pops yield `hn, ..., h1`. -/
theorem handler_chain_round_trip {P : Type} [IThrottlePolicy P] (s t : SourceSession P)
    (now : Int) (m0 : Message) (hs : List Handler) (reply : Reply)
    (hempty : m0.callStack = [])
    (hacc : (s.send now (m0.pushHandlers hs)).result = Result.accepted)
    (hreply : (handedToSequencer (s.send now (m0.pushHandlers hs)).effects).map
      Message.callStack = [reply.callStack])
    (hpending : 0 < t.pendingCount) :
    ∃ (r1 r2 : Reply) (o : ReplyOutcome P),
      reply.pop = some (Handler.sourceSession, r1) ∧
      t.handleReply r1 = Except.ok o ∧
      invokedHandlers o.effects = [(s.replyHandler, r2)] ∧
      r1.callStack.length = r2.callStack.length + 1 ∧
      r2.callStack = (m0.pushHandlers hs).callStack ∧
      r2.popAll = hs.reverse := by
  obtain ⟨m, hm, hchain, _⟩ := accepted_message_chain s now (m0.pushHandlers hs) hacc
  rw [hm] at hreply
  simp only [List.map_cons, List.map_nil, List.cons.injEq, and_true] at hreply
  have hrc : reply.callStack =
      Handler.sourceSession :: s.replyHandler :: (m0.pushHandlers hs).callStack := by
    rw [← hreply, hchain]
  have hpop : reply.pop = some (Handler.sourceSession,
      { reply with callStack := s.replyHandler :: (m0.pushHandlers hs).callStack }) := by
    unfold Reply.pop
    rw [hrc]
  obtain ⟨o, ho, hinv⟩ := handleReply_invokes t
    { reply with callStack := s.replyHandler :: (m0.pushHandlers hs).callStack }
    s.replyHandler (m0.pushHandlers hs).callStack hpending rfl
  refine ⟨_, _, o, hpop, ho, hinv, rfl, rfl, ?_⟩
  rw [popAll_callStack]
  show (m0.pushHandlers hs).callStack = hs.reverse
  rw [pushHandlers_callStack, hempty]
  simp

/-- Witness of C12: handlers A, B, C pushed in that order, the message accepted by the
example session, and the reply delivered to the session afterwards: the reply handler
receives a reply whose pops yield C, B, A. -/
theorem handler_chain_round_trip_witness :
    (exampleBareMessage.callStack = [] ∧
      (exampleSession.send 7 (exampleBareMessage.pushHandlers exampleHandlers)).result =
        Result.accepted ∧
      (handedToSequencer (exampleSession.send 7
        (exampleBareMessage.pushHandlers exampleHandlers)).effects).map Message.callStack
        = [exampleRoundTripReply.callStack] ∧
      0 < (exampleSession.send 7
        (exampleBareMessage.pushHandlers exampleHandlers)).session.pendingCount) ∧
    ∃ (r1 r2 : Reply) (o : ReplyOutcome AcceptAllPolicy),
      exampleRoundTripReply.pop = some (Handler.sourceSession, r1) ∧
      (exampleSession.send 7
        (exampleBareMessage.pushHandlers exampleHandlers)).session.handleReply r1
        = Except.ok o ∧
      invokedHandlers o.effects = [(exampleSession.replyHandler, r2)] ∧
      r1.callStack.length = r2.callStack.length + 1 ∧
      r2.callStack = (exampleBareMessage.pushHandlers exampleHandlers).callStack ∧
      r2.popAll = exampleHandlers.reverse :=
  ⟨⟨rfl, rfl, by decide, by decide⟩,
    handler_chain_round_trip exampleSession
      (exampleSession.send 7 (exampleBareMessage.pushHandlers exampleHandlers)).session
      7 exampleBareMessage exampleHandlers exampleRoundTripReply rfl rfl (by decide)
      (by decide)⟩

theorem handleReply_explicit {P : Type} [IThrottlePolicy P] (s : SourceSession P)
    (reply : Reply) (o : ReplyOutcome P) (h : s.handleReply reply = Except.ok o) :
    ∃ (handler : Handler) (r2 : Reply) (tail : List Effect),
      o.effects = [Effect.lock] ++ s.withPolicy (Effect.processReply reply)
        ++ [Effect.unlock, Effect.handlerHandleReply handler r2] ++ tail ∧
      (tail = [] ∨ tail = [Effect.lock, Effect.unlock, Effect.condNotifyAll]) ∧
      (SourceSession.traceReply reply (s.pendingCount - 1)).pop = some (handler, r2) ∧
      o.session.throttlePolicy =
        s.throttlePolicy.map (fun p => IThrottlePolicy.processReply p reply) := by
  obtain ⟨hp, _⟩ := handleReply_ok s reply o h
  unfold SourceSession.handleReply at h
  rw [handleReply_locked_completes s reply hp] at h
  simp only at h
  cases hpop : (SourceSession.traceReply reply (s.pendingCount - 1)).pop with
  | none => simp [hpop] at h
  | some hr =>
    obtain ⟨handler, r2⟩ := hr
    simp only [hpop] at h
    cases hcl : s.closed
    · simp only [hcl, Bool.false_and, Bool.false_eq_true, if_false, Except.ok.injEq] at h
      subst h
      exact ⟨handler, r2, [], by simp, Or.inl rfl, rfl, rfl⟩
    · by_cases hz : s.pendingCount - 1 = 0
      · simp only [hcl, hz, decide_True, Bool.and_self, if_true] at h
        rw [handleReply_finish_completes _ rfl rfl] at h
        simp only [Except.ok.injEq] at h
        subst h
        exact ⟨handler, r2, _, rfl, Or.inr rfl, rfl, rfl⟩
      · simp only [hcl, hz, decide_False, Bool.and_false, Bool.false_eq_true, if_false,
          Except.ok.injEq] at h
        subst h
        exact ⟨handler, r2, [], by simp, Or.inl rfl, rfl, rfl⟩

theorem send_policyCalls {P : Type} [IThrottlePolicy P] (s : SourceSession P) (now : Int)
    (msg : Message) :
    (s.send now msg).session.throttlePolicy.isSome = s.throttlePolicy.isSome ∧
    (processedMessages (s.send now msg).effects).length =
      (if s.throttlePolicy.isSome = true ∧ (s.send now msg).result = Result.accepted
        then 1 else 0) ∧
    processedReplies (s.send now msg).effects = [] ∧
    (s.throttlePolicy = none →
      (s.send now msg).result.error.map Error.code ≠ some ErrorCode.SEND_QUEUE_FULL) := by
  cases hc : s.closed
  · cases hf : s.queueFull (s.stamp now msg)
    · rw [send_ok s now msg hc hf]
      unfold processedMessages processedReplies SourceSession.withPolicy
      cases hp : s.throttlePolicy <;>
        simp [Effect.processedMessage, Effect.processedReply, Result.accepted]
    · rw [send_full s now msg hc hf]
      refine ⟨rfl, ?_, rfl, ?_⟩
      · simp [processedMessages, Effect.processedMessage, Result.rejected, Result.accepted]
      · intro hnone
        simp [SourceSession.queueFull, hnone] at hf
  · rw [send_closed s now msg hc]
    refine ⟨rfl, ?_, rfl, ?_⟩
    · simp [processedMessages, Effect.processedMessage, Result.rejected, Result.accepted]
    · intro _
      simp [Result.rejected]

theorem send_routeName_policyCalls {P : Type} [IThrottlePolicy P] (mb : MessageBus)
    (s : SourceSession P) (now : Int) (msg : Message) (routeName : String)
    (parseIfNotFound : Bool) :
    (SourceSession.send_routeName mb s now msg routeName
      parseIfNotFound).session.throttlePolicy.isSome = s.throttlePolicy.isSome ∧
    (processedMessages (SourceSession.send_routeName mb s now msg routeName
      parseIfNotFound).effects).length =
      (if s.throttlePolicy.isSome = true ∧ (SourceSession.send_routeName mb s now msg
        routeName parseIfNotFound).result = Result.accepted then 1 else 0) ∧
    processedReplies (SourceSession.send_routeName mb s now msg routeName
      parseIfNotFound).effects = [] ∧
    (s.throttlePolicy = none →
      (SourceSession.send_routeName mb s now msg routeName
        parseIfNotFound).result.error.map Error.code ≠ some ErrorCode.SEND_QUEUE_FULL) := by
  rcases send_routeName_cases mb s now msg routeName parseIfNotFound with ⟨text, h⟩ | ⟨route, h⟩
  · rw [h]
    refine ⟨rfl, ?_, rfl, ?_⟩
    · simp [processedMessages, Result.rejected, Result.accepted]
    · intro _
      simp [Result.rejected]
  · rw [h]
    exact send_policyCalls s now _

theorem sendEvent_policyCallsMatch {P : Type} (s : SourceSession P) (c : Step)
    (o : SendOutcome P) (hsend : c.isSend = true)
    (h1 : (processedMessages o.effects).length =
      (if s.throttlePolicy.isSome = true ∧ o.result = Result.accepted then 1 else 0))
    (h2 : processedReplies o.effects = [])
    (h3 : s.throttlePolicy = none →
      o.result.error.map Error.code ≠ some ErrorCode.SEND_QUEUE_FULL) :
    Event.policyCallsMatch { call := c, result := some o.result, effects := o.effects }
      s.throttlePolicy.isSome := by
  have hrep : Event.isReply { call := c, result := some o.result, effects := o.effects }
      = false := isReply_of_isSend _ hsend
  refine ⟨?_, ?_, ?_⟩
  · rw [h1]
    simp [Event.isAcceptedSend]
  · rw [h2, hrep]
    simp
  · intro hnone
    have hn : s.throttlePolicy = none := by
      cases hp : s.throttlePolicy
      · rfl
      · rw [hp] at hnone
        simp at hnone
    have := h3 hn
    unfold Event.isQueueFull
    cases herr : o.result.error with
    | none => simp [herr]
    | some err =>
      rw [herr] at this
      have hcode : ¬ err.code = ErrorCode.SEND_QUEUE_FULL := by simpa using this
      simp [herr, hcode]

theorem close_effects {P : Type} (s : SourceSession P) :
    s.close.effects = [Effect.lock, Effect.condWait] ∨
      s.close.effects = [Effect.lock, Effect.unlock] := by
  by_cases hp : s.pendingCount = 0
  · simp [SourceSession.close, hp]
  · cases hd : s.done <;> simp [SourceSession.close, hp, hd]

theorem step_policyCalls {P : Type} [IThrottlePolicy P] (mb : MessageBus)
    (s t : SourceSession P) (c : Step) (e : Event) (h : step mb s c = Except.ok (t, e)) :
    t.throttlePolicy.isSome = s.throttlePolicy.isSome ∧
      e.policyCallsMatch s.throttlePolicy.isSome := by
  cases c with
  | send now msg =>
    simp only [step, Except.ok.injEq, Prod.mk.injEq] at h
    obtain ⟨h1, h2⟩ := h
    subst h1 h2
    obtain ⟨hp, hm, hr, hf⟩ := send_policyCalls s now msg
    exact ⟨hp, sendEvent_policyCallsMatch s _ _ rfl hm hr hf⟩
  | send_route now msg route =>
    simp only [step, Except.ok.injEq, Prod.mk.injEq] at h
    obtain ⟨h1, h2⟩ := h
    subst h1 h2
    obtain ⟨hp, hm, hr, hf⟩ := send_policyCalls s now (msg.setRoute route)
    exact ⟨hp, sendEvent_policyCallsMatch s _ _ rfl hm hr hf⟩
  | send_routeName now msg routeName parseIfNotFound =>
    simp only [step, Except.ok.injEq, Prod.mk.injEq] at h
    obtain ⟨h1, h2⟩ := h
    subst h1 h2
    obtain ⟨hp, hm, hr, hf⟩ := send_routeName_policyCalls mb s now msg routeName parseIfNotFound
    exact ⟨hp, sendEvent_policyCallsMatch s _ _ rfl hm hr hf⟩
  | handleReply reply =>
    simp only [step] at h
    cases hr : s.handleReply reply with
    | error f => simp [hr] at h
    | ok o =>
      simp only [hr, Except.ok.injEq, Prod.mk.injEq] at h
      obtain ⟨h1, h2⟩ := h
      subst h1 h2
      obtain ⟨handler, r2, tail, heff, htail, _, hpol⟩ := handleReply_explicit s reply o hr
      refine ⟨by rw [hpol]; simp, ?_, ?_, ?_⟩
      · show (processedMessages o.effects).length = _
        rw [heff]
        unfold processedMessages SourceSession.withPolicy
        rcases htail with ht | ht <;> cases hp : s.throttlePolicy <;>
          simp [ht, Effect.processedMessage, Event.isAcceptedSend]
      · show (processedReplies o.effects).length = _
        rw [heff]
        unfold processedReplies SourceSession.withPolicy
        rcases htail with ht | ht <;> cases hp : s.throttlePolicy <;>
          simp [ht, Effect.processedReply, Event.isReply]
      · intro _
        rfl
  | close =>
    simp only [step, Except.ok.injEq, Prod.mk.injEq] at h
    obtain ⟨h1, h2⟩ := h
    subst h1 h2
    refine ⟨by rw [(close_session s).2.2.2.2.1], ?_, ?_, ?_⟩
    · show (processedMessages s.close.effects).length = _
      rcases close_effects s with he | he <;>
        simp [he, processedMessages, Effect.processedMessage, Event.isAcceptedSend]
    · show (processedReplies s.close.effects).length = _
      rcases close_effects s with he | he <;>
        simp [he, processedReplies, Effect.processedReply, Event.isReply]
    · intro _
      rfl
  | setTimeout d =>
    simp only [step, Except.ok.injEq, Prod.mk.injEq] at h
    obtain ⟨h1, h2⟩ := h
    subst h1 h2
    refine ⟨rfl, ?_, ?_, ?_⟩
    · simp [processedMessages, Effect.processedMessage, Event.isAcceptedSend]
    · simp [processedReplies, Effect.processedReply, Event.isReply]
    · intro _
      rfl

theorem run_policyCalls {P : Type} [IThrottlePolicy P] (mb : MessageBus) (calls : List Step) :
    ∀ (s t : SourceSession P) (log : List Event), run mb s calls = Except.ok (t, log) →
      t.throttlePolicy.isSome = s.throttlePolicy.isSome ∧
      ∀ e ∈ log, e.policyCallsMatch s.throttlePolicy.isSome := by
  induction calls with
  | nil =>
    intro s t log h
    obtain ⟨h1, h2⟩ := run_nil mb s t log h
    subst h1 h2
    exact ⟨rfl, fun e he => absurd he (List.not_mem_nil e)⟩
  | cons c cs ih =>
    intro s t log h
    obtain ⟨s1, e, rest, hstep, hrun, hlog⟩ := run_cons mb s t c cs log h
    obtain ⟨hp1, hm1⟩ := step_policyCalls mb s s1 c e hstep
    obtain ⟨hp2, hm2⟩ := ih s1 t rest hrun
    refine ⟨hp2.trans hp1, ?_⟩
    intro e1 he1
    rw [hlog] at he1
    rcases List.mem_cons.mp he1 with h1 | h1
    · rw [h1]
      exact hm1
    · rw [← hp1]
      exact hm2 e1 h1

theorem policyCalls_totals (configured : Bool) (log : List Event)
    (h : ∀ e ∈ log, e.policyCallsMatch configured) :
    processMessageCalls log = (if configured = true then acceptedSends log else 0) ∧
    processReplyCalls log = (if configured = true then completedReplies log else 0) := by
  induction log with
  | nil => cases configured <;> exact ⟨rfl, rfl⟩
  | cons e rest ih =>
    obtain ⟨ih1, ih2⟩ := ih (fun e1 h1 => h e1 (List.mem_cons_of_mem e h1))
    obtain ⟨hm, hr, _⟩ := h e (List.mem_cons_self e rest)
    unfold processMessageCalls processReplyCalls at *
    simp only [List.map_cons, List.sum_cons]
    rw [ih1, ih2, hm, hr, acceptedSends_cons, completedReplies_cons]
    cases configured
    · simp
    · simp

theorem send_policyState {P : Type} [IThrottlePolicy P] (s : SourceSession P) (now : Int)
    (msg : Message) :
    (s.send now msg).session.throttlePolicy =
      s.throttlePolicy.map (fun p => policyAfter p (s.send now msg).effects) := by
  cases hc : s.closed
  · cases hf : s.queueFull (s.stamp now msg)
    · rw [send_ok s now msg hc hf]
      cases hp : s.throttlePolicy with
      | none => rfl
      | some p =>
        simp [SourceSession.withPolicy, hp, policyAfter, Effect.onPolicy]
    · rw [send_full s now msg hc hf]
      cases hp : s.throttlePolicy <;> simp [policyAfter, Effect.onPolicy]
  · rw [send_closed s now msg hc]
    cases hp : s.throttlePolicy <;> simp [policyAfter, Effect.onPolicy]

theorem step_policyState {P : Type} [IThrottlePolicy P] (mb : MessageBus)
    (s t : SourceSession P) (c : Step) (e : Event) (h : step mb s c = Except.ok (t, e)) :
    t.throttlePolicy = s.throttlePolicy.map (fun p => policyAfter p e.effects) := by
  cases c with
  | send now msg =>
    simp only [step, Except.ok.injEq, Prod.mk.injEq] at h
    obtain ⟨h1, h2⟩ := h
    subst h1 h2
    exact send_policyState s now msg
  | send_route now msg route =>
    simp only [step, Except.ok.injEq, Prod.mk.injEq] at h
    obtain ⟨h1, h2⟩ := h
    subst h1 h2
    exact send_policyState s now (msg.setRoute route)
  | send_routeName now msg routeName parseIfNotFound =>
    simp only [step, Except.ok.injEq, Prod.mk.injEq] at h
    obtain ⟨h1, h2⟩ := h
    subst h1 h2
    rcases send_routeName_cases mb s now msg routeName parseIfNotFound with ⟨text, hr⟩ | ⟨r, hr⟩
    · rw [hr]
      cases hp : s.throttlePolicy <;> simp [policyAfter]
    · rw [hr]
      exact send_policyState s now _
  | handleReply reply =>
    simp only [step] at h
    cases hr : s.handleReply reply with
    | error f => simp [hr] at h
    | ok o =>
      simp only [hr, Except.ok.injEq, Prod.mk.injEq] at h
      obtain ⟨h1, h2⟩ := h
      subst h1 h2
      obtain ⟨handler, r2, tail, heff, htail, _, hpol⟩ := handleReply_explicit s reply o hr
      show o.session.throttlePolicy = s.throttlePolicy.map (fun p => policyAfter p o.effects)
      rw [hpol, heff]
      cases hp : s.throttlePolicy with
      | none => rfl
      | some p =>
        rcases htail with ht | ht <;>
          simp [ht, SourceSession.withPolicy, hp, policyAfter, Effect.onPolicy]
  | close =>
    simp only [step, Except.ok.injEq, Prod.mk.injEq] at h
    obtain ⟨h1, h2⟩ := h
    subst h1 h2
    show s.close.session.throttlePolicy =
      s.throttlePolicy.map (fun p => policyAfter p s.close.effects)
    rw [(close_session s).2.2.2.2.1]
    rcases close_effects s with he | he <;>
      cases hp : s.throttlePolicy <;> simp [he, policyAfter, Effect.onPolicy]
  | setTimeout d =>
    simp only [step, Except.ok.injEq, Prod.mk.injEq] at h
    obtain ⟨h1, h2⟩ := h
    subst h1 h2
    cases hp : s.throttlePolicy <;>
      simp [SourceSession.setTimeout, hp, policyAfter, Effect.onPolicy]

theorem run_policyState {P : Type} [IThrottlePolicy P] (mb : MessageBus) (calls : List Step) :
    ∀ (s t : SourceSession P) (log : List Event), run mb s calls = Except.ok (t, log) →
      t.throttlePolicy = s.throttlePolicy.map (fun p => policyAfterLog p log) := by
  induction calls with
  | nil =>
    intro s t log h
    obtain ⟨h1, h2⟩ := run_nil mb s t log h
    subst h1 h2
    cases t.throttlePolicy <;> rfl
  | cons c cs ih =>
    intro s t log h
    obtain ⟨s1, e, rest, hstep, hrun, hlog⟩ := run_cons mb s t c cs log h
    rw [ih s1 t rest hrun, step_policyState mb s s1 c e hstep, hlog]
    cases s.throttlePolicy <;> rfl

/-- C16: over every sequence of calls on a session with a throttle policy, every accepted
send calls `processMessage` exactly once and every other call not at all, every
completed `handleReply` calls `processReply` exactly once and every other call not at
all, so the numbers of `processMessage` and `processReply` calls are the numbers of
accepted sends and of completed `handleReply` calls; the policy state after the
sequence is the state before it with exactly these calls applied, in order.  On a
session without policy neither is ever called, no send fails with `SEND_QUEUE_FULL`,
and there is no policy afterwards either. -/
theorem policy_calls_match_sends_and_replies {P : Type} [IThrottlePolicy P]
    (mb : MessageBus) (s t : SourceSession P) (calls : List Step) (log : List Event)
    (hrun : run mb s calls = Except.ok (t, log)) :
    (∀ p, s.throttlePolicy = some p →
      t.throttlePolicy = some (policyAfterLog p log) ∧
      processMessageCalls log = acceptedSends log ∧
      processReplyCalls log = completedReplies log ∧
      ∀ e ∈ log,
        (processedMessages e.effects).length = (if e.isAcceptedSend = true then 1 else 0) ∧
        (processedReplies e.effects).length = (if e.isReply = true then 1 else 0)) ∧
    (s.throttlePolicy = none →
      t.throttlePolicy = none ∧
      processMessageCalls log = 0 ∧ processReplyCalls log = 0 ∧
      ∀ e ∈ log, processedMessages e.effects = [] ∧ processedReplies e.effects = [] ∧
        e.isQueueFull = false) := by
  obtain ⟨_, hmatch⟩ := run_policyCalls mb calls s t log hrun
  obtain ⟨htm, htr⟩ := policyCalls_totals _ log hmatch
  have hstate := run_policyState mb calls s t log hrun
  constructor
  · intro p hsome
    have hsome1 : s.throttlePolicy.isSome = true := by rw [hsome]; rfl
    rw [hsome1] at htm htr hmatch
    refine ⟨by rw [hstate, hsome]; rfl, by simpa using htm, by simpa using htr, ?_⟩
    intro e he
    obtain ⟨h1, h2, _⟩ := hmatch e he
    exact ⟨by simpa using h1, by simpa using h2⟩
  · intro hnone
    have hfalse : s.throttlePolicy.isSome = false := by rw [hnone]; rfl
    rw [hfalse] at htm htr hmatch
    refine ⟨by rw [hstate, hnone]; rfl, by simpa using htm, by simpa using htr, ?_⟩
    intro e he
    obtain ⟨h1, h2, h3⟩ := hmatch e he
    refine ⟨?_, ?_, h3 rfl⟩
    · exact List.length_eq_zero.mp (by simpa using h1)
    · exact List.length_eq_zero.mp (by simpa using h2)

/-- Witness of C16: two sends and one reply on the example session with the static
policy (two `processMessage` calls, one `processReply` call, and the policy has counted
the 20 bytes of the two accepted messages) and on the example session without policy
(no call). -/
theorem policy_calls_match_sends_and_replies_witness :
    (run exampleBus exampleStatic exampleCalls =
        Except.ok (exampleStaticPending, exampleStaticLog) ∧
      run exampleBus exampleNoPolicy exampleCalls =
        Except.ok (exampleNoPolicyPending, exampleNoPolicyLog)) ∧
    (processMessageCalls exampleStaticLog = 2 ∧ processReplyCalls exampleStaticLog = 1 ∧
      exampleStaticPending.throttlePolicy.map StaticPolicy.pendingSize = some 20 ∧
      processMessageCalls exampleNoPolicyLog = 0 ∧ processReplyCalls exampleNoPolicyLog = 0) ∧
    ((∀ p, exampleStatic.throttlePolicy = some p →
      exampleStaticPending.throttlePolicy = some (policyAfterLog p exampleStaticLog) ∧
      processMessageCalls exampleStaticLog = acceptedSends exampleStaticLog ∧
      processReplyCalls exampleStaticLog = completedReplies exampleStaticLog ∧
      ∀ e ∈ exampleStaticLog,
        (processedMessages e.effects).length = (if e.isAcceptedSend = true then 1 else 0) ∧
        (processedReplies e.effects).length = (if e.isReply = true then 1 else 0)) ∧
    (exampleStatic.throttlePolicy = none →
      exampleStaticPending.throttlePolicy = none ∧
      processMessageCalls exampleStaticLog = 0 ∧ processReplyCalls exampleStaticLog = 0 ∧
      ∀ e ∈ exampleStaticLog, processedMessages e.effects = [] ∧
        processedReplies e.effects = [] ∧ e.isQueueFull = false)) ∧
    ((∀ p, exampleNoPolicy.throttlePolicy = some p →
      exampleNoPolicyPending.throttlePolicy = some (policyAfterLog p exampleNoPolicyLog) ∧
      processMessageCalls exampleNoPolicyLog = acceptedSends exampleNoPolicyLog ∧
      processReplyCalls exampleNoPolicyLog = completedReplies exampleNoPolicyLog ∧
      ∀ e ∈ exampleNoPolicyLog,
        (processedMessages e.effects).length = (if e.isAcceptedSend = true then 1 else 0) ∧
        (processedReplies e.effects).length = (if e.isReply = true then 1 else 0)) ∧
    (exampleNoPolicy.throttlePolicy = none →
      exampleNoPolicyPending.throttlePolicy = none ∧
      processMessageCalls exampleNoPolicyLog = 0 ∧ processReplyCalls exampleNoPolicyLog = 0 ∧
      ∀ e ∈ exampleNoPolicyLog, processedMessages e.effects = [] ∧
        processedReplies e.effects = [] ∧ e.isQueueFull = false)) :=
  ⟨⟨rfl, rfl⟩, ⟨by decide, by decide, rfl, by decide, by decide⟩,
    policy_calls_match_sends_and_replies exampleBus exampleStatic exampleStaticPending
      exampleCalls exampleStaticLog rfl,
    policy_calls_match_sends_and_replies exampleBus exampleNoPolicy exampleNoPolicyPending
      exampleCalls exampleNoPolicyLog rfl⟩

theorem handleReply_cons {P : Type} [IThrottlePolicy P] (s : SourceSession P)
    (reply : Reply) (h : Handler) (rest : List Handler) (hp : 0 < s.pendingCount)
    (hcs : reply.callStack = h :: rest) :
    s.handleReply reply = Except.ok
      { session :=
          { s with
            pendingCount := s.pendingCount - 1
            throttlePolicy := s.throttlePolicy.map (fun p => IThrottlePolicy.processReply p reply)
            done := if (s.closed && decide (s.pendingCount - 1 = 0)) = true then true
              else s.done }
        effects := [Effect.lock] ++ s.withPolicy (Effect.processReply reply)
          ++ [Effect.unlock, Effect.handlerHandleReply h
            { SourceSession.traceReply reply (s.pendingCount - 1) with callStack := rest }]
          ++ (if (s.closed && decide (s.pendingCount - 1 = 0)) = true
            then [Effect.lock, Effect.unlock, Effect.condNotifyAll] else []) } := by
  unfold SourceSession.handleReply
  rw [handleReply_locked_completes s reply hp]
  simp only
  have hpop : (SourceSession.traceReply reply (s.pendingCount - 1)).pop =
      some (h, { SourceSession.traceReply reply (s.pendingCount - 1) with callStack := rest }) := by
    unfold Reply.pop
    rw [traceReply_callStack, hcs]
  rw [hpop]
  simp only
  cases hcl : s.closed
  · simp
  · by_cases hz : s.pendingCount - 1 = 0
    · simp only [hz, decide_True, Bool.and_self, if_true]
      rw [handleReply_finish_completes _ rfl rfl]
    · simp [hz]

theorem withPolicy_map {P : Type} (s : SourceSession P) (e : Effect) (f : Effect → Effect) :
    (s.withPolicy e).map f = s.withPolicy (f e) := by
  unfold SourceSession.withPolicy
  split <;> rfl

theorem stamp_eraseTrace {P : Type} (s : SourceSession P) (now : Int) (msg : Message) :
    (s.stamp now msg).eraseTrace = s.stamp now msg.eraseTrace := by
  rw [stamp_eq, stamp_eq]
  rfl

theorem traceAccepted_eraseTrace (m : Message) (n : Nat) :
    (SourceSession.traceAccepted m n).eraseTrace = m.eraseTrace := by
  unfold SourceSession.traceAccepted
  split <;> rfl

theorem traceReply_eraseTrace (r : Reply) (n : Nat) :
    (SourceSession.traceReply r n).eraseTrace = r.eraseTrace := by
  unfold SourceSession.traceReply
  split <;> rfl

theorem pushHandler_eraseTrace (m : Message) (h : Handler) :
    (m.pushHandler h).eraseTrace = m.eraseTrace.pushHandler h := rfl

theorem eraseTrace_callStack (r r1 : Reply) (h : r.eraseTrace = r1.eraseTrace) :
    r.callStack = r1.callStack := by
  have := congrArg Reply.callStack h
  exact this

theorem popped_eraseTrace (r : Reply) (n : Nat) (rest : List Handler) :
    Reply.eraseTrace { SourceSession.traceReply r n with callStack := rest } =
      { r.eraseTrace with callStack := rest } := by
  unfold SourceSession.traceReply
  split <;> rfl

theorem acceptAll_ignoresTrace : IThrottlePolicy.ignoresTrace AcceptAllPolicy :=
  fun _ _ _ _ _ => rfl

theorem static_ignoresTrace : IThrottlePolicy.ignoresTrace StaticPolicy :=
  fun _ _ _ _ _ => rfl

theorem queueFull_ignoresTrace {P : Type} [IThrottlePolicy P]
    (hpolicy : IThrottlePolicy.ignoresTrace P) (s : SourceSession P) (m m1 : Message)
    (h : m.eraseTrace = m1.eraseTrace) : s.queueFull m = s.queueFull m1 := by
  unfold SourceSession.queueFull
  cases s.throttlePolicy with
  | none => rfl
  | some p => simp only [hpolicy p m m1 s.pendingCount h]

/-- C17: tracing does not affect control flow.  With a policy that does not read the
trace context of a message (as the unconditional-accept and the static-capacity policy),
two sends from the same session state, of messages that differ only in their trace
context (so in whether the trace level enables COMPONENT tracing), return the same
`Result`, leave the same pending count, closed and done, and make the same calls
(policy calls and hand-off to the sequencer, with the same handler chain), all up to
trace content; two calls of `handleReply` from the same state, with replies that differ
only in their trace context, fail the same assertion or leave the same pending count,
closed and done and make the same calls (policy call, handler invoked), up to trace
content. -/
theorem tracing_does_not_affect_control_flow {P : Type} [IThrottlePolicy P]
    (s : SourceSession P) (now : Int) (msg msg1 : Message) (reply reply1 : Reply)
    (hpolicy : IThrottlePolicy.ignoresTrace P)
    (hmsg : msg.eraseTrace = msg1.eraseTrace)
    (hreply : reply.eraseTrace = reply1.eraseTrace) :
    ((s.send now msg).result.eraseTrace = (s.send now msg1).result.eraseTrace ∧
      (s.send now msg).session.pendingCount = (s.send now msg1).session.pendingCount ∧
      (s.send now msg).session.closed = (s.send now msg1).session.closed ∧
      (s.send now msg).session.done = (s.send now msg1).session.done ∧
      (s.send now msg).effects.map Effect.eraseTrace =
        (s.send now msg1).effects.map Effect.eraseTrace) ∧
    SourceSession.replyView (s.handleReply reply) =
      SourceSession.replyView (s.handleReply reply1) := by
  have hst : (s.stamp now msg).eraseTrace = (s.stamp now msg1).eraseTrace := by
    rw [stamp_eraseTrace, stamp_eraseTrace, hmsg]
  have hcan : s.queueFull (s.stamp now msg) = s.queueFull (s.stamp now msg1) :=
    queueFull_ignoresTrace hpolicy s _ _ hst
  constructor
  · cases hc : s.closed
    · cases hf : s.queueFull (s.stamp now msg)
      · have hf1 : s.queueFull (s.stamp now msg1) = false := by rw [← hcan]; exact hf
        rw [send_ok s now msg hc hf, send_ok s now msg1 hc hf1]
        refine ⟨rfl, rfl, rfl, rfl, ?_⟩
        simp only [List.map_append, withPolicy_map, List.map_cons, List.map_nil,
          Effect.eraseTrace, pushHandler_eraseTrace, traceAccepted_eraseTrace, hst]
      · have hf1 : s.queueFull (s.stamp now msg1) = true := by rw [← hcan]; exact hf
        rw [send_full s now msg hc hf, send_full s now msg1 hc hf1]
        refine ⟨?_, rfl, rfl, rfl, ?_⟩
        · simp only [Result.eraseTrace, Result.rejected, Option.map_some', hst]
        · simp only [List.map_cons, List.map_nil, Effect.eraseTrace, hst]
    · rw [send_closed s now msg hc, send_closed s now msg1 hc]
      refine ⟨?_, rfl, rfl, rfl, rfl⟩
      simp only [Result.eraseTrace, Result.rejected, Option.map_some', hst]
  · have hcs := eraseTrace_callStack reply reply1 hreply
    by_cases hp : 0 < s.pendingCount
    · cases hrc : reply.callStack with
      | nil =>
        rw [handleReply_empty s reply hp hrc, handleReply_empty s reply1 hp (hcs ▸ hrc)]
      | cons h rest =>
        rw [handleReply_cons s reply h rest hp hrc,
          handleReply_cons s reply1 h rest hp (hcs ▸ hrc)]
        simp only [SourceSession.replyView, List.map_append, withPolicy_map, List.map_cons,
          List.map_nil, Effect.eraseTrace, popped_eraseTrace, hreply]
    · rw [handleReply_pending_zero s reply (by omega),
        handleReply_pending_zero s reply1 (by omega)]

/-- Witness of C17: the session with the static-capacity policy and one message pending,
the example message and reply with and without a trace level that enables COMPONENT
tracing.  Both sends are accepted; the messages handed to the sequencer differ, in their
trace content only. -/
theorem tracing_does_not_affect_control_flow_witness :
    (IThrottlePolicy.ignoresTrace StaticPolicy ∧
      exampleMessage.eraseTrace = exampleTracedMessage.eraseTrace ∧
      exampleReply.eraseTrace = exampleTracedReply.eraseTrace) ∧
    (exampleMessage.trace.shouldTrace TraceLevel.COMPONENT = false ∧
      exampleTracedMessage.trace.shouldTrace TraceLevel.COMPONENT = true ∧
      (exampleStaticPending.send 7 exampleMessage).result = Result.accepted ∧
      (exampleStaticPending.send 7 exampleTracedMessage).result = Result.accepted ∧
      handedToSequencer (exampleStaticPending.send 7 exampleMessage).effects ≠
        handedToSequencer (exampleStaticPending.send 7 exampleTracedMessage).effects) ∧
    (((exampleStaticPending.send 7 exampleMessage).result.eraseTrace =
        (exampleStaticPending.send 7 exampleTracedMessage).result.eraseTrace ∧
      (exampleStaticPending.send 7 exampleMessage).session.pendingCount =
        (exampleStaticPending.send 7 exampleTracedMessage).session.pendingCount ∧
      (exampleStaticPending.send 7 exampleMessage).session.closed =
        (exampleStaticPending.send 7 exampleTracedMessage).session.closed ∧
      (exampleStaticPending.send 7 exampleMessage).session.done =
        (exampleStaticPending.send 7 exampleTracedMessage).session.done ∧
      (exampleStaticPending.send 7 exampleMessage).effects.map Effect.eraseTrace =
        (exampleStaticPending.send 7 exampleTracedMessage).effects.map Effect.eraseTrace) ∧
    SourceSession.replyView (exampleStaticPending.handleReply exampleReply) =
      SourceSession.replyView (exampleStaticPending.handleReply exampleTracedReply)) :=
  ⟨⟨static_ignoresTrace, rfl, rfl⟩, ⟨rfl, rfl, rfl, rfl, by decide⟩,
    tracing_does_not_affect_control_flow exampleStaticPending 7 exampleMessage
      exampleTracedMessage exampleReply exampleTracedReply static_ignoresTrace rfl rfl⟩

/-- C18: the teardown of a session makes exactly three calls, in this order: `close()` on
the gate, `sync()` on the message bus, `subRef()` on the gate; so `sync()` is not called
before the gate is closed and the reference is not released before `sync()`. -/
theorem teardown_order {P : Type} (s : SourceSession P) :
    s.destroy = [Effect.gateClose, Effect.mbusSync, Effect.gateSubRef] ∧
    s.destroy.length = 3 ∧
    s.destroy.indexOf Effect.gateClose < s.destroy.indexOf Effect.mbusSync ∧
    s.destroy.indexOf Effect.mbusSync < s.destroy.indexOf Effect.gateSubRef ∧
    s.destroy.count Effect.gateClose = 1 ∧ s.destroy.count Effect.mbusSync = 1 ∧
    s.destroy.count Effect.gateSubRef = 1 := by
  unfold SourceSession.destroy
  decide

theorem send_eq_sections {P : Type} [IThrottlePolicy P] (s : SourceSession P) (now : Int)
    (msg : Message) :
    s.send now msg =
      match (s.send_locked now msg).rejected with
      | some r =>
        { session := (s.send_locked now msg).session, result := r,
          effects := (s.send_locked now msg).effects }
      | none =>
        { session := (s.send_locked now msg).session, result := Result.accepted,
          effects := (s.send_locked now msg).effects ++
            [Effect.sequencerHandleMessage
              (SourceSession.send_unlocked (s.send_locked now msg).session.pendingCount
                (s.send_locked now msg).msg)] } := by
  cases hc : s.closed
  · cases hf : s.queueFull (s.stamp now msg)
    · rw [send_ok s now msg hc hf]
      simp [SourceSession.send_locked, SourceSession.send_unlocked, hc, hf]
    · rw [send_full s now msg hc hf]
      simp [SourceSession.send_locked, hc, hf]
  · rw [send_closed s now msg hc]
    simp [SourceSession.send_locked, hc]

theorem send_unlocked_payload (n : Nat) (m : Message) :
    (SourceSession.send_unlocked n m).payload = m.payload := by
  unfold SourceSession.send_unlocked Message.pushHandler
  exact (traceAccepted_fields m n).2.2.2.2

theorem Producers.step_inOrder {P : Type} [IThrottlePolicy P] (c c1 : Producers P)
    (st : ProducerStep) (hinv : c.inOrder) (hstep : c.step st = some c1)
    (hnon : Producers.nonOverlapping c [st] = true) : c1.inOrder := by
  obtain ⟨hlen, hord⟩ := hinv
  cases st with
  | enter thread now msg =>
    have hempty : c.inFlight = [] := by
      simp only [Producers.nonOverlapping, Bool.and_eq_true] at hnon
      exact List.isEmpty_iff.mp hnon.1
    simp only [Producers.step, hempty, List.lookup_nil, Option.isSome_none,
      Bool.false_eq_true, if_false, List.nil_append] at hstep
    rw [hempty] at hord
    cases hrej : (c.session.send_locked now msg).rejected with
    | some r =>
      simp only [hrej, Option.some.injEq] at hstep
      subst hstep
      exact ⟨by simp [hempty], by simpa [hempty] using hord⟩
    | none =>
      simp only [hrej, Option.some.injEq] at hstep
      subst hstep
      refine ⟨by simp, ?_⟩
      simp only [List.map_nil, List.append_nil] at hord
      simp [hord]
  | handOff thread =>
    cases hfl : c.inFlight with
    | nil => simp [Producers.step, hfl] at hstep
    | cons e rest =>
      obtain ⟨t1, m⟩ := e
      have hrest : rest = [] := by
        rw [hfl] at hlen
        simp only [List.length_cons] at hlen
        exact List.length_eq_zero.mp (by omega)
      subst hrest
      rw [hfl] at hord
      by_cases ht : thread = t1
      · subst ht
        simp only [Producers.step, hfl, List.lookup_cons, beq_self_eq_true,
          Option.some.injEq] at hstep
        subst hstep
        refine ⟨by simp, ?_⟩
        simp only [List.map_cons, List.map_nil] at hord
        simp [send_unlocked_payload, hord]
      · have hne : (thread == t1) = false := by simpa using ht
        simp [Producers.step, hfl, List.lookup_cons, hne] at hstep

/-- C19 as stated fails: the hand-off to the sequencer (line 100) takes place after the
lock is released.  With two producer threads, the send of thread 1 is accepted first,
the send of thread 2 second, and thread 2 reaches line 100 before thread 1: the
messages are accepted in the order 1, 2 and handed to the sequencer in the order
2, 1. -/
theorem handOff_order_can_differ_from_acceptance :
    ((Producers.start exampleSession).run exampleSchedule).map
      (fun c => (c.accepted.map Message.payload, c.handed.map Message.payload,
        c.inFlight.length, c.session.pendingCount)) = some ([1, 2], [2, 1], 0, 2) := by
  decide

/-- C19, amended: when the calls of send on a session do not overlap (no send enters its
critical section while an accepted message of another send waits for its hand-off),
the accepted messages are handed to the sequencer in the order in which they were
accepted: along every such schedule the messages handed over, followed by the at most
one waiting message, are the accepted messages in order. -/
theorem nonOverlapping_sends_are_handed_in_order {P : Type} [IThrottlePolicy P]
    (sched : List ProducerStep) (c0 c : Producers P)
    (hinv : c0.inOrder) (hrun : c0.run sched = some c)
    (hnon : c0.nonOverlapping sched = true) :
    c.inOrder ∧
      (c.inFlight = [] → c.handed.map Message.payload = c.accepted.map Message.payload) := by
  have key : ∀ (sched : List ProducerStep) (c0 : Producers P), c0.inOrder →
      c0.run sched = some c → c0.nonOverlapping sched = true → c.inOrder := by
    intro sched
    induction sched with
    | nil =>
      intro c0 hinv hrun _
      simp only [Producers.run, Option.some.injEq] at hrun
      rw [← hrun]
      exact hinv
    | cons st rest ih =>
      intro c0 hinv hrun hnon
      simp only [Producers.run] at hrun
      cases hstep : c0.step st with
      | none => simp [hstep] at hrun
      | some c1 =>
        simp only [hstep] at hrun
        simp only [Producers.nonOverlapping, hstep, Bool.and_eq_true] at hnon
        have h1 : Producers.nonOverlapping c0 [st] = true := by
          simp only [Producers.nonOverlapping, hstep, Bool.and_eq_true]
          exact ⟨hnon.1, trivial⟩
        exact ih c1 (Producers.step_inOrder c0 c1 st hinv hstep h1) hrun hnon.2
  have hc := key sched c0 hinv hrun hnon
  refine ⟨hc, ?_⟩
  intro hempty
  have := hc.2
  rw [hempty] at this
  simpa using this

/-- Witness of C19 (amended): the two sends of the example, one after the other. -/
theorem nonOverlapping_sends_are_handed_in_order_witness :
    ((Producers.start exampleSession).inOrder ∧
      (Producers.start exampleSession).run exampleSequentialSchedule =
        some exampleAfterSequential ∧
      (Producers.start exampleSession).nonOverlapping exampleSequentialSchedule = true) ∧
    (exampleAfterSequential.accepted.map Message.payload = [1, 2] ∧
      exampleAfterSequential.handed.map Message.payload = [1, 2]) ∧
    (exampleAfterSequential.inOrder ∧
      (exampleAfterSequential.inFlight = [] →
        exampleAfterSequential.handed.map Message.payload =
          exampleAfterSequential.accepted.map Message.payload)) :=
  ⟨⟨⟨by decide, rfl⟩, rfl, by decide⟩, ⟨by decide, by decide⟩,
    nonOverlapping_sends_are_handed_in_order exampleSequentialSchedule
      (Producers.start exampleSession) exampleAfterSequential ⟨by decide, rfl⟩ rfl
      (by decide)⟩

/-- C21: route resolution of `send(msg, routeName, parseIfNotFound)`.  When the routing
table of the protocol exists and holds `routeName`, the call is the core send of the
message with the table's route set, whatever `parseIfNotFound` is; when the name is not
found, or there is no table, and `parseIfNotFound` is true, it is the core send of the
message with the route `Route::parse(routeName)` set: result, session and calls made are
those of that core send.  `send(msg, route)` is the core send of the message with
`route` set. -/
theorem send_routeName_is_core_send_with_route {P : Type} [IThrottlePolicy P]
    (mb : MessageBus) (s : SourceSession P) (now : Int) (msg : Message)
    (routeName : String) (parseIfNotFound : Bool) (route : Route) :
    (∀ rt r, mb.getRoutingTable msg.protocol = some rt → rt.getRoute routeName = some r →
      SourceSession.send_routeName mb s now msg routeName parseIfNotFound =
        s.send now (msg.setRoute r) ∧ (msg.setRoute r).route = r) ∧
    ((mb.getRoutingTable msg.protocol = none ∨
        ∃ rt, mb.getRoutingTable msg.protocol = some rt ∧ rt.getRoute routeName = none) →
      SourceSession.send_routeName mb s now msg routeName true =
        s.send now (msg.setRoute (mb.parse routeName)) ∧
      (msg.setRoute (mb.parse routeName)).route = mb.parse routeName) ∧
    (s.send_route now msg route = s.send now (msg.setRoute route) ∧
      (msg.setRoute route).route = route) := by
  refine ⟨?_, ?_, rfl, rfl⟩
  · intro rt r h1 h2
    refine ⟨?_, rfl⟩
    unfold SourceSession.send_routeName
    simp only [h1, h2]
  · intro hmissing
    refine ⟨?_, rfl⟩
    unfold SourceSession.send_routeName
    rcases hmissing with h | ⟨rt, h1, h2⟩
    · simp only [h]
      rfl
    · simp only [h1, h2]
      rfl

/-- Witness of C21: on the example bus route `default` is in the table of protocol
`document` and route `foo` is not. -/
theorem send_routeName_is_core_send_with_route_witness :
    (SourceSession.send_routeName exampleBus exampleSession 7 exampleMessage "default" false =
        exampleSession.send 7 (exampleMessage.setRoute { hops := ["a", "b"] }) ∧
      SourceSession.send_routeName exampleBus exampleSession 7 exampleMessage "foo" true =
        exampleSession.send 7 (exampleMessage.setRoute { hops := ["foo"] })) ∧
    ((∀ rt r, exampleBus.getRoutingTable exampleMessage.protocol = some rt →
      rt.getRoute "default" = some r →
      SourceSession.send_routeName exampleBus exampleSession 7 exampleMessage "default" false =
        exampleSession.send 7 (exampleMessage.setRoute r) ∧
        (exampleMessage.setRoute r).route = r) ∧
    ((exampleBus.getRoutingTable exampleMessage.protocol = none ∨
        ∃ rt, exampleBus.getRoutingTable exampleMessage.protocol = some rt ∧
          rt.getRoute "default" = none) →
      SourceSession.send_routeName exampleBus exampleSession 7 exampleMessage "default" true =
        exampleSession.send 7 (exampleMessage.setRoute (exampleBus.parse "default")) ∧
      (exampleMessage.setRoute (exampleBus.parse "default")).route =
        exampleBus.parse "default") ∧
    (exampleSession.send_route 7 exampleMessage { hops := ["c"] } =
        exampleSession.send 7 (exampleMessage.setRoute { hops := ["c"] }) ∧
      (exampleMessage.setRoute { hops := ["c"] }).route = { hops := ["c"] })) :=
  ⟨⟨by decide, by decide⟩,
    send_routeName_is_core_send_with_route exampleBus exampleSession 7 exampleMessage
      "default" false { hops := ["c"] }⟩

theorem canSendCalls_send_ok {P : Type} (s : SourceSession P) (p : P) (m1 m2 m3 : Message)
    (n : Nat) (hp : s.throttlePolicy = some p) :
    canSendCalls ([Effect.lock] ++ s.withPolicy (Effect.canSend m1 n)
      ++ s.withPolicy (Effect.processMessage m2)
      ++ [Effect.unlock, Effect.sequencerHandleMessage m3]) = [(m1, n)] := by
  unfold canSendCalls SourceSession.withPolicy
  simp [hp, Effect.canSendCall]

theorem queueFull_eq {P : Type} [IThrottlePolicy P] (s : SourceSession P) (p : P)
    (msg : Message) (hp : s.throttlePolicy = some p) :
    s.queueFull msg = !(IThrottlePolicy.canSend p msg s.pendingCount) := by
  unfold SourceSession.queueFull
  rw [hp]

/-- C22: the admission checks are ordered and use the count before the increment.  On a
closed session send returns `SEND_QUEUE_CLOSED`, leaves the session as it is and does
not call `canSend`, whatever the policy would answer.  On an open session with a policy
`canSend` is called exactly once, and its answer on the message as stamped, with the
handler chain still the one passed in, and on the pending count of before this send
decides the send: it is accepted exactly when that answer is true, and rejected with
`SEND_QUEUE_FULL`, the session unchanged, when it is false.  The reply handler is
pushed afterwards, on the message given to `processMessage`, and an accepted send
leaves the count one higher than the value `canSend` saw. -/
theorem admission_checks_are_ordered {P : Type} [IThrottlePolicy P] (s : SourceSession P)
    (now : Int) (msg : Message) :
    (s.closed = true →
      (s.send now msg).result =
        Result.rejected ErrorCode.SEND_QUEUE_CLOSED "Source session is closed."
          (s.stamp now msg) ∧
      (s.send now msg).session = s ∧
      canSendCalls (s.send now msg).effects = []) ∧
    (s.closed = false → ∀ p, s.throttlePolicy = some p →
      canSendCalls (s.send now msg).effects = [(s.stamp now msg, s.pendingCount)] ∧
      (s.stamp now msg).callStack = msg.callStack ∧
      ((s.send now msg).result = Result.accepted ↔
        IThrottlePolicy.canSend p (s.stamp now msg) s.pendingCount = true) ∧
      (IThrottlePolicy.canSend p (s.stamp now msg) s.pendingCount = false →
        (s.send now msg).result = Result.rejected ErrorCode.SEND_QUEUE_FULL
          ("Too much pending data (" ++ toString s.pendingCount ++ " messages).")
          (s.stamp now msg) ∧
        (s.send now msg).session = s) ∧
      ((s.send now msg).result = Result.accepted →
        (s.send now msg).session.pendingCount = s.pendingCount + 1 ∧
        (s.send now msg).session.throttlePolicy = some (IThrottlePolicy.processMessage p
          ((s.stamp now msg).pushHandler s.replyHandler)) ∧
        processedMessages (s.send now msg).effects =
          [(s.stamp now msg).pushHandler s.replyHandler])) := by
  constructor
  · intro hc
    rw [send_closed s now msg hc]
    exact ⟨rfl, rfl, rfl⟩
  · intro hc p hp
    have hcs : (s.stamp now msg).callStack = msg.callStack := by rw [stamp_eq]
    have hq := queueFull_eq s p (s.stamp now msg) hp
    cases hcan : IThrottlePolicy.canSend p (s.stamp now msg) s.pendingCount
    · have hf : s.queueFull (s.stamp now msg) = true := by rw [hq, hcan]; rfl
      rw [send_full s now msg hc hf]
      refine ⟨rfl, hcs, ?_, fun _ => ⟨rfl, rfl⟩, ?_⟩
      · simp [Result.rejected, Result.accepted]
      · intro hacc
        simp [Result.rejected, Result.accepted] at hacc
    · have hf : s.queueFull (s.stamp now msg) = false := by rw [hq, hcan]; rfl
      rw [send_ok s now msg hc hf]
      refine ⟨canSendCalls_send_ok s p _ _ _ _ hp, hcs, ?_, ?_, ?_⟩
      · simp
      · intro h
        cases h
      · intro _
        refine ⟨rfl, by simp [hp], ?_⟩
        unfold processedMessages SourceSession.withPolicy
        simp [hp, Effect.processedMessage]

/-- Witness of C22: a closed session whose policy would reject (no `canSend` call, the
result is `SEND_QUEUE_CLOSED`), and the open session whose static policy admits one
pending message: `canSend` holds for the count 0 of before the send and fails for the
count 1 of after it, and the send is accepted. -/
theorem admission_checks_are_ordered_witness :
    (exampleClosedFull.closed = true ∧
      exampleClosedFull.queueFull (exampleClosedFull.stamp 7 exampleMessage) = true ∧
      (exampleClosedFull.send 7 exampleMessage).result.error.map Error.code =
        some ErrorCode.SEND_QUEUE_CLOSED ∧
      canSendCalls (exampleClosedFull.send 7 exampleMessage).effects = [] ∧
      exampleLastSlot.closed = false ∧
      (exampleLastSlot.send 7 exampleMessage).result = Result.accepted ∧
      exampleLastSlot.queueFull (exampleLastSlot.stamp 7 exampleMessage) = false ∧
      (exampleLastSlot.send 7 exampleMessage).session.queueFull
        (exampleLastSlot.stamp 7 exampleMessage) = true ∧
      (canSendCalls (exampleLastSlot.send 7 exampleMessage).effects).map
        (fun c => (c.1.callStack, c.2)) = [([Handler.external 7], 0)]) ∧
    ((exampleLastSlot.closed = true →
      (exampleLastSlot.send 7 exampleMessage).result =
        Result.rejected ErrorCode.SEND_QUEUE_CLOSED "Source session is closed."
          (exampleLastSlot.stamp 7 exampleMessage) ∧
      (exampleLastSlot.send 7 exampleMessage).session = exampleLastSlot ∧
      canSendCalls (exampleLastSlot.send 7 exampleMessage).effects = []) ∧
    (exampleLastSlot.closed = false → ∀ p, exampleLastSlot.throttlePolicy = some p →
      canSendCalls (exampleLastSlot.send 7 exampleMessage).effects =
        [(exampleLastSlot.stamp 7 exampleMessage, exampleLastSlot.pendingCount)] ∧
      (exampleLastSlot.stamp 7 exampleMessage).callStack = exampleMessage.callStack ∧
      ((exampleLastSlot.send 7 exampleMessage).result = Result.accepted ↔
        IThrottlePolicy.canSend p (exampleLastSlot.stamp 7 exampleMessage)
          exampleLastSlot.pendingCount = true) ∧
      (IThrottlePolicy.canSend p (exampleLastSlot.stamp 7 exampleMessage)
          exampleLastSlot.pendingCount = false →
        (exampleLastSlot.send 7 exampleMessage).result =
          Result.rejected ErrorCode.SEND_QUEUE_FULL
            ("Too much pending data (" ++ toString exampleLastSlot.pendingCount
              ++ " messages).")
            (exampleLastSlot.stamp 7 exampleMessage) ∧
        (exampleLastSlot.send 7 exampleMessage).session = exampleLastSlot) ∧
      ((exampleLastSlot.send 7 exampleMessage).result = Result.accepted →
        (exampleLastSlot.send 7 exampleMessage).session.pendingCount =
          exampleLastSlot.pendingCount + 1 ∧
        (exampleLastSlot.send 7 exampleMessage).session.throttlePolicy =
          some (IThrottlePolicy.processMessage p
            ((exampleLastSlot.stamp 7 exampleMessage).pushHandler
              exampleLastSlot.replyHandler)) ∧
        processedMessages (exampleLastSlot.send 7 exampleMessage).effects =
          [(exampleLastSlot.stamp 7 exampleMessage).pushHandler
            exampleLastSlot.replyHandler]))) :=
  ⟨⟨rfl, by decide, rfl, by decide, rfl, rfl, by decide, by decide, by decide⟩,
    admission_checks_are_ordered exampleLastSlot 7 exampleMessage⟩

theorem lockHeld_section {P : Type} (s : SourceSession P) (e : Effect) :
    lockHeld ([Effect.lock] ++ s.withPolicy e ++ [Effect.unlock]) = false := by
  unfold lockHeld SourceSession.withPolicy
  cases s.throttlePolicy <;> simp

/-- C23: in a call of `handleReply` that completes, the calls made are, in order: the
first critical section (lock, `processReply` when a policy is configured, unlock), then
the invocation of the handler popped from the chain of the reply, then nothing or the
second critical section followed by the notification.  The handler is invoked exactly
once and with the lock not held; at that point the done flag is as it was before the
call.  When the reply drains a closed session (the local `done` is true), the second
critical section, which sets the done flag, and `notify_all` come after the handler
invocation; otherwise nothing follows it. -/
theorem handler_is_invoked_outside_the_lock {P : Type} [IThrottlePolicy P]
    (s : SourceSession P) (reply : Reply) (o : ReplyOutcome P)
    (hok : s.handleReply reply = Except.ok o) :
    ∃ (s1 : SourceSession P) (drained : Bool) (handler : Handler) (r2 : Reply)
      (pre post : List Effect),
      s.handleReply_locked reply = Except.ok (s1, drained) ∧
      drained = (s.closed && decide (s.pendingCount - 1 = 0)) ∧
      s1.done = s.done ∧
      o.effects = pre ++ [Effect.handlerHandleReply handler r2] ++ post ∧
      pre = [Effect.lock] ++ s.withPolicy (Effect.processReply reply) ++ [Effect.unlock] ∧
      lockHeld pre = false ∧
      invokedHandlers o.effects = [(handler, r2)] ∧
      Effect.condNotifyAll ∉ pre ∧
      (drained = true →
        post = [Effect.lock, Effect.unlock, Effect.condNotifyAll] ∧
        s1.handleReply_finish = Except.ok o.session ∧ o.session.done = true) ∧
      (drained = false → post = [] ∧ o.session = s1) := by
  obtain ⟨hp, hne, _⟩ := handleReply_ok s reply o hok
  cases hcs : reply.callStack with
  | nil => exact absurd hcs hne
  | cons handler rest =>
    have hcons := handleReply_cons s reply handler rest hp hcs
    rw [hcons] at hok
    simp only [Except.ok.injEq] at hok
    have hinv := invoked_section s (Effect.processReply reply) handler
      { SourceSession.traceReply reply (s.pendingCount - 1) with callStack := rest } rfl
    have hnotify : Effect.condNotifyAll ∉
        [Effect.lock] ++ s.withPolicy (Effect.processReply reply) ++ [Effect.unlock] := by
      unfold SourceSession.withPolicy
      cases s.throttlePolicy <;> simp
    refine ⟨_, _, handler,
      { SourceSession.traceReply reply (s.pendingCount - 1) with callStack := rest },
      [Effect.lock] ++ s.withPolicy (Effect.processReply reply) ++ [Effect.unlock],
      (if (s.closed && decide (s.pendingCount - 1 = 0)) = true
        then [Effect.lock, Effect.unlock, Effect.condNotifyAll] else []),
      handleReply_locked_completes s reply hp, rfl, rfl, ?_, rfl,
      lockHeld_section s _, ?_, hnotify, ?_, ?_⟩
    · rw [← hok]
      simp
    · rw [← hok]
      cases hd : (s.closed && decide (s.pendingCount - 1 = 0))
      · simp only [Bool.false_eq_true, if_false, List.append_nil]
        exact hinv.1
      · simp only [if_true]
        exact hinv.2
    · intro hd
      simp only [hd, if_true, true_and]
      rw [← hok]
      simp only [Bool.and_eq_true, decide_eq_true_eq] at hd
      refine ⟨?_, ?_⟩
      · unfold SourceSession.handleReply_finish
        simp [hd.1, hd.2]
      · simp [hd.1, hd.2]
    · intro hd
      simp only [hd, Bool.false_eq_true, if_false, true_and]
      rw [← hok]
      simp [hd]

/-- Witness of C23: the reply that drains the closed example session with one message
pending. -/
theorem handler_is_invoked_outside_the_lock_witness :
    exampleDraining.handleReply exampleReply = Except.ok exampleDrainOutcome ∧
    (exampleDrainOutcome.effects.map Effect.eraseTrace, exampleDrainOutcome.session.done) =
      ([Effect.lock, Effect.processReply exampleReply.eraseTrace, Effect.unlock,
        Effect.handlerHandleReply (Handler.external 1)
          { exampleReply.eraseTrace with callStack := [Handler.external 7] },
        Effect.lock, Effect.unlock, Effect.condNotifyAll], true) ∧
    ∃ (s1 : SourceSession AcceptAllPolicy) (drained : Bool) (handler : Handler) (r2 : Reply)
      (pre post : List Effect),
      exampleDraining.handleReply_locked exampleReply = Except.ok (s1, drained) ∧
      drained = (exampleDraining.closed && decide (exampleDraining.pendingCount - 1 = 0)) ∧
      s1.done = exampleDraining.done ∧
      exampleDrainOutcome.effects = pre ++ [Effect.handlerHandleReply handler r2] ++ post ∧
      pre = [Effect.lock] ++ exampleDraining.withPolicy (Effect.processReply exampleReply)
        ++ [Effect.unlock] ∧
      lockHeld pre = false ∧
      invokedHandlers exampleDrainOutcome.effects = [(handler, r2)] ∧
      Effect.condNotifyAll ∉ pre ∧
      (drained = true →
        post = [Effect.lock, Effect.unlock, Effect.condNotifyAll] ∧
        s1.handleReply_finish = Except.ok exampleDrainOutcome.session ∧
        exampleDrainOutcome.session.done = true) ∧
      (drained = false → post = [] ∧ exampleDrainOutcome.session = s1) :=
  ⟨rfl, by decide,
    handler_is_invoked_outside_the_lock exampleDraining exampleReply exampleDrainOutcome rfl⟩

/-- C24: the constructor fails its assertion (an abnormal end, no `Result`) when the
parameters have no reply handler; with a reply handler it yields the OPEN state:
pending count 0, not closed, not done, the default timeout, reply handler and policy of
the parameters. -/
theorem constructor_requires_reply_handler {P : Type} (params : SourceSessionParams P) :
    (params.replyHandler = none →
      SourceSession.create params = Except.error Fatal.assertHasReplyHandler) ∧
    (∀ handler, params.replyHandler = some handler →
      ∃ s, SourceSession.create params = Except.ok s ∧
        s.pendingCount = 0 ∧ s.closed = false ∧ s.done = false ∧ s.phase = 0 ∧
        s.timeout = params.timeout ∧ s.replyHandler = handler ∧
        s.throttlePolicy = params.throttlePolicy) := by
  constructor
  · intro hnone
    unfold SourceSession.create
    rw [hnone]
  · intro handler hsome
    unfold SourceSession.create
    rw [hsome]
    exact ⟨_, rfl, rfl, rfl, rfl, rfl, rfl, rfl, rfl⟩

/-- Witness of C24: the example parameters with and without their reply handler. -/
theorem constructor_requires_reply_handler_witness :
    (SourceSession.create exampleParamsNoHandler =
        Except.error Fatal.assertHasReplyHandler ∧
      SourceSession.create exampleParams = Except.ok exampleSession) ∧
    ((exampleParamsNoHandler.replyHandler = none →
      SourceSession.create exampleParamsNoHandler =
        Except.error Fatal.assertHasReplyHandler) ∧
    (∀ handler, exampleParamsNoHandler.replyHandler = some handler →
      ∃ s, SourceSession.create exampleParamsNoHandler = Except.ok s ∧
        s.pendingCount = 0 ∧ s.closed = false ∧ s.done = false ∧ s.phase = 0 ∧
        s.timeout = exampleParamsNoHandler.timeout ∧ s.replyHandler = handler ∧
        s.throttlePolicy = exampleParamsNoHandler.throttlePolicy)) ∧
    ((exampleParams.replyHandler = none →
      SourceSession.create exampleParams = Except.error Fatal.assertHasReplyHandler) ∧
    (∀ handler, exampleParams.replyHandler = some handler →
      ∃ s, SourceSession.create exampleParams = Except.ok s ∧
        s.pendingCount = 0 ∧ s.closed = false ∧ s.done = false ∧ s.phase = 0 ∧
        s.timeout = exampleParams.timeout ∧ s.replyHandler = handler ∧
        s.throttlePolicy = exampleParams.throttlePolicy)) :=
  ⟨⟨rfl, rfl⟩, constructor_requires_reply_handler exampleParamsNoHandler,
    constructor_requires_reply_handler exampleParams⟩

end mbus

namespace metrics

theorem unregisterMetric_unknown_name (depth : Nat) (h : Heap) (self metric : Nat)
    (hname : h.getMetricInternal self (h.getMangledName metric) = none) :
    h.unregisterMetric depth self metric = Except.ok h := by
  unfold Heap.unregisterMetric
  rw [hname]

theorem unregisterMetric_same_name (depth : Nat) (h : Heap) (self metric other : Nat)
    (hname : h.getMetricInternal self (h.getMangledName metric) = some other)
    (habsent : metric ∉ (h self).metricOrder) :
    h.unregisterMetric depth self metric = Except.error Failure.assertFound := by
  unfold Heap.unregisterMetric
  rw [hname]
  have hfound : (h self).metricOrder.contains metric = false := by
    simpa using habsent
  simp only [hfound, Bool.not_false, if_true]

/-- C20, at the failing input: the set at address 0 holds the metric at address 1, named
`x`; the metric at address 2, also named `x`, is not registered in the set (nor
anywhere).  `unregisterMetric` finds a metric of that name, does not find the object in
`_metricOrder`, and fails `assert(found)` of line 195. -/
theorem unregisterMetric_other_object_same_name_asserts :
    2 ∉ (exampleHeap 0).metricOrder ∧
    exampleHeap.isRegistered 2 = false ∧
    exampleHeap.getMangledName 2 = exampleHeap.getMangledName 1 ∧
    exampleHeap.getMetricInternal 0 (exampleHeap.getMangledName 2) = some 1 ∧
    exampleHeap.unregisterMetric 8 0 2 = Except.error Failure.assertFound := by
  refine ⟨by decide, rfl, rfl, by decide, ?_⟩
  exact unregisterMetric_same_name 8 exampleHeap 0 2 1 (by decide) (by decide)

theorem stdRemove_length (v : List Nat) (value : Nat) :
    (stdRemove v value).1.length = v.length := by
  have hle : (v.filter (fun x => x != value)).length ≤ v.length := List.length_filter_le _ _
  simp only [stdRemove, List.length_append, List.length_drop]
  omega

theorem removeMetricFromSum_length (self r : SumMetric) (metric : Nat)
    (hok : self.removeMetricFromSum metric = Except.ok r) :
    r.metricsToSum.length + 1 = self.metricsToSum.length := by
  unfold SumMetric.removeMetricFromSum vectorErase at hok
  have hl := stdRemove_length self.metricsToSum metric
  by_cases hlt : (stdRemove self.metricsToSum metric).2 <
      (stdRemove self.metricsToSum metric).1.length
  · simp only [hlt, if_true, Except.ok.injEq] at hok
    subst hok
    simp only [List.length_eraseIdx, hlt, if_true]
    omega
  · simp only [hlt, if_false, reduceCtorEq] at hok

theorem copy_has_no_addends (body : Nat → Nat → Nat → Except SumFailure Nat)
    (other : SumMetric) (owner : Option Nat) (c : SumMetric)
    (h : SumMetric.copy body other owner = Except.ok c) : c.metricsToSum = [] := by
  unfold SumMetric.copy at h
  cases ho : other.owner with
  | none => simp [ho] at h
  | some otherOwner =>
    cases hn : owner with
    | none => simp [ho, hn] at h
    | some newOwner =>
      simp only [ho, hn, List.foldlM_nil, pure, Except.pure, Except.ok.injEq] at h
      rw [← h]

/-- C27, at the failing input: a sum metric registered in a set, with three addends, is
cloned with copy type CLONE into a new owner.  The copy has no addend, whatever the
loop body does: also with a body that finds no corresponding metric the copy is made
and nothing is thrown.  (A copy is refused, with `IllegalStateException`, only for an
original without owner or for no new owner.) -/
theorem clone_of_sum_has_no_addends :
    exampleSum.metricsToSum.length = 3 ∧
    (SumMetric.cloneAsClone exampleBodyFound exampleSum (some 3)).toOption.map
      SumMetric.metricsToSum = some [] ∧
    (SumMetric.cloneAsClone exampleBodyMissing exampleSum (some 3)).toOption.map
      SumMetric.metricsToSum = some [] ∧
    (∃ msg, SumMetric.cloneAsClone exampleBodyFound { exampleSum with owner := none } (some 3)
      = Except.error (SumFailure.illegalStateException msg)) ∧
    (∃ msg, SumMetric.cloneAsClone exampleBodyFound exampleSum none
      = Except.error (SumFailure.illegalStateException msg)) := by
  refine ⟨rfl, rfl, rfl, ⟨_, rfl⟩, ⟨_, rfl⟩⟩

/-- C28, at the failing inputs: `addMetricToSum` of the metrics 5, 6 and 5 again gives
the addends 5, 6, 5, and then `removeMetricFromSum(5)` leaves 6, 5 (one element is
erased, the addend 5 is still in the list); with the addends 6, 7 and the metric 5,
which does not occur, `erase` is called on the end iterator.  With one occurrence
(addends 6, 5, 7) the call removes it. -/
theorem removeMetricFromSum_erases_one_element :
    exampleSumBuilt.toOption = some exampleSum ∧
    (exampleSum.removeMetricFromSum 5).toOption.map SumMetric.metricsToSum = some [6, 5] ∧
    SumMetric.removeMetricFromSum { exampleSum with metricsToSum := [6, 7] } 5 =
      Except.error SumFailure.eraseAtEnd ∧
    (SumMetric.removeMetricFromSum { exampleSum with metricsToSum := [6, 5, 7] }
      5).toOption.map SumMetric.metricsToSum = some [6, 7] := by
  refine ⟨by decide, by decide, rfl, by decide⟩

theorem update_fields (h : Heap) (s : Nat) (v : Metric) (a : Nat) :
    Function.update h s v a = if a = s then v else h a := by
  by_cases ha : a = s
  · subst ha; simp
  · simp [Function.update_noteq ha, ha]

theorem tagAll_fields (h : Heap) (chain : List Nat) (a : Nat) :
    (h.tagAll chain a).mangledName = (h a).mangledName ∧
    (h.tagAll chain a).metricOrder = (h a).metricOrder ∧
    (h.tagAll chain a).owner = (h a).owner ∧
    (h.tagAll chain a).isMetricSet = (h a).isMetricSet := by
  unfold Heap.tagAll
  split <;> simp

theorem tagAll_cons (h : Heap) (self : Nat) (chain : List Nat) :
    (h.tagAll [self]).tagAll chain = h.tagAll (self :: chain) := by
  funext a
  simp only [Heap.tagAll, List.mem_cons, List.mem_singleton, List.not_mem_nil, or_false]
  by_cases hs : a = self <;> by_cases hm : a ∈ chain <;> simp [hs, hm]

theorem tagRegistrationAltered_succ (depth : Nat) (h : Heap) (self : Nat) :
    Heap.tagRegistrationAltered (depth + 1) h self =
      match (h self).owner with
      | some owner => Heap.tagRegistrationAltered depth (h.tagAll [self]) owner
      | none => some (h.tagAll [self]) := by
  have e : Function.update h self { h self with registrationAltered := true }
      = h.tagAll [self] := by
    funext a
    rw [update_fields]
    simp only [Heap.tagAll, List.mem_singleton]
    by_cases hs : a = self
    · subst hs; simp
    · simp [hs]
  conv_lhs => unfold Heap.tagRegistrationAltered
  simp only [e]
  rw [(tagAll_fields h [self] self).2.2.1]

theorem tagRegistrationAltered_fields : ∀ (depth : Nat) (h h' : Heap) (self : Nat),
    Heap.tagRegistrationAltered depth h self = some h' →
    ∀ a, (h' a).mangledName = (h a).mangledName ∧ (h' a).metricOrder = (h a).metricOrder ∧
      (h' a).owner = (h a).owner ∧ (h' a).isMetricSet = (h a).isMetricSet
  | 0, _, _, _, hr => by simp [Heap.tagRegistrationAltered] at hr
  | depth + 1, h, h', self, hr => by
    intro a
    rw [tagRegistrationAltered_succ] at hr
    have hf := tagAll_fields h [self] a
    cases ho : (h self).owner with
    | none =>
      simp only [ho, Option.some.injEq] at hr
      subst hr
      exact hf
    | some o =>
      simp only [ho] at hr
      have ih := tagRegistrationAltered_fields depth _ h' o hr a
      exact ⟨ih.1.trans hf.1, ih.2.1.trans hf.2.1, ih.2.2.1.trans hf.2.2.1,
        ih.2.2.2.trans hf.2.2.2⟩

theorem ownerChain_of_agree : ∀ (depth : Nat) (h h' : Heap) (self : Nat) (chain : List Nat),
    Heap.ownerChain depth h self = some chain →
    (∀ a ∈ chain, (h' a).owner = (h a).owner) →
    Heap.ownerChain depth h' self = some chain
  | 0, _, _, _, _, hc, _ => by simp [Heap.ownerChain] at hc
  | depth + 1, h, h', self, chain, hc, ho => by
    unfold Heap.ownerChain at hc
    unfold Heap.ownerChain
    cases hs : (h self).owner with
    | none =>
      simp only [hs, Option.some.injEq] at hc
      subst hc
      rw [ho self (by simp), hs]
    | some o =>
      simp only [hs, Option.map_eq_some'] at hc
      obtain ⟨c, hc1, hc2⟩ := hc
      subst hc2
      rw [ho self (by simp), hs]
      simp only [ownerChain_of_agree depth h h' o c hc1
        (fun a ha => ho a (List.mem_cons_of_mem _ ha)), Option.map_some']

theorem ownerChain_head : ∀ (depth : Nat) (h : Heap) (self : Nat) (chain : List Nat),
    Heap.ownerChain depth h self = some chain → self ∈ chain
  | 0, _, _, _, hc => by simp [Heap.ownerChain] at hc
  | depth + 1, h, self, chain, hc => by
    unfold Heap.ownerChain at hc
    cases hs : (h self).owner with
    | none =>
      simp only [hs, Option.some.injEq] at hc
      subst hc
      simp
    | some o =>
      simp only [hs, Option.map_eq_some'] at hc
      obtain ⟨c, _, hc2⟩ := hc
      subst hc2
      simp

theorem tagRegistrationAltered_of_chain : ∀ (depth : Nat) (h : Heap) (self : Nat)
    (chain : List Nat), Heap.ownerChain depth h self = some chain →
    Heap.tagRegistrationAltered depth h self = some (h.tagAll chain)
  | 0, _, _, _, hc => by simp [Heap.ownerChain] at hc
  | depth + 1, h, self, chain, hc => by
    unfold Heap.ownerChain at hc
    rw [tagRegistrationAltered_succ]
    cases ho : (h self).owner with
    | none =>
      simp only [ho, Option.some.injEq] at hc
      subst hc
      rfl
    | some o =>
      simp only [ho, Option.map_eq_some'] at hc
      obtain ⟨c, hc1, hc2⟩ := hc
      subst hc2
      have hcongr := ownerChain_of_agree depth h (h.tagAll [self]) o c hc1
        (fun a _ => (tagAll_fields h [self] a).2.2.1)
      simp only [tagRegistrationAltered_of_chain depth _ o c hcongr, tagAll_cons]

theorem tagRegistrationAltered_owner_cycle : ∀ (depth : Nat) (h : Heap) (self : Nat),
    (h self).owner = some self → Heap.tagRegistrationAltered depth h self = none
  | 0, _, _, _ => rfl
  | depth + 1, h, self, ho => by
    rw [tagRegistrationAltered_succ]
    simp only [ho]
    exact tagRegistrationAltered_owner_cycle depth _ self
      ((tagAll_fields h [self] self).2.2.1.trans ho)

theorem register_step_fields (h : Heap) (self metric a : Nat) :
    let h2 := Heap.setRegistered (Function.update h self
      { h self with metricOrder := (h self).metricOrder ++ [metric] }) metric (some self)
    (h2 a).mangledName = (h a).mangledName ∧
    (h2 a).metricOrder = (if a = self then (h self).metricOrder ++ [metric]
      else (h a).metricOrder) ∧
    (h2 a).owner = (if a = metric then some self else (h a).owner) ∧
    (h2 a).isMetricSet = (h a).isMetricSet ∧
    (h2 a).registrationAltered = (h a).registrationAltered := by
  intro h2
  simp only [h2, Heap.setRegistered, update_fields]
  by_cases hm : a = metric <;> by_cases hs : a = self <;> simp_all

theorem registerMetric_ok_of_chain (depth : Nat) (h : Heap) (self metric : Nat)
    (chain : List Nat) (hchain : h.ownerChain depth self = some chain)
    (hnot : metric ∉ chain) (hreg : h.isRegistered metric = false)
    (hname : h.getMetricInternal self (h.getMangledName metric) = none) :
    ∃ h', h.registerMetric depth self metric = Outcome.returned h' ∧
      (h' self).metricOrder = (h self).metricOrder ++ [metric] ∧
      (h' metric).owner = some self ∧
      (∀ a ∈ chain, (h' a).registrationAltered = true) ∧
      (∀ a, a ∉ chain → (h' a).registrationAltered = (h a).registrationAltered) ∧
      (∀ a, a ≠ self → (h' a).metricOrder = (h a).metricOrder) ∧
      (∀ a, a ≠ metric → (h' a).owner = (h a).owner) := by
  have hself : self ∈ chain := ownerChain_head depth h self chain hchain
  have hne : self ≠ metric := fun e => hnot (e ▸ hself)
  have hF := register_step_fields h self metric
  obtain ⟨h2, hh2⟩ : ∃ h2 : Heap, h2 = Heap.setRegistered (Function.update h self
      { h self with metricOrder := (h self).metricOrder ++ [metric] }) metric (some self) :=
    ⟨_, rfl⟩
  simp only [← hh2] at hF
  have hchain2 : Heap.ownerChain depth h2 self = some chain :=
    ownerChain_of_agree depth h h2 self chain hchain (by
      intro a ha
      have hm : a ≠ metric := fun e => hnot (e ▸ ha)
      rw [(hF a).2.2.1, if_neg hm])
  have htag := tagRegistrationAltered_of_chain depth h2 self chain hchain2
  have hres : h.registerMetric depth self metric =
      (if ((h2.tagAll chain) metric).isMetricSet then
        Outcome.returned (Function.update (h2.tagAll chain) metric
          { (h2.tagAll chain) metric with owner := some self })
      else Outcome.returned (h2.tagAll chain)) := by
    unfold Heap.registerMetric
    simp only [hreg, hname, ← hh2, htag, Bool.false_eq_true, if_false]
  have hT := tagAll_fields h2 chain
  have hflag : ∀ a, ((h2.tagAll chain) a).registrationAltered =
      (if a ∈ chain then true else (h a).registrationAltered) := by
    intro a
    unfold Heap.tagAll
    split
    · rfl
    · exact (hF a).2.2.2.2
  rw [hres]
  by_cases hset : ((h2.tagAll chain) metric).isMetricSet = true
  · simp only [hset, if_true]
    refine ⟨_, rfl, ?_, ?_, ?_, ?_, ?_, ?_⟩
    · rw [update_fields, if_neg hne, (hT self).2.1, (hF self).2.1, if_pos rfl]
    · rw [update_fields, if_pos rfl]
    · intro a ha
      have hm : a ≠ metric := fun e => hnot (e ▸ ha)
      rw [update_fields, if_neg hm, hflag, if_pos ha]
    · intro a ha
      rw [update_fields]
      split
      · rename_i hm
        subst hm
        show ((h2.tagAll chain) a).registrationAltered = _
        rw [hflag, if_neg ha]
      · rw [hflag, if_neg ha]
    · intro a ha
      rw [update_fields]
      split
      · rename_i hm
        subst hm
        show ((h2.tagAll chain) a).metricOrder = _
        rw [(hT a).2.1, (hF a).2.1, if_neg ha]
      · rw [(hT a).2.1, (hF a).2.1, if_neg ha]
    · intro a ha
      rw [update_fields, if_neg ha, (hT a).2.2.1, (hF a).2.2.1, if_neg ha]
  · simp only [hset, if_false]
    refine ⟨_, rfl, ?_, ?_, ?_, ?_, ?_, ?_⟩
    · rw [(hT self).2.1, (hF self).2.1, if_pos rfl]
    · rw [(hT metric).2.2.1, (hF metric).2.2.1, if_pos rfl]
    · intro a ha
      rw [hflag, if_pos ha]
    · intro a ha
      rw [hflag, if_neg ha]
    · intro a ha
      rw [(hT a).2.1, (hF a).2.1, if_neg ha]
    · intro a ha
      rw [(hT a).2.2.1, (hF a).2.2.1, if_neg ha]

theorem registerMetric_throws_iff (depth : Nat) (h : Heap) (self metric : Nat) :
    (∃ msg h', h.registerMetric depth self metric = Outcome.thrown msg h') ↔
    (h.isRegistered metric = true ∨
      (h.getMetricInternal self (h.getMangledName metric)).isSome = true) := by
  unfold Heap.registerMetric
  cases hreg : h.isRegistered metric with
  | true => simp
  | false =>
    cases hname : h.getMetricInternal self (h.getMangledName metric) with
    | some e => simp
    | none =>
      simp only [Bool.false_eq_true, if_false, Option.isSome_none, or_self, iff_false,
        not_exists]
      intro msg h'
      split
      · simp
      · split <;> simp

theorem registerMetric_thrown_heap (depth : Nat) (h h' : Heap) (self metric : Nat)
    (msg : String) (hthrown : h.registerMetric depth self metric = Outcome.thrown msg h') :
    h' = h := by
  unfold Heap.registerMetric at hthrown
  cases hreg : h.isRegistered metric with
  | true =>
    simp only [hreg, if_true, Outcome.thrown.injEq] at hthrown
    exact hthrown.2.symm
  | false =>
    cases hname : h.getMetricInternal self (h.getMangledName metric) with
    | some e =>
      simp only [hreg, hname, Bool.false_eq_true, if_false, Outcome.thrown.injEq] at hthrown
      exact hthrown.2.symm
    | none =>
      simp only [hreg, hname, Bool.false_eq_true, if_false] at hthrown
      split at hthrown
      · cases hthrown
      · split at hthrown <;> cases hthrown

theorem registerMetric_ok_fields (depth : Nat) (h h' : Heap) (self metric : Nat)
    (hok : h.registerMetric depth self metric = Outcome.returned h') :
    h.getMetricInternal self (h.getMangledName metric) = none ∧
    ∀ a, (h' a).mangledName = (h a).mangledName ∧
      (h' a).metricOrder = (if a = self then (h self).metricOrder ++ [metric]
        else (h a).metricOrder) := by
  have hF := register_step_fields h self metric
  obtain ⟨h2, hh2⟩ : ∃ h2 : Heap, h2 = Heap.setRegistered (Function.update h self
      { h self with metricOrder := (h self).metricOrder ++ [metric] }) metric (some self) :=
    ⟨_, rfl⟩
  simp only [← hh2] at hF
  unfold Heap.registerMetric at hok
  cases hreg : h.isRegistered metric with
  | true => simp [hreg] at hok
  | false =>
    cases hname : h.getMetricInternal self (h.getMangledName metric) with
    | some e => simp [hreg, hname] at hok
    | none =>
      refine ⟨rfl, ?_⟩
      simp only [hreg, hname, ← hh2, Bool.false_eq_true, if_false] at hok
      cases htag : Heap.tagRegistrationAltered depth h2 self with
      | none => simp [htag] at hok
      | some h3 =>
        have hT := tagRegistrationAltered_fields depth h2 h3 self htag
        simp only [htag] at hok
        intro a
        split at hok
        · simp only [Outcome.returned.injEq] at hok
          subst hok
          rw [update_fields]
          split
          · rename_i hm
            subst hm
            exact ⟨(hT a).1.trans (hF a).1, (hT a).2.1.trans (hF a).2.1⟩
          · exact ⟨(hT a).1.trans (hF a).1, (hT a).2.1.trans (hF a).2.1⟩
        · simp only [Outcome.returned.injEq] at hok
          subst hok
          exact ⟨(hT a).1.trans (hF a).1, (hT a).2.1.trans (hF a).2.1⟩

theorem unregister_step_fields (h : Heap) (self metric a : Nat) :
    let h2 := Heap.setRegistered (Function.update h self
      { h self with metricOrder := (h self).metricOrder.erase metric }) metric none
    (h2 a).mangledName = (h a).mangledName ∧
    (h2 a).metricOrder = (if a = self then (h self).metricOrder.erase metric
      else (h a).metricOrder) := by
  intro h2
  simp only [h2, Heap.setRegistered, update_fields]
  by_cases hm : a = metric <;> by_cases hs : a = self <;> simp_all

theorem unregisterMetric_ok_fields (depth : Nat) (h h' : Heap) (self metric : Nat)
    (hok : h.unregisterMetric depth self metric = Except.ok h') :
    ∀ a, (h' a).mangledName = (h a).mangledName ∧
      (h' a).metricOrder.Sublist (h a).metricOrder := by
  have hF := unregister_step_fields h self metric
  obtain ⟨h2, hh2⟩ : ∃ h2 : Heap, h2 = Heap.setRegistered (Function.update h self
      { h self with metricOrder := (h self).metricOrder.erase metric }) metric none :=
    ⟨_, rfl⟩
  simp only [← hh2] at hF
  have hsub : ∀ a, (h2 a).metricOrder.Sublist (h a).metricOrder := by
    intro a
    rw [(hF a).2]
    split
    · rename_i hs
      subst hs
      exact List.erase_sublist _ _
    · exact List.Sublist.refl _
  unfold Heap.unregisterMetric at hok
  cases hname : h.getMetricInternal self (h.getMangledName metric) with
  | none =>
    simp only [hname, Except.ok.injEq] at hok
    subst hok
    exact fun a => ⟨rfl, List.Sublist.refl _⟩
  | some e =>
    simp only [hname, ← hh2] at hok
    cases hfound : (h self).metricOrder.contains metric with
    | false => simp only [hfound, Bool.not_false, if_true, reduceCtorEq] at hok
    | true =>
      simp only [hfound, Bool.not_true, Bool.false_eq_true, if_false] at hok
      cases htag : Heap.tagRegistrationAltered depth h2 self with
      | none => simp [htag] at hok
      | some h3 =>
        have hT := tagRegistrationAltered_fields depth h2 h3 self htag
        simp only [htag] at hok
        intro a
        split at hok
        · simp only [Except.ok.injEq] at hok
          subst hok
          rw [update_fields]
          split
          · rename_i hm
            subst hm
            exact ⟨(hT a).1.trans (hF a).1, (hT a).2.1 ▸ hsub a⟩
          · exact ⟨(hT a).1.trans (hF a).1, (hT a).2.1 ▸ hsub a⟩
        · simp only [Except.ok.injEq] at hok
          subst hok
          exact ⟨(hT a).1.trans (hF a).1, (hT a).2.1 ▸ hsub a⟩

theorem getMangledName_congr (h h' : Heap)
    (hn : ∀ a, (h' a).mangledName = (h a).mangledName) :
    h'.getMangledName = h.getMangledName := by
  funext a
  exact hn a

theorem namesDistinct_registerMetric (depth : Nat) (h h' : Heap) (self metric : Nat)
    (hd : h.namesDistinct) (hok : h.registerMetric depth self metric = Outcome.returned h') :
    h'.namesDistinct := by
  obtain ⟨hname, hf⟩ := registerMetric_ok_fields depth h h' self metric hok
  intro s
  rw [getMangledName_congr h h' (fun a => (hf a).1), (hf s).2]
  split
  · rename_i hs
    subst hs
    rw [List.map_append, List.map_singleton]
    refine List.Nodup.append (hd s) (List.nodup_singleton _) ?_
    rw [List.disjoint_singleton]
    intro hmem
    obtain ⟨x, hx, hxe⟩ := List.mem_map.1 hmem
    unfold Heap.getMetricInternal at hname
    have := List.find?_eq_none.1 hname x hx
    simp [hxe] at this
  · exact hd s

theorem namesDistinct_unregisterMetric (depth : Nat) (h h' : Heap) (self metric : Nat)
    (hd : h.namesDistinct) (hok : h.unregisterMetric depth self metric = Except.ok h') :
    h'.namesDistinct := by
  have hf := unregisterMetric_ok_fields depth h h' self metric hok
  intro s
  rw [getMangledName_congr h h' (fun a => (hf a).1)]
  exact List.Nodup.sublist (List.Sublist.map _ (hf s).2) (hd s)

theorem namesDistinct_call (depth : Nat) (h : Heap) (c : Call) (hd : h.namesDistinct) :
    (∀ h', h.call depth c = Outcome.returned h' → h'.namesDistinct) ∧
    (∀ msg h', h.call depth c = Outcome.thrown msg h' → h'.namesDistinct) := by
  cases c with
  | registerMetric s m =>
    refine ⟨fun h' hc => namesDistinct_registerMetric depth h h' s m hd hc, ?_⟩
    intro msg h' hc
    rw [registerMetric_thrown_heap depth h h' s m msg hc]
    exact hd
  | unregisterMetric s m =>
    cases hu : h.unregisterMetric depth s m with
    | error f =>
      constructor
      · intro h' hc
        simp only [Heap.call, hu, reduceCtorEq] at hc
      · intro msg h' hc
        simp only [Heap.call, hu, reduceCtorEq] at hc
    | ok h1 =>
      constructor
      · intro h' hc
        simp only [Heap.call, hu, Outcome.returned.injEq] at hc
        subst hc
        exact namesDistinct_unregisterMetric depth h h1 s m hd hu
      · intro msg h' hc
        simp only [Heap.call, hu, reduceCtorEq] at hc

theorem namesDistinct_calls (depth : Nat) : ∀ (cs : List Call) (h h' : Heap),
    h.namesDistinct → Heap.calls depth h cs = Except.ok h' → h'.namesDistinct
  | [], h, h', hd, hok => by
    simp only [Heap.calls, Except.ok.injEq] at hok
    exact hok ▸ hd
  | c :: cs, h, h', hd, hok => by
    simp only [Heap.calls] at hok
    obtain ⟨hret, hthr⟩ := namesDistinct_call depth h c hd
    cases hc : h.call depth c with
    | returned h1 =>
      simp only [hc] at hok
      exact namesDistinct_calls depth cs h1 h' (hret h1 hc) hok
    | thrown msg h1 =>
      simp only [hc] at hok
      exact namesDistinct_calls depth cs h1 h' (hthr msg h1 hc) hok
    | failed f => simp [hc] at hok

/-- C25 as stated fails: the root set of `exampleHeap`, at address 0, is not registered
and holds no metric with its own name, so `registerMetric` of the set with itself as
argument does not throw; but it does not return either: after line 160 the set is its
own owner and `tagRegistrationAltered` follows the owner chain without end, whatever
the bound on the recursion. -/
theorem registerMetric_of_owner_chain_member_does_not_return :
    exampleHeap.isRegistered 0 = false ∧
    exampleHeap.getMetricInternal 0 (exampleHeap.getMangledName 0) = none ∧
    (¬ ∃ depth h', exampleHeap.registerMetric depth 0 0 = Outcome.returned h') ∧
    (¬ ∃ depth msg h', exampleHeap.registerMetric depth 0 0 = Outcome.thrown msg h') := by
  have hreg : exampleHeap.isRegistered 0 = false := rfl
  have hname : exampleHeap.getMetricInternal 0 (exampleHeap.getMangledName 0) = none := by
    decide
  have hfail : ∀ depth, exampleHeap.registerMetric depth 0 0 =
      Outcome.failed Failure.ownerChainTooLong := by
    intro depth
    unfold Heap.registerMetric
    simp only [hreg, hname, Bool.false_eq_true, if_false]
    rw [tagRegistrationAltered_owner_cycle depth _ 0 (by simp [Heap.setRegistered])]
  refine ⟨hreg, hname, ?_, ?_⟩
  · rintro ⟨depth, h', hok⟩
    rw [hfail depth] at hok
    cases hok
  · rintro ⟨depth, msg, h', hok⟩
    rw [hfail depth] at hok
    cases hok

/-- C25, amended: `registerMetric(m)` on the set at `self` throws
`IllegalStateException` exactly when `m` is registered or the set holds a metric with
the mangled name of `m`, and when it throws the heap is as before the call: the metric
order of the set and `m` are unchanged.  Otherwise, when `m` is not the set nor one of
its ancestors (`chain` is the set followed by its owners up to the root), the call
returns: `m` is appended to the metric order, `m` is registered in the set, the
registration-altered flag is set on the set and all its ancestors, and no other metric
order, owner or flag changes.  The names in every metric order stay pairwise distinct
over every sequence of `registerMetric` and `unregisterMetric` calls, whether they
return or throw. -/
theorem registerMetric_appends_and_tags (depth : Nat) (h : Heap) (self metric : Nat)
    (chain : List Nat) (hchain : h.ownerChain depth self = some chain)
    (hnot : metric ∉ chain) (hd : h.namesDistinct) :
    ((∃ msg h', h.registerMetric depth self metric = Outcome.thrown msg h') ↔
      (h.isRegistered metric = true ∨
        (h.getMetricInternal self (h.getMangledName metric)).isSome = true)) ∧
    (∀ msg h', h.registerMetric depth self metric = Outcome.thrown msg h' →
      h' = h ∧ (h' self).metricOrder = (h self).metricOrder ∧ h' metric = h metric) ∧
    (h.isRegistered metric = false →
      h.getMetricInternal self (h.getMangledName metric) = none →
      ∃ h', h.registerMetric depth self metric = Outcome.returned h' ∧
        (h' self).metricOrder = (h self).metricOrder ++ [metric] ∧
        (h' metric).owner = some self ∧
        (∀ a ∈ chain, (h' a).registrationAltered = true) ∧
        (∀ a, a ∉ chain → (h' a).registrationAltered = (h a).registrationAltered) ∧
        (∀ a, a ≠ self → (h' a).metricOrder = (h a).metricOrder) ∧
        (∀ a, a ≠ metric → (h' a).owner = (h a).owner) ∧
        h'.namesDistinct) ∧
    (∀ (cs : List Call) (h' : Heap),
      Heap.calls depth h cs = Except.ok h' → h'.namesDistinct) := by
  refine ⟨registerMetric_throws_iff depth h self metric, ?_, ?_, ?_⟩
  · intro msg h' hthrown
    have he := registerMetric_thrown_heap depth h h' self metric msg hthrown
    subst he
    exact ⟨rfl, rfl, rfl⟩
  · intro hreg hname
    obtain ⟨h', hok, h1, h2, h3, h4, h5, h6⟩ :=
      registerMetric_ok_of_chain depth h self metric chain hchain hnot hreg hname
    exact ⟨h', hok, h1, h2, h3, h4, h5, h6,
      namesDistinct_registerMetric depth h h' self metric hd hok⟩
  · intro cs h' hok
    exact namesDistinct_calls depth cs h h' hd hok

theorem exampleTree_namesDistinct : exampleTree.namesDistinct := by
  intro s
  by_cases h0 : s = 0
  · subst h0; decide
  · by_cases h1 : s = 1
    · subst h1; decide
    · simp [exampleTree, h0, h1]

/-- Witness of C25: the metric at address 2 is registered in the set at address 1 of
`exampleTree`, whose owner chain is 1, 0.  Registering the set at address 1, which is
registered already, in the root throws and leaves the heap as it was; the sequence
`exampleMetricCalls`, with a throwing call in it, ends with the metric order of the
set empty again. -/
theorem registerMetric_appends_and_tags_witness :
    (exampleTree.ownerChain 2 1 = some [1, 0] ∧ 2 ∉ [1, 0] ∧ exampleTree.namesDistinct) ∧
    ((∃ msg, exampleTree.registerMetric 2 0 1 = Outcome.thrown msg exampleTree) ∧
      ((Heap.calls 2 exampleTree exampleMetricCalls).toOption.map
        (fun h => ((h 1).metricOrder, (h 2).owner, (h 0).registrationAltered))
        = some ([], none, true))) ∧
    ((∃ msg h', exampleTree.registerMetric 2 1 2 = Outcome.thrown msg h') ↔
      (exampleTree.isRegistered 2 = true ∨
        (exampleTree.getMetricInternal 1 (exampleTree.getMangledName 2)).isSome = true)) ∧
    (∀ msg h', exampleTree.registerMetric 2 1 2 = Outcome.thrown msg h' →
      h' = exampleTree ∧ (h' 1).metricOrder = (exampleTree 1).metricOrder ∧
        h' 2 = exampleTree 2) ∧
    (exampleTree.isRegistered 2 = false →
      exampleTree.getMetricInternal 1 (exampleTree.getMangledName 2) = none →
      ∃ h', exampleTree.registerMetric 2 1 2 = Outcome.returned h' ∧
        (h' 1).metricOrder = (exampleTree 1).metricOrder ++ [2] ∧
        (h' 2).owner = some 1 ∧
        (∀ a ∈ [1, 0], (h' a).registrationAltered = true) ∧
        (∀ a, a ∉ [1, 0] → (h' a).registrationAltered = (exampleTree a).registrationAltered) ∧
        (∀ a, a ≠ 1 → (h' a).metricOrder = (exampleTree a).metricOrder) ∧
        (∀ a, a ≠ 2 → (h' a).owner = (exampleTree a).owner) ∧
        h'.namesDistinct) ∧
    (∀ (cs : List Call) (h' : Heap),
      Heap.calls 2 exampleTree cs = Except.ok h' → h'.namesDistinct) :=
  ⟨⟨by decide, by decide, exampleTree_namesDistinct⟩, ⟨⟨_, rfl⟩, by decide⟩,
    registerMetric_appends_and_tags 2 exampleTree 1 2 [1, 0] (by decide) (by decide)
      exampleTree_namesDistinct⟩

end metrics

namespace config

/-- C26 as stated fails: the keys with config id `ab`, definition name `c` and with
config id `a`, definition name `bc` (same namespace) compare equal, because `_key` is
the concatenation of the three strings, though their config ids and definition names
differ. -/
theorem equal_keys_with_different_fields :
    exampleKeyAbC.eq exampleKeyABc = true ∧
    exampleKeyAbC.configId ≠ exampleKeyABc.configId ∧
    exampleKeyAbC.defName ≠ exampleKeyABc.defName ∧
    exampleKeyAbC.defNamespace = exampleKeyABc.defNamespace := by
  decide

theorem create_constructed (configId defName defNamespace defMd5 : String)
    (defSchema : List String) :
    (ConfigKey.create configId defName defNamespace defMd5 defSchema).constructed ∧
    (ConfigKey.createWithoutSchema configId defName defNamespace defMd5).constructed ∧
    ConfigKey.empty.constructed :=
  ⟨rfl, rfl, rfl⟩

/-- C26, amended: two keys made by the constructors compare equal (`operator==`) if and
only if the concatenations configId + defName + defNamespace of their fields are equal;
keys whose three fields are pairwise equal compare equal; `defMd5` and `defSchema` do
not take part in any of the comparisons; and for any two keys exactly one of `a < b`,
`a == b`, `a > b` holds. -/
theorem key_comparison_is_by_concatenation (a b : ConfigKey)
    (ha : a.constructed) (hb : b.constructed) :
    (a.eq b = true ↔
      a.configId ++ a.defName ++ a.defNamespace =
        b.configId ++ b.defName ++ b.defNamespace) ∧
    (a.configId = b.configId → a.defName = b.defName → a.defNamespace = b.defNamespace →
      a.eq b = true) ∧
    (∀ (md5 : String) (schema : List String),
      ({ a with defMd5 := md5, defSchema := schema } : ConfigKey).eq b = a.eq b ∧
      ({ a with defMd5 := md5, defSchema := schema } : ConfigKey).lt b = a.lt b ∧
      ({ a with defMd5 := md5, defSchema := schema } : ConfigKey).gt b = a.gt b ∧
      a.eq { b with defMd5 := md5, defSchema := schema } = a.eq b ∧
      a.lt { b with defMd5 := md5, defSchema := schema } = a.lt b ∧
      a.gt { b with defMd5 := md5, defSchema := schema } = a.gt b) ∧
    ((a.lt b = true ∧ a.eq b = false ∧ a.gt b = false) ∨
      (a.lt b = false ∧ a.eq b = true ∧ a.gt b = false) ∨
      (a.lt b = false ∧ a.eq b = false ∧ a.gt b = true)) := by
  unfold ConfigKey.constructed at ha hb
  refine ⟨?_, ?_, ?_, ?_⟩
  · unfold ConfigKey.eq
    rw [ha, hb]
    simp
  · intro h1 h2 h3
    unfold ConfigKey.eq
    rw [ha, hb, h1, h2, h3]
    simp
  · intro md5 schema
    exact ⟨rfl, rfl, rfl, rfl, rfl, rfl⟩
  · unfold ConfigKey.lt ConfigKey.gt ConfigKey.eq
    rcases lt_trichotomy a.key b.key with h | h | h
    · left
      refine ⟨by simpa using h, by simpa using (ne_of_lt h), ?_⟩
      simpa using (le_of_lt h)
    · right; left
      refine ⟨by simp [h], by simpa using h, by simp [h]⟩
    · right; right
      refine ⟨?_, by simpa using (ne_of_gt h), by simpa using h⟩
      simpa using (le_of_lt h)

/-- Witness of C26 (amended): the key `ab`/`c` against itself with another md5 and no
schema, and against the key `a`/`bc`. -/
theorem key_comparison_is_by_concatenation_witness :
    (exampleKeyAbC.constructed ∧ exampleKeyAbCOther.constructed ∧
      exampleKeyAbC.eq exampleKeyAbCOther = true ∧
      exampleKeyAbC.defMd5 ≠ exampleKeyAbCOther.defMd5) ∧
    ((exampleKeyAbC.eq exampleKeyAbCOther = true ↔
      exampleKeyAbC.configId ++ exampleKeyAbC.defName ++ exampleKeyAbC.defNamespace =
        exampleKeyAbCOther.configId ++ exampleKeyAbCOther.defName ++
          exampleKeyAbCOther.defNamespace) ∧
    (exampleKeyAbC.configId = exampleKeyAbCOther.configId →
      exampleKeyAbC.defName = exampleKeyAbCOther.defName →
      exampleKeyAbC.defNamespace = exampleKeyAbCOther.defNamespace →
      exampleKeyAbC.eq exampleKeyAbCOther = true) ∧
    (∀ (md5 : String) (schema : List String),
      ({ exampleKeyAbC with defMd5 := md5, defSchema := schema } : ConfigKey).eq
        exampleKeyAbCOther = exampleKeyAbC.eq exampleKeyAbCOther ∧
      ({ exampleKeyAbC with defMd5 := md5, defSchema := schema } : ConfigKey).lt
        exampleKeyAbCOther = exampleKeyAbC.lt exampleKeyAbCOther ∧
      ({ exampleKeyAbC with defMd5 := md5, defSchema := schema } : ConfigKey).gt
        exampleKeyAbCOther = exampleKeyAbC.gt exampleKeyAbCOther ∧
      exampleKeyAbC.eq { exampleKeyAbCOther with defMd5 := md5, defSchema := schema } =
        exampleKeyAbC.eq exampleKeyAbCOther ∧
      exampleKeyAbC.lt { exampleKeyAbCOther with defMd5 := md5, defSchema := schema } =
        exampleKeyAbC.lt exampleKeyAbCOther ∧
      exampleKeyAbC.gt { exampleKeyAbCOther with defMd5 := md5, defSchema := schema } =
        exampleKeyAbC.gt exampleKeyAbCOther) ∧
    ((exampleKeyAbC.lt exampleKeyAbCOther = true ∧ exampleKeyAbC.eq exampleKeyAbCOther = false
        ∧ exampleKeyAbC.gt exampleKeyAbCOther = false) ∨
      (exampleKeyAbC.lt exampleKeyAbCOther = false ∧
        exampleKeyAbC.eq exampleKeyAbCOther = true ∧
        exampleKeyAbC.gt exampleKeyAbCOther = false) ∨
      (exampleKeyAbC.lt exampleKeyAbCOther = false ∧
        exampleKeyAbC.eq exampleKeyAbCOther = false ∧
        exampleKeyAbC.gt exampleKeyAbCOther = true))) :=
  ⟨⟨rfl, rfl, by decide, by decide⟩,
    key_comparison_is_by_concatenation exampleKeyAbC exampleKeyAbCOther rfl rfl⟩

end config
